import Mathlib

/-!
# ListPlay: the scroll-driven playlist capture of `content-script.js`

A shallow embedding of `loadAllTracks` (content-script.js, lines 116-335) and of the
helpers it calls. The DOM, the clock and the extension storage are external: every
value the code reads from them is a field of an environment (`Env`, `Probe`), and
every request the code sends to them is recorded, in program order, in a list of
`Effect`s. Pixel quantities and clock readings are integers.
-/

namespace ListPlay

/-! ## Data model -/

/-- A captured track, the object literal pushed at line 226. -/
structure Track where
  title : String
  artists : List String
deriving DecidableEq, Repr

/-- The value stored under the key latestPlaylist (lines 244-248 and 322-326). -/
structure Snapshot where
  platform : String
  playlistTitle : String
  tracks : List Track
deriving DecidableEq, Repr

/-- Requests sent to the outside world, in program order.
`storageSet` is one call of chrome.storage.local.set with the keys it carries; `ok` is
false when the call throws (every such call sits in its own try/catch).
`flag` is an assignment to the module variable captureInProgress. -/
inductive Effect where
  | flag (value : Bool)
  | storageSet (latestPlaylist : Option Snapshot) (lastAddStatus : Option String) (ok : Bool)
  | scrollTo (target : Int)
  | sleep (ms : Nat)
deriving DecidableEq, Repr

/-! ## String helpers of the host language -/

/-- White space and line terminators stripped by String.prototype.trim. -/
def isJsSpace (c : Char) : Bool :=
  let n := c.toNat
  n == 0x9 || n == 0xA || n == 0xB || n == 0xC || n == 0xD || n == 0x20 || n == 0xA0 ||
  n == 0x1680 || (0x2000 ≤ n && n ≤ 0x200A) || n == 0x2028 || n == 0x2029 ||
  n == 0x202F || n == 0x205F || n == 0x3000 || n == 0xFEFF

/-- The method trim of a string: white space removed at both ends. -/
def trim (s : String) : String :=
  ⟨((s.data.dropWhile isJsSpace).reverse.dropWhile isJsSpace).reverse⟩

/-- Substring search on character lists. -/
def includesChars (pat : List Char) : List Char → Bool
  | [] => pat.isEmpty
  | c :: cs => pat.isPrefixOf (c :: cs) || includesChars pat cs

/-- The method includes of a string. -/
def includes (s pat : String) : Bool :=
  includesChars pat.data s.data

/-- The operator `||` on two numbers: the left operand unless it is zero. -/
def jsOr (a b : Int) : Int :=
  if a ≠ 0 then a else b

/-- Lines 10-15: the platform of the page, read from location.host. -/
def detectPlatform (host : String) : Option String :=
  if includes host "open.spotify.com" then some "spotify"
  else if includes host "music.youtube.com" then some "youtube-music"
  else if includes host "music.apple.com" then some "apple-music"
  else none

/-- The template literal of lines 268, 298, 312 and 327. -/
def statusComplete (n : Nat) : String :=
  "Capture complete. " ++ toString n ++ " songs saved."

/-! ## Rows and deduplication -/

/-- What the loop body reads from one DOM row: the textContent of the first element matched
by the title selector chain of lines 214-217 (`none` when no element matches or it has no
text), and the textContent of every artist link of line 222. -/
structure Row where
  titleText : Option String
  artistTexts : List (Option String)
deriving DecidableEq, Repr

/-- Line 218: `titleEl?.textContent?.trim()`. -/
def extractTitle (row : Row) : Option String :=
  row.titleText.map trim

/-- Lines 223-225: trimmed artist texts, filtered by `Boolean` (empty and missing ones dropped). -/
def extractArtists (row : Row) : List String :=
  row.artistTexts.filterMap (fun t => (t.map trim).filter (fun a => a ≠ ""))

/-- The mutable variables of one capture session (lines 152-157). The Set seenTitles is
kept as the list of its members in insertion order. -/
structure LoopState where
  allTracks : List Track
  seenTitles : List String
  noNewRowsCount : Nat
  stagnantScrollCount : Nat
  iteration : Nat
  reachedBottomOnce : Bool
deriving DecidableEq, Repr

/-- Lines 152-157: the initial values. -/
def LoopState.init : LoopState :=
  ⟨[], [], 0, 0, 0, false⟩

/-- The method add of a Set: no effect when the member is present. -/
def setAdd (s : List String) (t : String) : List String :=
  if t ∈ s then s else s ++ [t]

/-- Lines 213-229, the forEach callback on one row; the Boolean is the local `foundNew`. -/
def visitRow (acc : LoopState × Bool) (row : Row) : LoopState × Bool :=
  match extractTitle row with
  | some title =>
    if title ≠ "" ∧ title ∉ acc.1.seenTitles then
      ({ acc.1 with
          seenTitles := setAdd acc.1.seenTitles title
          allTracks := acc.1.allTracks ++ [⟨title, extractArtists row⟩] }, true)
    else acc
  | none => acc

/-- Line 213: forEach over the sampled rows, in row order. -/
def forEachRow (rows : List Row) (acc : LoopState × Bool) : LoopState × Bool :=
  rows.foldl visitRow acc

/-! ## The environment -/

/-- A step of the loop body at which the environment raises an exception. The source
guards the loop by try/finally without naming the call that may throw, so each DOM
access of the body is a possible point: the row query (lines 208-209), the callback on
the row of index `k` (lines 213-229, after `k` rows were visited), the measurement
(lines 255-258) and the scroll advance (lines 277-279). -/
inductive Fault where
  | query
  | extract (k : Nat)
  | measure
  | scroll
deriving DecidableEq, Repr

/-- Everything one iteration reads from the outside world. -/
structure Probe where
  rows : List Row
  fault : Option Fault
  snapshotFails : Bool
  scrollTop : Int
  scrollHeight : Int
  clientHeight : Int
  innerHeight : Int
  newScrollTop : Int
  statusFails : Bool
  now : Int

/-- Everything one invocation of loadAllTracks reads from the outside world.
`poll i` is the row query number `i` of waitForRows: `none` when it throws, else the
number of rows. `probe k` feeds iteration `k` (counted from 1, as the variable iteration). -/
structure Env where
  host : String
  titleText : Option String
  initStatusFails : Bool
  poll : Nat → Option Nat
  containerFault : Bool
  startedAt : Int
  probe : Nat → Probe
  finallyStatusFails : Bool
  finalWriteFails : Bool

/-! ## The scroll loop -/

/-- How the while loop of lines 205-307 was left. `fuelOut` is the exhaustion of the
recursion budget of `scrollLoop`; it does not occur (see `scrollLoop_fuel`). -/
inductive LoopExit where
  | bottomStable
  | stall
  | timeout
  | ceiling
  | threw
  | fuelOut
deriving DecidableEq, Repr

/-- Line 159. -/
def maxDurationMs : Int := 5 * 60 * 1000

/-- Lines 255-259: `remaining` as measured by a probe. -/
def remaining (p : Probe) : Int :=
  jsOr p.scrollHeight 0 - (jsOr p.scrollTop 0 + jsOr (jsOr p.clientHeight p.innerHeight) 0)

/-- Line 259. -/
def atBottom (p : Probe) : Bool :=
  decide (remaining p ≤ 2)

/-- The rows visited by the forEach of an iteration: all of them, unless the callback
throws at row `k`. -/
def visitedRows (p : Probe) : List Row :=
  match p.fault with
  | some (Fault.extract k) => p.rows.take k
  | _ => p.rows

/-- Whether the forEach of an iteration ends by an exception. -/
def extractThrows (p : Probe) : Bool :=
  match p.fault with
  | some (Fault.extract k) => decide (k < p.rows.length)
  | _ => false

/-- The result of one execution of the loop body: `exit` is `none` when the loop goes on
to the next test of its condition. -/
structure Step where
  exit : Option LoopExit
  state : LoopState
  effects : List Effect
deriving DecidableEq, Repr

/-- Line 206: the variables after `iteration++`. -/
def stateEntered (s : LoopState) : LoopState :=
  { s with iteration := s.iteration + 1 }

/-- Lines 212-229: the variables after the forEach, and the local `foundNew`. -/
def stateSampled (p : Probe) (s : LoopState) : LoopState × Bool :=
  forEachRow (visitedRows p) (stateEntered s, false)

/-- Lines 233-238: noNewRowsCount is incremented when nothing new was found, else reset. -/
def stateCounted (p : Probe) (s : LoopState) : LoopState :=
  { (stateSampled p s).1 with
      noNewRowsCount :=
        if (stateSampled p s).2 then 0 else (stateSampled p s).1.noNewRowsCount + 1 }

/-- Lines 241-253: the incremental snapshot write, skipped once reachedBottomOnce holds. -/
def snapshotWrite (platform playlistTitle : String) (p : Probe) (s : LoopState) : List Effect :=
  if (stateCounted p s).reachedBottomOnce then []
  else [Effect.storageSet (some ⟨platform, playlistTitle, (stateCounted p s).allTracks⟩) none
          (!p.snapshotFails)]

/-- Lines 255-262: the bottom measurement. -/
def stateMeasured (p : Probe) (s : LoopState) : LoopState :=
  { stateCounted p s with
      reachedBottomOnce := (stateCounted p s).reachedBottomOnce || atBottom p }

/-- Lines 282-287: stagnantScrollCount after the scroll advance was re-read. -/
def stateScrolled (p : Probe) (s : LoopState) : LoopState :=
  { stateMeasured p s with
      stagnantScrollCount :=
        if p.newScrollTop = p.scrollTop then (stateMeasured p s).stagnantScrollCount + 1
        else 0 }

/-- One execution of the loop body, lines 206-306. -/
def loopBody (platform playlistTitle : String) (startedAt : Int) (p : Probe)
    (s : LoopState) : Step :=
  -- lines 208-209
  if p.fault = some Fault.query then ⟨some LoopExit.threw, stateEntered s, []⟩ else
  -- lines 212-229
  if extractThrows p then ⟨some LoopExit.threw, (stateSampled p s).1, []⟩ else
  -- lines 255-258
  if p.fault = some Fault.measure then
    ⟨some LoopExit.threw, stateCounted p s, snapshotWrite platform playlistTitle p s⟩ else
  -- lines 264-274
  if (stateMeasured p s).reachedBottomOnce ∧ (stateMeasured p s).noNewRowsCount ≥ 1 then
    ⟨some LoopExit.bottomStable, stateMeasured p s,
      snapshotWrite platform playlistTitle p s ++
        [Effect.storageSet none (some (statusComplete (stateMeasured p s).allTracks.length))
          (!p.statusFails)]⟩
  else
  -- lines 277-279
  if p.fault = some Fault.scroll then
    ⟨some LoopExit.threw, stateMeasured p s, snapshotWrite platform playlistTitle p s⟩ else
  -- lines 289-292
  if (stateScrolled p s).stagnantScrollCount ≥ 3 ∧ (stateScrolled p s).noNewRowsCount ≥ 2 then
    ⟨some LoopExit.stall, stateScrolled p s,
      snapshotWrite platform playlistTitle p s ++ [Effect.scrollTo (p.scrollTop + 350)]⟩
  else
  -- lines 294-304
  if p.now - startedAt > maxDurationMs then
    ⟨some LoopExit.timeout, stateScrolled p s,
      snapshotWrite platform playlistTitle p s ++
        [Effect.scrollTo (p.scrollTop + 350),
         Effect.storageSet none (some (statusComplete (stateScrolled p s).allTracks.length))
          (!p.statusFails)]⟩
  else
  -- line 306
  ⟨none, stateScrolled p s,
    snapshotWrite platform playlistTitle p s ++
      [Effect.scrollTo (p.scrollTop + 350), Effect.sleep 1500]⟩

/-- A run of the while loop: how it was left, the variables at that point, the effects
in program order, and `history`, the variables after each executed iteration. -/
structure LoopRun where
  exit : LoopExit
  state : LoopState
  effects : List Effect
  history : List LoopState
deriving DecidableEq, Repr

/-- The while loop of lines 205-307, from the variables `s`. The first argument bounds the
recursion; the loop itself stops by its own condition `iteration < 200`. -/
def scrollLoop (platform playlistTitle : String) (startedAt : Int) (probe : Nat → Probe) :
    Nat → LoopState → LoopRun
  | 0, s => ⟨LoopExit.fuelOut, s, [], []⟩
  | fuel + 1, s =>
    if s.iteration < 200 then
      let step := loopBody platform playlistTitle startedAt (probe (s.iteration + 1)) s
      match step.exit with
      | some e => ⟨e, step.state, step.effects, [step.state]⟩
      | none =>
        let rest := scrollLoop platform playlistTitle startedAt probe fuel step.state
        ⟨rest.exit, rest.state, step.effects ++ rest.effects, step.state :: rest.history⟩
    else ⟨LoopExit.ceiling, s, [], []⟩

/-! ## loadAllTracks -/

/-- Lines 161-168: `waitForRows attempts`, started at query number `i`. Returns the
sleeps it requested and the row count of the query it returns (`none`: a query threw). -/
def waitForRows (poll : Nat → Option Nat) : Nat → Nat → List Effect × Option Nat
  | 0, i => ([], poll i)
  | attempts + 1, i =>
    match poll i with
    | none => ([], none)
    | some 0 =>
      let rest := waitForRows poll attempts (i + 1)
      (Effect.sleep 500 :: rest.1, rest.2)
    | some (n + 1) => ([], some (n + 1))

/-- The result of one invocation: the value the promise resolves to (`none` when it
rejects), the value of captureInProgress afterwards, the effects in program order and
the run of the scroll loop when it was entered. -/
structure Outcome where
  returned : Option (List Track)
  captureInProgress : Bool
  effects : List Effect
  loop : Option LoopRun
deriving DecidableEq, Repr

/-- Line 147: the playlist title. -/
def playlistTitleOf (env : Env) : String :=
  match env.titleText.map trim with
  | some t => if t ≠ "" then t else "Playlist"
  | none => "Playlist"

/-- Lines 119-335: loadAllTracks, invoked with the module variable captureInProgress
holding the given value. -/
def loadAllTracks (captureInProgress : Bool) (env : Env) : Outcome :=
  -- lines 120-123
  if captureInProgress then ⟨some [], true, [], none⟩ else
  -- lines 124-132
  let e0 : List Effect :=
    [Effect.flag true,
     Effect.storageSet none (some "Capturing playlist...") (!env.initStatusFails)]
  -- lines 134-138
  match detectPlatform env.host with
  | none => ⟨some [], false, e0 ++ [Effect.flag false], none⟩
  | some platform =>
    let playlistTitle := playlistTitleOf env
    -- line 193
    let waited := waitForRows env.poll 12 0
    let e1 := e0 ++ waited.1
    match waited.2 with
    | none => ⟨none, true, e1, none⟩
    -- lines 194-198
    | some 0 => ⟨some [], false, e1 ++ [Effect.flag false], none⟩
    | some (_ + 1) =>
      -- line 200
      if env.containerFault then ⟨none, true, e1, none⟩ else
      -- lines 204-307
      let run := scrollLoop platform playlistTitle env.startedAt env.probe 201 LoopState.init
      -- lines 308-317
      let e2 := e1 ++ run.effects ++
        [Effect.flag false,
         Effect.storageSet none (some (statusComplete run.state.allTracks.length))
           (!env.finallyStatusFails)]
      if run.exit = LoopExit.threw then ⟨none, false, e2, some run⟩ else
      -- lines 320-334
      ⟨some run.state.allTracks, false,
        e2 ++ [Effect.storageSet (some ⟨platform, playlistTitle, run.state.allTracks⟩)
                (some (statusComplete run.state.allTracks.length)) (!env.finalWriteFails)],
        some run⟩


/-! ## Specification side of the deduplication, and run invariants -/

/-- First-occurrence deduplication by title, after the words of the specification: the
head is kept, and every later track with the title of the head is dropped. -/
def firstOccurrences : List Track → List Track
  | [] => []
  | t :: ts => t :: (firstOccurrences ts).filter (fun u => u.title ≠ t.title)

/-- The track a row stands for in the specification: its trimmed title when that is
present and non-empty, with the artists extracted from the same row. -/
def rowTrack (row : Row) : Option Track :=
  match extractTitle row with
  | some title => if title ≠ "" then some ⟨title, extractArtists row⟩ else none
  | none => none

/-- The tracks of all rows sampled in iterations 1 to `n`, in iteration order and then
row order. -/
def sampledTracks (probe : Nat → Probe) : Nat → List Track
  | 0 => []
  | n + 1 => sampledTracks probe n ++ (probe (n + 1)).rows.filterMap rowTrack

/-- Appending a track unless its title is already held. -/
def absorb (acc : List Track) (c : Track) : List Track :=
  if c.title ∈ acc.map Track.title then acc else acc ++ [c]

/-- The Set seenTitles lists the titles of allTracks, in the same order. -/
def Synced (s : LoopState) : Prop :=
  s.seenTitles = s.allTracks.map Track.title

/-- The variables hold the deduplicated tracks of the iterations executed so far. -/
def Collected (probe : Nat → Probe) (s : LoopState) : Prop :=
  Synced s ∧ s.allTracks = (sampledTracks probe s.iteration).foldl absorb []

/-- The dedup invariant of a capture session: no title twice in allTracks, and seenTitles
holds exactly the titles of allTracks. -/
def DedupInvariant (s : LoopState) : Prop :=
  (s.allTracks.map Track.title).Nodup ∧
  ∀ t, t ∈ s.seenTitles ↔ ∃ x ∈ s.allTracks, x.title = t

/-- A row with a title text and artist texts, all present. -/
def rowOf (title : String) (artists : List String) : Row :=
  ⟨some title, artists.map some⟩

/-- A sample run: iteration 1 sees two new rows away from the bottom; every later
iteration sees one new row among repeated and empty ones, at the bottom, and the scroll
offset no longer moves. -/
def demoProbe (k : Nat) : Probe :=
  if k = 1 then
    ⟨[rowOf " A " ["x", " "], rowOf "B" []], none, false, 0, 1000, 650, 700, 350, false, 1000⟩
  else
    ⟨[rowOf "B" ["z"], rowOf "C" ["y"], ⟨none, []⟩, rowOf "  " ["v"], rowOf "A" ["w"]],
      none, false, 350, 1000, 650, 700, 350, false, 2000⟩

/-- The environment of the sample run. -/
def demoEnv : Env :=
  ⟨"open.spotify.com", some " Mix ", false, fun _ => some 2, false, 0, demoProbe, false, false⟩

/-- The scroll loop of the sample run. -/
def demoRun : LoopRun :=
  scrollLoop "spotify" "Mix" 0 demoProbe 201 LoopState.init

/-- An environment whose first row query in waitForRows throws. -/
def pollFaultEnv : Env :=
  { demoEnv with poll := fun _ => none }

/-- An environment where findScrollableParent throws once rows were found. -/
def containerFaultEnv : Env :=
  { demoEnv with containerFault := true }

/-- An environment whose second iteration throws in the forEach callback, on the row of
index 2, after the rows of index 0 and 1 were visited. -/
def bodyFaultEnv : Env :=
  { demoEnv with
      probe := fun k =>
        if k = 1 then demoProbe 1 else { demoProbe 2 with fault := some (Fault.extract 2) } }

/-- An environment of a supported page on which every row query finds no row. -/
def noRowsEnv : Env :=
  { demoEnv with poll := fun _ => some 0 }

/-- A run that measures the bottom in iteration 1 only: later measurements leave more than
2 pixels, since the content grew. -/
def jitterProbe (k : Nat) : Probe :=
  if k = 1 then
    ⟨[rowOf "A" []], none, false, 350, 1000, 650, 700, 350, false, 1000⟩
  else if k = 2 then
    ⟨[rowOf "A" [], rowOf "B" []], none, false, 350, 2000, 650, 700, 700, false, 2000⟩
  else
    ⟨[rowOf "A" [], rowOf "B" []], none, false, 700, 2000, 650, 700, 1050, false, 3000⟩

/-- The environment of the run of `jitterProbe`. -/
def jitterEnv : Env :=
  { demoEnv with probe := jitterProbe }

/-- The scroll loop of the run of `jitterProbe`. -/
def jitterRun : LoopRun :=
  scrollLoop "spotify" "Mix" 0 jitterProbe 201 LoopState.init

/-- The value of the key lastAddStatus in the extension storage after a list of effects,
from the value `before`: a storageSet that carries the key and does not throw replaces it. -/
def lastAddStatusAfter (before : Option String) : List Effect → Option String
  | [] => before
  | Effect.storageSet _ (some text) true :: rest => lastAddStatusAfter (some text) rest
  | _ :: rest => lastAddStatusAfter before rest

/-- Whether an effect is a storage write that carries a snapshot (the key latestPlaylist). -/
def Effect.isSnapshotWrite : Effect → Bool
  | Effect.storageSet (some _) _ _ => true
  | _ => false

/-- Whether an effect is a scroll request. -/
def Effect.isScroll : Effect → Bool
  | Effect.scrollTo _ => true
  | _ => false

/-- The effects of lines 124-193, issued before the scroll loop is entered. -/
def effectsBeforeLoop (env : Env) : List Effect :=
  [Effect.flag true,
   Effect.storageSet none (some "Capturing playlist...") (!env.initStatusFails)] ++
    (waitForRows env.poll 12 0).1

/-- The effects of the iteration executed from the variables `a`, which is iteration
number `a.iteration + 1`. -/
def iterationEffects (platform playlistTitle : String) (startedAt : Int)
    (probe : Nat → Probe) (a : LoopState) : List Effect :=
  (loopBody platform playlistTitle startedAt (probe (a.iteration + 1)) a).effects

/-- The condition of check A (line 264), for the iteration fed by `p` from the variables `s`. -/
def checkA (p : Probe) (s : LoopState) : Prop :=
  (stateMeasured p s).reachedBottomOnce = true ∧ (stateMeasured p s).noNewRowsCount ≥ 1

/-- The condition of check B (line 289), for the iteration fed by `p` from the variables `s`. -/
def checkB (p : Probe) (s : LoopState) : Prop :=
  (stateScrolled p s).stagnantScrollCount ≥ 3 ∧ (stateScrolled p s).noNewRowsCount ≥ 2

instance (p : Probe) (s : LoopState) : Decidable (checkA p s) := by
  unfold checkA
  infer_instance

instance (p : Probe) (s : LoopState) : Decidable (checkB p s) := by
  unfold checkB
  infer_instance

/-- The variables of the sample run after its first iteration. -/
def demoState1 : LoopState :=
  ⟨[⟨"A", ["x"]⟩, ⟨"B", []⟩], ["A", "B"], 0, 0, 1, false⟩

/-- The variables of the sample run after its second iteration. -/
def demoState2 : LoopState :=
  ⟨[⟨"A", ["x"]⟩, ⟨"B", []⟩, ⟨"C", ["y"]⟩], ["A", "B", "C"], 0, 1, 2, true⟩

/-- A run whose clock has passed the limit in iteration 2, while new rows still arrive and
the bottom is not reached. -/
def lateProbe (k : Nat) : Probe :=
  if k = 1 then
    ⟨[rowOf "A" []], none, false, 0, 5000, 650, 700, 350, false, 1000⟩
  else
    ⟨[rowOf "A" [], rowOf "B" []], none, false, 350, 5000, 650, 700, 700, false, 300001⟩

/-- The environment of the run of `lateProbe`. -/
def lateEnv : Env :=
  { demoEnv with probe := lateProbe }

/-- The scroll loop of the run of `lateProbe`. -/
def lateRun : LoopRun :=
  scrollLoop "spotify" "Mix" 0 lateProbe 201 LoopState.init

/-- A run that never ends by itself: every iteration finds a row with a new title, the
bottom is never measured, the offset always moves and the clock stands still. -/
def endlessProbe (k : Nat) : Probe :=
  ⟨[rowOf (toString k) []], none, false, 0, 5000, 650, 700, 350, false, 0⟩

/-- The environment of the run of `endlessProbe`. -/
def endlessEnv : Env :=
  { demoEnv with probe := endlessProbe }

/-- The scroll loop of the run of `endlessProbe`. -/
def endlessRun : LoopRun :=
  scrollLoop "spotify" "Mix" 0 endlessProbe 201 LoopState.init

/-- Two probes that read the same from the page and the clock: they differ at most in
which storage writes fail. -/
def Probe.sameReads (p q : Probe) : Prop :=
  p.rows = q.rows ∧ p.fault = q.fault ∧ p.scrollTop = q.scrollTop ∧
  p.scrollHeight = q.scrollHeight ∧ p.clientHeight = q.clientHeight ∧
  p.innerHeight = q.innerHeight ∧ p.newScrollTop = q.newScrollTop ∧ p.now = q.now

/-- Two environments that read the same from the page and the clock: they differ at most
in which storage writes (initial status, incremental snapshots, status at a break, status
of the finally block, final write) fail. -/
def Env.sameReads (e f : Env) : Prop :=
  e.host = f.host ∧ e.titleText = f.titleText ∧ e.poll = f.poll ∧
  e.containerFault = f.containerFault ∧ e.startedAt = f.startedAt ∧
  ∀ k, (e.probe k).sameReads (f.probe k)

/-- An environment in which no call to the page throws. -/
def Env.noFault (e : Env) : Prop :=
  (∀ i, e.poll i ≠ none) ∧ e.containerFault = false ∧ ∀ k, (e.probe k).fault = none

/-- The sample environment with every storage write failing. -/
def demoEnvWritesFail : Env :=
  { demoEnv with
      initStatusFails := true
      finallyStatusFails := true
      finalWriteFails := true
      probe := fun k => { demoProbe k with snapshotFails := true, statusFails := true } }

/-- Every retained track has a non-empty title, which is the trimmed text of some row. -/
def TitlesExtracted (s : LoopState) : Prop :=
  ∀ t ∈ s.allTracks, t.title ≠ "" ∧ ∃ text, t.title = trim text

/-- A probe of the sample run's page on which no row yields a title: one row without
title element, one whose title text is white space only. -/
def untitledProbe : Probe :=
  { demoProbe 2 with rows := [⟨none, [some "x"]⟩, rowOf " \n " ["y"]] }

/-- The tracks held after an iteration that samples the rows of `p` from the variables
`s`: those of `s`, then the tracks of the rows whose title is new. -/
def tracksAfter (p : Probe) (s : LoopState) : List Track :=
  (p.rows.filterMap rowTrack).foldl absorb s.allTracks

/-- The counter noNewRowsCount after such an iteration. -/
def noNewAfter (p : Probe) (s : LoopState) : Nat :=
  if s.allTracks.length < (tracksAfter p s).length then 0 else s.noNewRowsCount + 1

/-- The counter stagnantScrollCount after the scroll advance of such an iteration. -/
def stagnantAfter (p : Probe) (s : LoopState) : Nat :=
  if p.newScrollTop = p.scrollTop then s.stagnantScrollCount + 1 else 0

/-- A page whose rows never yield a title: the same single row without title element in
every iteration, an offset that never moves, a bottom that is never measured and a
clock that stands still. -/
def untitledStallProbe (_k : Nat) : Probe :=
  ⟨[⟨none, []⟩], none, false, 0, 5000, 650, 700, 0, false, 0⟩

/-- The environment of the run of `untitledStallProbe`. -/
def untitledStallEnv : Env :=
  { demoEnv with probe := untitledStallProbe }

/-- The five rows of the first scenario of the specification. -/
def fiveRows : List Row :=
  [rowOf "T1" ["a"], rowOf "T2" [], rowOf "T3" [], rowOf "T4" [], rowOf "T5" ["b", "c"]]

/-- The first scenario of the specification: the same five rows in every iteration, an
offset that never moves, no bottom measured, within the time limit. -/
def stallProbe (k : Nat) : Probe :=
  ⟨fiveRows, none, false, 0, 5000, 650, 700, 0, false, 1500 * k⟩

/-- The environment of the run of `stallProbe`. -/
def stallEnv : Env :=
  { demoEnv with probe := stallProbe }

/-- The scroll loop of the run of `stallProbe`. -/
def stallRun : LoopRun :=
  scrollLoop "spotify" "Mix" 0 stallProbe 201 LoopState.init

/-- Rows with the titles T`a`, T`a + 1`, ..., `n` of them. -/
def titledRows (a n : Nat) : List Row :=
  (List.range n).map (fun i => rowOf ("T" ++ toString (a + i)) [])

/-- The second scenario of the specification: iterations 1, 2 and 3 each show ten rows
with new titles, every later iteration shows the same thirty rows; the offset moves by
350 at each request, and the measurement first leaves at most 2 pixels in iteration 4. -/
def bottomProbe (k : Nat) : Probe :=
  ⟨if k = 1 then titledRows 1 10 else if k = 2 then titledRows 11 10
    else if k = 3 then titledRows 21 10 else titledRows 1 30,
   none, false, 350 * (k - 1 : Nat), 1700, 650, 700, 350 * k, false, 1500 * k⟩

/-- The environment of the run of `bottomProbe`. -/
def bottomEnv : Env :=
  { demoEnv with probe := bottomProbe }

/-- The scroll loop of the run of `bottomProbe`. -/
def bottomRun : LoopRun :=
  scrollLoop "spotify" "Mix" 0 bottomProbe 201 LoopState.init

/-- Whether an effect releases the flag: the assignment captureInProgress = false. -/
def Effect.isFlagRelease : Effect → Bool
  | Effect.flag false => true
  | _ => false

/-- Whether an effect is a storage write that carries both keys, as the final write of
lines 321-328 does. -/
def Effect.isFinalWrite : Effect → Bool
  | Effect.storageSet (some _) (some _) _ => true
  | _ => false

/-- Whether an effect is a storage write that carries the given status text. -/
def Effect.hasStatus (text : String) : Effect → Bool
  | Effect.storageSet _ (some t) _ => t == text
  | _ => false

/-! ## The popup and the refresh path -/

/-- Lines 60-67 of popup.js: isSupportedTab, on the url of the active tab (`none` when
the tab or its url is missing). -/
def isSupportedTab (tabUrl : Option String) : Bool :=
  match tabUrl with
  | none => false
  | some url =>
    if url = "" then false
    else includes url "open.spotify.com" || includes url "music.youtube.com" ||
      includes url "music.apple.com"

/-- A track as the popup reads it from storage; `artists` may be missing (line 29 of
popup.js guards it by `|| []`). -/
structure StoredTrack where
  title : String
  artists : Option (List String)
deriving DecidableEq, Repr

/-- The value of the key latestPlaylist as the popup reads it; every field may be missing. -/
structure StoredPlaylist where
  platform : Option String
  playlistTitle : Option String
  tracks : Option (List StoredTrack)
deriving DecidableEq, Repr

/-- What renderPlaylist writes to the popup: the text of the three labels, the list items
whose concatenation, in order, is the innerHTML of the track list, and the display style
of the empty state. -/
structure PopupView where
  platformChip : String
  playlistName : String
  trackCount : String
  trackItems : List String
  emptyStateDisplay : String
deriving DecidableEq, Repr

/-- The innerHTML of the track list. -/
def PopupView.innerHTML (v : PopupView) : String :=
  String.join v.trackItems

/-- The operator `||` on a string that may be missing: the default when it is missing or
empty. -/
def orDefault (s : Option String) (default : String) : String :=
  match s with
  | some t => if t ≠ "" then t else default
  | none => default

/-- Lines 26-33 of popup.js: the list item of one track. -/
def trackItem (track : StoredTrack) : String :=
  "\n            <li>\n              <div class=\"track-title\">" ++ track.title ++
  "</div>\n              <div class=\"track-artist\">" ++
  String.intercalate ", " (track.artists.getD []) ++
  "</div>\n            </li>\n          "

/-- Lines 37-39 of popup.js: the list item that counts the tracks left out. -/
def moreItem (count : Nat) : String :=
  "<li class=\"track-artist\">+ " ++ toString count ++ " more…</li>"

/-- Lines 7-41 of popup.js: renderPlaylist, on the stored playlist (`none` for null). -/
def renderPlaylist (playlist : Option StoredPlaylist) : PopupView :=
  match playlist with
  | none => ⟨"Waiting", "No playlist detected", "0", [], "block"⟩
  | some pl =>
    match pl.tracks with
    | none => ⟨"Waiting", "No playlist detected", "0", [], "block"⟩
    | some tracks =>
      if tracks.length = 0 then ⟨"Waiting", "No playlist detected", "0", [], "block"⟩
      else
        let limited := tracks.take 20
        ⟨orDefault pl.platform "Source", orDefault pl.playlistTitle "Playlist",
          toString tracks.length,
          limited.map trackItem ++
            (if tracks.length > limited.length then [moreItem (tracks.length - limited.length)]
             else []),
          "none"⟩

/-- A stored playlist of `n` tracks S1, S2, ..., `n` of them. -/
def storedPlaylist (n : Nat) : StoredPlaylist :=
  ⟨some "spotify", some "Mix",
    some ((List.range n).map (fun i => ⟨"S" ++ toString (i + 1), some ["a", "b"]⟩))⟩

/-- Lines 346-349 of content-script.js: the fingerprint of a scraped payload, from its
platform, its number of tracks and its first three titles. -/
def fingerprint (payload : Snapshot) : String :=
  payload.platform ++ ":" ++ toString payload.tracks.length ++ ":" ++
    String.intercalate "|" ((payload.tracks.take 3).map Track.title)

/-- What the guarded call `chrome.storage?.local?.set?.(...)` of line 355 meets: a missing
API, so that no call is made, a call that throws (caught at line 359), or a call that
stores the value. -/
inductive StorageCall where
  | missing
  | throws
  | succeeds
deriving DecidableEq, Repr

/-- The effects of the storage call of line 355 on a payload. -/
def storeLatest (payload : Snapshot) : StorageCall → List Effect
  | StorageCall.missing => []
  | StorageCall.throws => [Effect.storageSet (some payload) none false]
  | StorageCall.succeeds => [Effect.storageSet (some payload) none true]

/-- The result of one run of the body of sendPlaylist: the module variable lastFingerprint
afterwards, and the effects. -/
structure SendResult where
  lastFingerprint : String
  effects : List Effect
deriving DecidableEq, Repr

/-- Lines 338-362 of content-script.js: the body of sendPlaylist, without the debounce
timer, run with the module variable lastFingerprint holding the given value, on the
payload returned by scrapePlatform (`none` for null). -/
def sendPlaylist (lastFingerprint : String) (payload : Option Snapshot)
    (storage : StorageCall) : SendResult :=
  match payload with
  | none => ⟨lastFingerprint, []⟩
  | some p =>
    if p.tracks.length = 0 then ⟨lastFingerprint, []⟩
    else if fingerprint p = lastFingerprint then ⟨lastFingerprint, []⟩
    else ⟨fingerprint p, storeLatest p storage⟩

/-- A payload of the refresh path: four tracks. -/
def payloadA : Snapshot :=
  ⟨"spotify", "Mix", [⟨"A", ["x"]⟩, ⟨"B", []⟩, ⟨"C", ["y"]⟩, ⟨"D", []⟩]⟩

/-- A payload with the platform, the number of tracks and the first three titles of
`payloadA`, and other artists, another fourth track and another playlist title. -/
def payloadB : Snapshot :=
  ⟨"spotify", "Other", [⟨"A", []⟩, ⟨"B", ["z"]⟩, ⟨"C", []⟩, ⟨"E", ["w"]⟩]⟩

/-! ## Lemmas on the forEach callback -/

theorem visitRow_eq (acc : LoopState × Bool) (row : Row) (h : Synced acc.1) :
    (visitRow acc row).1 =
      { acc.1 with
          allTracks := (match rowTrack row with
            | some c => absorb acc.1.allTracks c
            | none => acc.1.allTracks)
          seenTitles := (match rowTrack row with
            | some c => absorb acc.1.allTracks c
            | none => acc.1.allTracks).map Track.title } := by
  unfold Synced at h
  unfold visitRow rowTrack absorb
  cases hrow : extractTitle row with
  | none => simp [← h]
  | some title =>
    by_cases h1 : title = ""
    · simp [h1, ← h]
    · by_cases h2 : title ∈ acc.1.seenTitles
      · simp [h1, h2, ← h]
      · have h2b := h2
        rw [h] at h2b
        simp at h2b
        have hne : ¬ ∃ a ∈ acc.1.allTracks, a.title = title := by
          push_neg
          exact h2b
        simp [h1, h2, setAdd, hne]
        simp [h]

theorem visitRow_synced (acc : LoopState × Bool) (row : Row) (h : Synced acc.1) :
    Synced (visitRow acc row).1 := by
  rw [visitRow_eq acc row h]
  rfl

theorem visitRow_allTracks (acc : LoopState × Bool) (row : Row) (h : Synced acc.1) :
    (visitRow acc row).1.allTracks =
      (match rowTrack row with
        | some c => absorb acc.1.allTracks c
        | none => acc.1.allTracks) := by
  rw [visitRow_eq acc row h]

theorem visitRow_counters (acc : LoopState × Bool) (row : Row) :
    (visitRow acc row).1.noNewRowsCount = acc.1.noNewRowsCount ∧
    (visitRow acc row).1.stagnantScrollCount = acc.1.stagnantScrollCount ∧
    (visitRow acc row).1.iteration = acc.1.iteration ∧
    (visitRow acc row).1.reachedBottomOnce = acc.1.reachedBottomOnce := by
  unfold visitRow
  split
  · split <;> simp
  · simp

theorem forEachRow_counters (rows : List Row) (acc : LoopState × Bool) :
    (forEachRow rows acc).1.noNewRowsCount = acc.1.noNewRowsCount ∧
    (forEachRow rows acc).1.stagnantScrollCount = acc.1.stagnantScrollCount ∧
    (forEachRow rows acc).1.iteration = acc.1.iteration ∧
    (forEachRow rows acc).1.reachedBottomOnce = acc.1.reachedBottomOnce := by
  induction rows generalizing acc with
  | nil => simp [forEachRow]
  | cons r rs ih =>
    have h1 := visitRow_counters acc r
    have h2 := ih (visitRow acc r)
    simp only [forEachRow, List.foldl_cons] at h2 ⊢
    refine ⟨?_, ?_, ?_, ?_⟩
    · rw [h2.1, h1.1]
    · rw [h2.2.1, h1.2.1]
    · rw [h2.2.2.1, h1.2.2.1]
    · rw [h2.2.2.2, h1.2.2.2]

theorem forEachRow_synced (rows : List Row) (acc : LoopState × Bool) (h : Synced acc.1) :
    Synced (forEachRow rows acc).1 := by
  induction rows generalizing acc with
  | nil => simpa [forEachRow] using h
  | cons r rs ih =>
    simp only [forEachRow, List.foldl_cons]
    exact ih (visitRow acc r) (visitRow_synced acc r h)

theorem forEachRow_allTracks (rows : List Row) (acc : LoopState × Bool) (h : Synced acc.1) :
    (forEachRow rows acc).1.allTracks =
      (rows.filterMap rowTrack).foldl absorb acc.1.allTracks := by
  induction rows generalizing acc with
  | nil => simp [forEachRow]
  | cons r rs ih =>
    simp only [forEachRow, List.foldl_cons]
    have h1 := ih (visitRow acc r) (visitRow_synced acc r h)
    simp only [forEachRow] at h1
    rw [h1, visitRow_allTracks acc r h]
    cases hr : rowTrack r with
    | none => simp [List.filterMap_cons, hr]
    | some c => simp [List.filterMap_cons, hr]

theorem absorb_titles_nodup (acc : List Track) (c : Track)
    (h : (acc.map Track.title).Nodup) : ((absorb acc c).map Track.title).Nodup := by
  unfold absorb
  split
  · exact h
  · rename_i hc
    rw [List.map_append, List.nodup_append]
    refine ⟨h, by simp, ?_⟩
    intro a ha hb
    simp at hb
    subst hb
    exact hc ha

theorem absorb_extends (acc : List Track) (c : Track) : acc <+: absorb acc c := by
  unfold absorb
  split
  · exact List.prefix_refl _
  · exact List.prefix_append _ _

theorem foldl_absorb_extends (l : List Track) (acc : List Track) :
    acc <+: l.foldl absorb acc := by
  induction l generalizing acc with
  | nil => exact List.prefix_refl _
  | cons c cs ih => exact (absorb_extends acc c).trans (ih (absorb acc c))

theorem foldl_absorb_nodup (l : List Track) (acc : List Track)
    (h : (acc.map Track.title).Nodup) : ((l.foldl absorb acc).map Track.title).Nodup := by
  induction l generalizing acc with
  | nil => exact h
  | cons c cs ih => exact ih (absorb acc c) (absorb_titles_nodup acc c h)

theorem foldl_absorb_eq (l : List Track) (acc : List Track) :
    l.foldl absorb acc =
      acc ++ (firstOccurrences l).filter (fun u => u.title ∉ acc.map Track.title) := by
  induction l generalizing acc with
  | nil => simp [firstOccurrences]
  | cons c cs ih =>
    rw [List.foldl_cons, ih]
    unfold absorb
    by_cases hc : c.title ∈ acc.map Track.title
    · simp only [hc, if_true, firstOccurrences]
      rw [List.filter_cons]
      simp only [hc, not_true_eq_false, decide_False, Bool.false_eq_true, if_false]
      rw [List.filter_filter]
      congr 1
      apply List.filter_congr
      intro u _
      by_cases hu : u.title ∈ acc.map Track.title
      · simp [hu]
      · have : u.title ≠ c.title := fun e => hu (e ▸ hc)
        simp [hu, this]
    · simp only [hc, if_false, firstOccurrences]
      rw [List.filter_cons]
      simp only [hc, not_false_eq_true, decide_True, if_true]
      rw [List.filter_filter, List.append_assoc]
      congr 1
      simp only [List.singleton_append]
      congr 1
      apply List.filter_congr
      intro u _
      simp [List.map_append, not_or]

theorem foldl_absorb_nil (l : List Track) : l.foldl absorb [] = firstOccurrences l := by
  rw [foldl_absorb_eq]
  simp


theorem visitRow_extends (acc : LoopState × Bool) (row : Row) :
    acc.1.allTracks <+: (visitRow acc row).1.allTracks := by
  unfold visitRow
  split
  · split
    · exact List.prefix_append _ _
    · exact List.prefix_refl _
  · exact List.prefix_refl _

theorem forEachRow_extends (rows : List Row) (acc : LoopState × Bool) :
    acc.1.allTracks <+: (forEachRow rows acc).1.allTracks := by
  induction rows generalizing acc with
  | nil => exact List.prefix_refl _
  | cons r rs ih =>
    simp only [forEachRow, List.foldl_cons]
    exact (visitRow_extends acc r).trans (ih (visitRow acc r))

theorem stateSampled_counters (p : Probe) (s : LoopState) :
    (stateSampled p s).1.noNewRowsCount = s.noNewRowsCount ∧
    (stateSampled p s).1.stagnantScrollCount = s.stagnantScrollCount ∧
    (stateSampled p s).1.iteration = s.iteration + 1 ∧
    (stateSampled p s).1.reachedBottomOnce = s.reachedBottomOnce :=
  forEachRow_counters (visitedRows p) (stateEntered s, false)

/-- The variables allTracks and seenTitles after one execution of the loop body are those
left by the forEach (or the old ones when the row query threw); iteration is one more. -/
theorem loopBody_state (platform playlistTitle : String) (startedAt : Int) (p : Probe)
    (s : LoopState) :
    (loopBody platform playlistTitle startedAt p s).state.iteration = s.iteration + 1 ∧
    ((loopBody platform playlistTitle startedAt p s).state.allTracks =
        (if p.fault = some Fault.query then s.allTracks
         else (stateSampled p s).1.allTracks)) ∧
    ((loopBody platform playlistTitle startedAt p s).state.seenTitles =
        (if p.fault = some Fault.query then s.seenTitles
         else (stateSampled p s).1.seenTitles)) := by
  have hc := (stateSampled_counters p s).2.2.1
  unfold loopBody
  by_cases hq : p.fault = some Fault.query
  · simp [hq, stateEntered]
  · simp only [hq, if_false]
    split_ifs <;> exact ⟨hc, rfl, rfl⟩

theorem loopBody_bottom_kept (platform playlistTitle : String) (startedAt : Int) (p : Probe)
    (s : LoopState) (h : s.reachedBottomOnce = true) :
    (loopBody platform playlistTitle startedAt p s).state.reachedBottomOnce = true := by
  have hc := (stateSampled_counters p s).2.2.2
  rw [h] at hc
  unfold loopBody
  split_ifs <;> simp [stateEntered, stateScrolled, stateMeasured, stateCounted, hc, h]

theorem loopBody_bottom_set (platform playlistTitle : String) (startedAt : Int) (p : Probe)
    (s : LoopState) (hq : p.fault ≠ some Fault.query) (hx : extractThrows p = false)
    (hm : p.fault ≠ some Fault.measure) (h : atBottom p = true) :
    (loopBody platform playlistTitle startedAt p s).state.reachedBottomOnce = true := by
  unfold loopBody
  simp only [hq, hx, hm, if_false, Bool.false_eq_true]
  split_ifs <;> simp [stateScrolled, stateMeasured, h]

theorem visitedRows_of_not_throws (p : Probe) (h : extractThrows p = false) :
    visitedRows p = p.rows := by
  unfold extractThrows at h
  unfold visitedRows
  split
  · rename_i k hk
    simp only [hk, decide_eq_false_iff_not, not_lt] at h
    exact List.take_of_length_le h
  · rfl

theorem loopBody_not_threw (platform playlistTitle : String) (startedAt : Int) (p : Probe)
    (s : LoopState)
    (h : (loopBody platform playlistTitle startedAt p s).exit ≠ some LoopExit.threw) :
    p.fault ≠ some Fault.query ∧ extractThrows p = false := by
  unfold loopBody at h
  by_cases hq : p.fault = some Fault.query
  · simp [hq] at h
  · refine ⟨hq, ?_⟩
    by_cases hx : extractThrows p = true
    · simp [hq, hx] at h
    · simpa using hx

theorem stateSampled_synced (p : Probe) (s : LoopState) (h : Synced s) :
    Synced (stateSampled p s).1 :=
  forEachRow_synced (visitedRows p) (stateEntered s, false) h

theorem loopBody_synced (platform playlistTitle : String) (startedAt : Int) (p : Probe)
    (s : LoopState) (h : Synced s) :
    Synced (loopBody platform playlistTitle startedAt p s).state := by
  have hs := loopBody_state platform playlistTitle startedAt p s
  have h1 := stateSampled_synced p s h
  unfold Synced at h h1 ⊢
  rw [hs.2.1, hs.2.2]
  split
  · exact h
  · exact h1

theorem loopBody_extends (platform playlistTitle : String) (startedAt : Int) (p : Probe)
    (s : LoopState) :
    s.allTracks <+: (loopBody platform playlistTitle startedAt p s).state.allTracks := by
  rw [(loopBody_state platform playlistTitle startedAt p s).2.1]
  split
  · exact List.prefix_refl _
  · exact forEachRow_extends (visitedRows p) (stateEntered s, false)

theorem loopBody_nodup (platform playlistTitle : String) (startedAt : Int) (p : Probe)
    (s : LoopState) (h : Synced s) (hn : (s.allTracks.map Track.title).Nodup) :
    ((loopBody platform playlistTitle startedAt p s).state.allTracks.map Track.title).Nodup := by
  rw [(loopBody_state platform playlistTitle startedAt p s).2.1]
  split
  · exact hn
  · unfold stateSampled
    rw [forEachRow_allTracks _ _ h]
    exact foldl_absorb_nodup _ _ hn

theorem loopBody_collects (platform playlistTitle : String) (startedAt : Int) (p : Probe)
    (s : LoopState) (h : Synced s)
    (hx : (loopBody platform playlistTitle startedAt p s).exit ≠ some LoopExit.threw) :
    (loopBody platform playlistTitle startedAt p s).state.allTracks =
      (p.rows.filterMap rowTrack).foldl absorb s.allTracks := by
  obtain ⟨hq, he⟩ := loopBody_not_threw platform playlistTitle startedAt p s hx
  rw [(loopBody_state platform playlistTitle startedAt p s).2.1, if_neg hq]
  unfold stateSampled
  rw [forEachRow_allTracks _ _ h, visitedRows_of_not_throws p he]
  rfl

/-! ### The loop -/

theorem loopBody_exit_ne_fuelOut (platform playlistTitle : String) (startedAt : Int)
    (p : Probe) (s : LoopState) :
    (loopBody platform playlistTitle startedAt p s).exit ≠ some LoopExit.fuelOut := by
  unfold loopBody
  split_ifs <;> simp

theorem scrollLoop_zero (platform playlistTitle : String) (startedAt : Int)
    (probe : Nat → Probe) (s : LoopState) :
    scrollLoop platform playlistTitle startedAt probe 0 s = ⟨LoopExit.fuelOut, s, [], []⟩ := by
  simp [scrollLoop]

theorem scrollLoop_ceiling (platform playlistTitle : String) (startedAt : Int)
    (probe : Nat → Probe) (fuel : Nat) (s : LoopState) (h : ¬ s.iteration < 200) :
    scrollLoop platform playlistTitle startedAt probe (fuel + 1) s =
      ⟨LoopExit.ceiling, s, [], []⟩ := by
  simp [scrollLoop, h]

theorem scrollLoop_stop (platform playlistTitle : String) (startedAt : Int)
    (probe : Nat → Probe) (fuel : Nat) (s : LoopState) (e : LoopExit) (h : s.iteration < 200)
    (he : (loopBody platform playlistTitle startedAt (probe (s.iteration + 1)) s).exit = some e) :
    scrollLoop platform playlistTitle startedAt probe (fuel + 1) s =
      ⟨e, (loopBody platform playlistTitle startedAt (probe (s.iteration + 1)) s).state,
        (loopBody platform playlistTitle startedAt (probe (s.iteration + 1)) s).effects,
        [(loopBody platform playlistTitle startedAt (probe (s.iteration + 1)) s).state]⟩ := by
  simp [scrollLoop, h, he]

theorem scrollLoop_continue (platform playlistTitle : String) (startedAt : Int)
    (probe : Nat → Probe) (fuel : Nat) (s : LoopState) (h : s.iteration < 200)
    (he : (loopBody platform playlistTitle startedAt (probe (s.iteration + 1)) s).exit = none) :
    scrollLoop platform playlistTitle startedAt probe (fuel + 1) s =
      ⟨(scrollLoop platform playlistTitle startedAt probe fuel
          (loopBody platform playlistTitle startedAt (probe (s.iteration + 1)) s).state).exit,
       (scrollLoop platform playlistTitle startedAt probe fuel
          (loopBody platform playlistTitle startedAt (probe (s.iteration + 1)) s).state).state,
       (loopBody platform playlistTitle startedAt (probe (s.iteration + 1)) s).effects ++
        (scrollLoop platform playlistTitle startedAt probe fuel
          (loopBody platform playlistTitle startedAt (probe (s.iteration + 1)) s).state).effects,
       (loopBody platform playlistTitle startedAt (probe (s.iteration + 1)) s).state ::
        (scrollLoop platform playlistTitle startedAt probe fuel
          (loopBody platform playlistTitle startedAt (probe (s.iteration + 1)) s).state).history⟩ := by
  simp [scrollLoop, h, he]

/-- The recursion budget is never the reason the loop stops: the condition
`iteration < 200` fails first. -/
theorem scrollLoop_fuel (platform playlistTitle : String) (startedAt : Int)
    (probe : Nat → Probe) (fuel : Nat) (s : LoopState) (h : 200 - s.iteration < fuel) :
    (scrollLoop platform playlistTitle startedAt probe fuel s).exit ≠ LoopExit.fuelOut := by
  induction fuel generalizing s with
  | zero => omega
  | succ fuel ih =>
    by_cases hlt : s.iteration < 200
    · cases he : (loopBody platform playlistTitle startedAt (probe (s.iteration + 1)) s).exit with
      | some e =>
        rw [scrollLoop_stop _ _ _ _ _ _ e hlt he]
        intro h1
        have := loopBody_exit_ne_fuelOut platform playlistTitle startedAt
          (probe (s.iteration + 1)) s
        rw [he] at this
        simp at h1
        exact this (by rw [h1])
      | none =>
        rw [scrollLoop_continue _ _ _ _ _ _ hlt he]
        apply ih
        rw [(loopBody_state platform playlistTitle startedAt (probe (s.iteration + 1)) s).1]
        omega
    · rw [scrollLoop_ceiling _ _ _ _ _ _ hlt]
      simp

/-- Consecutive entries of the history are related by one execution of the loop body. -/
theorem scrollLoop_history_succ (platform playlistTitle : String) (startedAt : Int)
    (probe : Nat → Probe) (fuel : Nat) (s : LoopState) (k : Nat) (a b : LoopState)
    (ha : (s :: (scrollLoop platform playlistTitle startedAt probe fuel s).history)[k]? = some a)
    (hb : (s :: (scrollLoop platform playlistTitle startedAt probe fuel s).history)[k + 1]? =
      some b) :
    a.iteration < 200 ∧
    b = (loopBody platform playlistTitle startedAt (probe (a.iteration + 1)) a).state := by
  induction fuel generalizing s k with
  | zero => simp [scrollLoop_zero] at hb
  | succ fuel ih =>
    by_cases hlt : s.iteration < 200
    · cases he : (loopBody platform playlistTitle startedAt (probe (s.iteration + 1)) s).exit with
      | some e =>
        rw [scrollLoop_stop _ _ _ _ _ _ e hlt he] at ha hb
        cases k with
        | zero =>
          simp at ha hb
          subst ha
          exact ⟨hlt, hb.symm⟩
        | succ k => simp at hb
      | none =>
        rw [scrollLoop_continue _ _ _ _ _ _ hlt he] at ha hb
        cases k with
        | zero =>
          simp at ha hb
          subst ha
          exact ⟨hlt, hb.symm⟩
        | succ k =>
          simp only [List.getElem?_cons_succ] at ha hb
          exact ih _ k ha (by simpa using hb)
    · rw [scrollLoop_ceiling _ _ _ _ _ _ hlt] at hb
      simp at hb

/-- The variables when the loop is left are the last entry of the history. -/
theorem scrollLoop_state_last (platform playlistTitle : String) (startedAt : Int)
    (probe : Nat → Probe) (fuel : Nat) (s : LoopState) :
    (s :: (scrollLoop platform playlistTitle startedAt probe fuel s).history)[
        (scrollLoop platform playlistTitle startedAt probe fuel s).history.length]? =
      some (scrollLoop platform playlistTitle startedAt probe fuel s).state := by
  induction fuel generalizing s with
  | zero => simp [scrollLoop_zero]
  | succ fuel ih =>
    by_cases hlt : s.iteration < 200
    · cases he : (loopBody platform playlistTitle startedAt (probe (s.iteration + 1)) s).exit with
      | some e =>
        rw [scrollLoop_stop _ _ _ _ _ _ e hlt he]
        simp
      | none =>
        rw [scrollLoop_continue _ _ _ _ _ _ hlt he]
        simpa using ih _
    · rw [scrollLoop_ceiling _ _ _ _ _ _ hlt]
      simp

/-- A reflexive and transitive relation that every execution of the loop body respects
holds between any earlier and any later entry of the history. -/
theorem scrollLoop_history_mono (platform playlistTitle : String) (startedAt : Int)
    (probe : Nat → Probe) (fuel : Nat) (s : LoopState) (R : LoopState → LoopState → Prop)
    (hrefl : ∀ x, R x x) (htrans : ∀ x y z, R x y → R y z → R x z)
    (hstep : ∀ p x, R x (loopBody platform playlistTitle startedAt p x).state)
    (k j : Nat) (a b : LoopState) (hkj : k ≤ j)
    (ha : (s :: (scrollLoop platform playlistTitle startedAt probe fuel s).history)[k]? = some a)
    (hb : (s :: (scrollLoop platform playlistTitle startedAt probe fuel s).history)[j]? = some b) :
    R a b := by
  induction j generalizing b with
  | zero =>
    have : k = 0 := by omega
    subst this
    rw [ha] at hb
    cases hb
    exact hrefl a
  | succ j ih =>
    by_cases hk : k = j + 1
    · subst hk
      rw [ha] at hb
      cases hb
      exact hrefl a
    · have hlen := (List.getElem?_eq_some.mp hb).1
      have hj : j < (s :: (scrollLoop platform playlistTitle startedAt probe fuel s).history).length := by
        omega
      have hc := List.getElem?_eq_getElem hj
      have h1 := ih _ (by omega) hc
      have h2 := scrollLoop_history_succ platform playlistTitle startedAt probe fuel s j _ b hc hb
      rw [h2.2]
      exact htrans _ _ _ h1 (hstep _ _)

/-- A property that holds at the start and that every execution of the loop body
preserves holds at every entry of the history. -/
theorem scrollLoop_history_all (platform playlistTitle : String) (startedAt : Int)
    (probe : Nat → Probe) (fuel : Nat) (s : LoopState) (P : LoopState → Prop)
    (hstep : ∀ p x, P x → P (loopBody platform playlistTitle startedAt p x).state)
    (hs : P s) (k : Nat) (a : LoopState)
    (ha : (s :: (scrollLoop platform playlistTitle startedAt probe fuel s).history)[k]? = some a) :
    P a := by
  induction k generalizing a with
  | zero =>
    simp at ha
    exact ha ▸ hs
  | succ k ih =>
    have hlen := (List.getElem?_eq_some.mp ha).1
    have hk : k < (s :: (scrollLoop platform playlistTitle startedAt probe fuel s).history).length := by
      omega
    have hc := List.getElem?_eq_getElem hk
    have h2 := scrollLoop_history_succ platform playlistTitle startedAt probe fuel s k _ a hc ha
    rw [h2.2]
    exact hstep _ _ (ih _ hc)

/-- The entry number `k` of the history holds the variables after `k` iterations. -/
theorem scrollLoop_history_iteration (platform playlistTitle : String) (startedAt : Int)
    (probe : Nat → Probe) (fuel : Nat) (s : LoopState) (k : Nat) (a : LoopState)
    (ha : (s :: (scrollLoop platform playlistTitle startedAt probe fuel s).history)[k]? = some a) :
    a.iteration = s.iteration + k := by
  induction k generalizing a with
  | zero =>
    simp at ha
    simp [← ha]
  | succ k ih =>
    have hlen := (List.getElem?_eq_some.mp ha).1
    have hk : k < (s :: (scrollLoop platform playlistTitle startedAt probe fuel s).history).length := by
      omega
    have hc := List.getElem?_eq_getElem hk
    have h2 := scrollLoop_history_succ platform playlistTitle startedAt probe fuel s k _ a hc ha
    rw [h2.2, (loopBody_state _ _ _ _ _).1, ih _ hc]
    omega

theorem loopBody_collected (platform playlistTitle : String) (startedAt : Int)
    (probe : Nat → Probe) (s : LoopState) (h : Collected probe s)
    (hx : (loopBody platform playlistTitle startedAt (probe (s.iteration + 1)) s).exit ≠
      some LoopExit.threw) :
    Collected probe
      (loopBody platform playlistTitle startedAt (probe (s.iteration + 1)) s).state := by
  refine ⟨loopBody_synced _ _ _ _ _ h.1, ?_⟩
  rw [loopBody_collects _ _ _ _ _ h.1 hx, (loopBody_state _ _ _ _ _).1, h.2]
  simp [sampledTracks, List.foldl_append]

theorem scrollLoop_collected (platform playlistTitle : String) (startedAt : Int)
    (probe : Nat → Probe) (fuel : Nat) (s : LoopState) (h : Collected probe s)
    (hx : (scrollLoop platform playlistTitle startedAt probe fuel s).exit ≠ LoopExit.threw) :
    Collected probe (scrollLoop platform playlistTitle startedAt probe fuel s).state := by
  induction fuel generalizing s with
  | zero => simpa [scrollLoop_zero] using h
  | succ fuel ih =>
    by_cases hlt : s.iteration < 200
    · cases he : (loopBody platform playlistTitle startedAt (probe (s.iteration + 1)) s).exit with
      | some e =>
        rw [scrollLoop_stop _ _ _ _ _ _ e hlt he] at hx ⊢
        apply loopBody_collected _ _ _ _ _ h
        rw [he]
        intro h1
        simp at h1 hx
        exact hx h1
      | none =>
        rw [scrollLoop_continue _ _ _ _ _ _ hlt he] at hx ⊢
        apply ih _ _ hx
        apply loopBody_collected _ _ _ _ _ h
        rw [he]
        simp
    · rw [scrollLoop_ceiling _ _ _ _ _ _ hlt]
      exact h

theorem collected_init (probe : Nat → Probe) : Collected probe LoopState.init := by
  simp [Collected, Synced, LoopState.init, sampledTracks]

/-- The number of executed iterations is the final value of the variable iteration. -/
theorem scrollLoop_history_length (platform playlistTitle : String) (startedAt : Int)
    (probe : Nat → Probe) (fuel : Nat) (s : LoopState) :
    (scrollLoop platform playlistTitle startedAt probe fuel s).state.iteration =
      s.iteration + (scrollLoop platform playlistTitle startedAt probe fuel s).history.length :=
  scrollLoop_history_iteration platform playlistTitle startedAt probe fuel s _ _
    (scrollLoop_state_last platform playlistTitle startedAt probe fuel s)

/-- When the scroll loop was entered, the invocation is the run of the loop from the
initial variables, between the effects issued before it and the cleanup after it. -/
theorem loadAllTracks_entered (env : Env) (run : LoopRun)
    (h : (loadAllTracks false env).loop = some run) :
    ∃ platform,
      detectPlatform env.host = some platform ∧
      run = scrollLoop platform (playlistTitleOf env) env.startedAt env.probe 201
              LoopState.init ∧
      (loadAllTracks false env).captureInProgress = false ∧
      (loadAllTracks false env).returned =
        (if run.exit = LoopExit.threw then none else some run.state.allTracks) ∧
      (loadAllTracks false env).effects =
        effectsBeforeLoop env ++ run.effects ++
          [Effect.flag false,
           Effect.storageSet none (some (statusComplete run.state.allTracks.length))
             (!env.finallyStatusFails)] ++
          (if run.exit = LoopExit.threw then []
           else [Effect.storageSet
                  (some ⟨platform, playlistTitleOf env, run.state.allTracks⟩)
                  (some (statusComplete run.state.allTracks.length))
                  (!env.finalWriteFails)]) := by
  unfold loadAllTracks at h ⊢
  simp only [Bool.false_eq_true, if_false] at h ⊢
  cases hp : detectPlatform env.host with
  | none => simp [hp] at h
  | some platform =>
    simp only [hp] at h ⊢
    refine ⟨platform, rfl, ?_⟩
    cases hw : (waitForRows env.poll 12 0).2 with
    | none => simp [hw] at h
    | some n =>
      cases n with
      | zero => simp [hw] at h
      | succ n =>
        simp only [hw] at h ⊢
        by_cases hc : env.containerFault = true
        · simp [hc] at h
        · have hc2 : env.containerFault = false := by simpa using hc
          simp only [hc2, Bool.false_eq_true, if_false] at h ⊢
          by_cases hx : (scrollLoop platform (playlistTitleOf env) env.startedAt env.probe 201
              LoopState.init).exit = LoopExit.threw
          · simp only [hx, if_true] at h ⊢
            simp only [Option.some.injEq] at h
            subst h
            simp [hx, effectsBeforeLoop]
          · simp only [hx, if_false] at h ⊢
            simp only [Option.some.injEq] at h
            subst h
            simp [hx, effectsBeforeLoop]

theorem firstOccurrences_first (l : List Track) (t : Track) (h : t ∈ firstOccurrences l) :
    ∃ pre post, l = pre ++ t :: post ∧ ∀ u ∈ pre, u.title ≠ t.title := by
  induction l with
  | nil => simp [firstOccurrences] at h
  | cons c cs ih =>
    simp only [firstOccurrences, List.mem_cons, List.mem_filter] at h
    rcases h with h | ⟨h1, h2⟩
    · subst h
      exact ⟨[], cs, rfl, by simp⟩
    · obtain ⟨pre, post, hl, hpre⟩ := ih h1
      refine ⟨c :: pre, post, by simp [hl], ?_⟩
      intro u hu
      rcases List.mem_cons.mp hu with hu | hu
      · subst hu
        simp at h2
        exact fun e => h2 e.symm
      · exact hpre u hu

theorem dedupInvariant_of (s : LoopState) (h : Synced s)
    (hn : (s.allTracks.map Track.title).Nodup) : DedupInvariant s := by
  refine ⟨hn, ?_⟩
  intro t
  rw [h]
  simp

/-! ## The claims -/

/-- Claim C1: For every run of loadAllTracks that leaves the scroll loop without an exception,
the returned list is the first-occurrence deduplication by title (equality of the trimmed
text) of the rows with a non-empty title sampled in the executed iterations, taken in
iteration order and then row order; every retained track is the one of the row where its
title occurs first, so it carries that row's artists. -/
theorem loadAllTracks_first_occurrences (env : Env) (run : LoopRun)
    (hrun : (loadAllTracks false env).loop = some run)
    (hexit : run.exit ≠ LoopExit.threw) :
    run.history.length = run.state.iteration ∧
    (loadAllTracks false env).returned =
      some (firstOccurrences (sampledTracks env.probe run.state.iteration)) ∧
    ∀ t ∈ firstOccurrences (sampledTracks env.probe run.state.iteration),
      ∃ pre post, sampledTracks env.probe run.state.iteration = pre ++ t :: post ∧
        ∀ u ∈ pre, u.title ≠ t.title := by
  obtain ⟨platform, _, hr, _, hret, _⟩ := loadAllTracks_entered env run hrun
  refine ⟨?_, ?_, fun t ht => firstOccurrences_first _ t ht⟩
  · have := scrollLoop_history_length platform (playlistTitleOf env) env.startedAt env.probe
      201 LoopState.init
    rw [← hr] at this
    simpa [LoopState.init] using this.symm
  · rw [hret, if_neg hexit]
    have hc := scrollLoop_collected platform (playlistTitleOf env) env.startedAt env.probe 201
      LoopState.init (collected_init env.probe) (by rw [← hr]; exact hexit)
    rw [← hr] at hc
    rw [hc.2, foldl_absorb_nil]

/-- Claim C1: on the sample run: three iterations, the returned tracks are A, B and C with the
artists of their first rows. -/
theorem loadAllTracks_first_occurrences_witness :
    ((loadAllTracks false demoEnv).loop = some demoRun ∧ demoRun.exit ≠ LoopExit.threw) ∧
    (loadAllTracks false demoEnv).returned =
      some [⟨"A", ["x"]⟩, ⟨"B", []⟩, ⟨"C", ["y"]⟩] ∧
    demoRun.history.length = 3 :=
  have h := loadAllTracks_first_occurrences demoEnv demoRun (by rfl) (by decide)
  ⟨⟨by rfl, by decide⟩, h.2.1.trans (by rfl), h.1.trans (by rfl)⟩

/-- Claim C2: Dedup invariant: at every point of every capture run, that is after any number of
iterations (every entry of the history and the variables when the loop is left) and after
any number of rows visited from such a point, for any row samples, allTracks holds no
two entries with the same title and seenTitles is exactly the set of titles of allTracks. -/
theorem dedup_invariant (env : Env) (run : LoopRun)
    (hrun : (loadAllTracks false env).loop = some run) (k : Nat) (s : LoopState)
    (hs : (LoopState.init :: run.history)[k]? = some s) (rows : List Row) (b : Bool) :
    DedupInvariant s ∧ DedupInvariant (forEachRow rows (stateEntered s, b)).1 ∧
    DedupInvariant run.state := by
  obtain ⟨platform, _, hr, _⟩ := loadAllTracks_entered env run hrun
  have hall : ∀ (j : Nat) (x : LoopState), (LoopState.init :: run.history)[j]? = some x →
      Synced x ∧ (x.allTracks.map Track.title).Nodup := by
    intro j x hx
    rw [hr] at hx
    exact scrollLoop_history_all platform (playlistTitleOf env) env.startedAt env.probe 201
      LoopState.init (fun x => Synced x ∧ (x.allTracks.map Track.title).Nodup)
      (fun p x hx => ⟨loopBody_synced _ _ _ p x hx.1, loopBody_nodup _ _ _ p x hx.1 hx.2⟩)
      (by simp [Synced, LoopState.init]) j x hx
  have hlast : (LoopState.init :: run.history)[run.history.length]? = some run.state := by
    rw [hr]
    exact scrollLoop_state_last _ _ _ _ _ _
  have h1 := hall k s hs
  have h2 := hall _ _ hlast
  refine ⟨dedupInvariant_of s h1.1 h1.2, ?_, dedupInvariant_of _ h2.1 h2.2⟩
  have hsy : Synced (stateEntered s, b).1 := h1.1
  apply dedupInvariant_of _ (forEachRow_synced rows _ hsy)
  rw [forEachRow_allTracks rows _ hsy]
  exact foldl_absorb_nodup _ _ h1.2

/-- Claim C2: on the sample run: the variables after the second iteration, and after two more
rows with a repeated title. -/
theorem dedup_invariant_witness :
    ((loadAllTracks false demoEnv).loop = some demoRun ∧
      (LoopState.init :: demoRun.history)[2]? =
        some ⟨[⟨"A", ["x"]⟩, ⟨"B", []⟩, ⟨"C", ["y"]⟩], ["A", "B", "C"], 0, 1, 2, true⟩) ∧
    DedupInvariant (⟨[⟨"A", ["x"]⟩, ⟨"B", []⟩, ⟨"C", ["y"]⟩], ["A", "B", "C"], 0, 1, 2, true⟩ :
      LoopState) ∧
    DedupInvariant demoRun.state :=
  have h := dedup_invariant demoEnv demoRun (by rfl) 2
    ⟨[⟨"A", ["x"]⟩, ⟨"B", []⟩, ⟨"C", ["y"]⟩], ["A", "B", "C"], 0, 1, 2, true⟩ (by rfl)
    [rowOf "C" ["q"], rowOf "C" []] false
  ⟨⟨by rfl, by rfl⟩, h.1, h.2.2⟩

/-- Claim C3: Order invariant: allTracks after any iteration is an initial segment of allTracks
after any later iteration (the list is append-only), so a track keeps its position and
its artists; and visiting a row whose title was already seen changes nothing. -/
theorem order_invariant (env : Env) (run : LoopRun)
    (hrun : (loadAllTracks false env).loop = some run) (k j : Nat) (a b : LoopState)
    (hkj : k ≤ j)
    (ha : (LoopState.init :: run.history)[k]? = some a)
    (hb : (LoopState.init :: run.history)[j]? = some b) :
    a.allTracks <+: b.allTracks ∧
    (∀ (i : Nat) (t : Track), a.allTracks[i]? = some t → b.allTracks[i]? = some t) ∧
    (∀ (acc : LoopState × Bool) (row : Row) (title : String),
      extractTitle row = some title → title ∈ acc.1.seenTitles → visitRow acc row = acc) := by
  obtain ⟨platform, _, hr, _⟩ := loadAllTracks_entered env run hrun
  rw [hr] at ha hb
  have hpre : a.allTracks <+: b.allTracks :=
    scrollLoop_history_mono platform (playlistTitleOf env) env.startedAt env.probe 201
      LoopState.init (fun x y => x.allTracks <+: y.allTracks)
      (fun x => List.prefix_refl _) (fun x y z h1 h2 => List.IsPrefix.trans h1 h2)
      (fun p x => loopBody_extends _ _ _ p x) k j a b hkj ha hb
  refine ⟨hpre, ?_, ?_⟩
  · intro i t hi
    obtain ⟨r, hr2⟩ := hpre
    rw [← hr2]
    have hlt := (List.getElem?_eq_some.mp hi).1
    rw [List.getElem?_append_left hlt]
    exact hi
  · intro acc row title ht hseen
    unfold visitRow
    simp [ht, hseen]

/-- Claim C3: on the sample run: the tracks after iteration 1 open the list after iteration 3. -/
theorem order_invariant_witness :
    ((loadAllTracks false demoEnv).loop = some demoRun ∧ 1 ≤ 3 ∧
      (LoopState.init :: demoRun.history)[1]? =
        some ⟨[⟨"A", ["x"]⟩, ⟨"B", []⟩], ["A", "B"], 0, 0, 1, false⟩ ∧
      (LoopState.init :: demoRun.history)[3]? =
        some ⟨[⟨"A", ["x"]⟩, ⟨"B", []⟩, ⟨"C", ["y"]⟩], ["A", "B", "C"], 1, 1, 3, true⟩) ∧
    ([⟨"A", ["x"]⟩, ⟨"B", []⟩] : List Track) <+: [⟨"A", ["x"]⟩, ⟨"B", []⟩, ⟨"C", ["y"]⟩] :=
  ⟨⟨by rfl, by decide, by rfl, by rfl⟩,
    (order_invariant demoEnv demoRun (by rfl) 1 3
      ⟨[⟨"A", ["x"]⟩, ⟨"B", []⟩], ["A", "B"], 0, 0, 1, false⟩
      ⟨[⟨"A", ["x"]⟩, ⟨"B", []⟩, ⟨"C", ["y"]⟩], ["A", "B", "C"], 1, 1, 3, true⟩
      (by decide) (by rfl) (by rfl)).1⟩

/-- Claim C4: Mutual exclusion: invoked while captureInProgress is true, loadAllTracks returns
the empty list at once, issues no effect at all (no storage write, no scroll request, no
sleep, no assignment to the flag), does not enter the scroll loop and leaves
captureInProgress true. -/
theorem mutual_exclusion (env : Env) :
    (loadAllTracks true env).returned = some [] ∧
    (loadAllTracks true env).effects = [] ∧
    (loadAllTracks true env).loop = none ∧
    (loadAllTracks true env).captureInProgress = true := by
  simp [loadAllTracks]

/-- The flag is left set exactly when the invocation was interrupted by an exception
before the scroll loop was entered. -/
theorem flag_release_paths (env : Env) :
    (loadAllTracks false env).captureInProgress = true ↔
      ((loadAllTracks false env).returned = none ∧ (loadAllTracks false env).loop = none) := by
  unfold loadAllTracks
  simp only [Bool.false_eq_true, if_false]
  cases detectPlatform env.host with
  | none => simp
  | some platform =>
    simp only
    cases (waitForRows env.poll 12 0).2 with
    | none => simp
    | some n =>
      cases n with
      | zero => simp
      | succ n =>
        simp only
        split_ifs <;> simp

/-- Claim C5: evaluated on the code: an exception in the row polling of waitForRows, or in the
scroll-container discovery, leaves loadAllTracks before the try/finally of line 204 is
entered, so captureInProgress stays true although the invocation acquired it; the next
invocation is then refused by the guard. -/
theorem flag_kept_by_exception_before_loop :
    (loadAllTracks false pollFaultEnv).captureInProgress = true ∧
    (loadAllTracks false pollFaultEnv).returned = none ∧
    (loadAllTracks false pollFaultEnv).effects =
      [Effect.flag true, Effect.storageSet none (some "Capturing playlist...") true] ∧
    (loadAllTracks false containerFaultEnv).captureInProgress = true ∧
    (loadAllTracks false containerFaultEnv).returned = none ∧
    (loadAllTracks false containerFaultEnv).effects =
      [Effect.flag true, Effect.storageSet none (some "Capturing playlist...") true] ∧
    (loadAllTracks (loadAllTracks false pollFaultEnv).captureInProgress demoEnv).returned =
      some [] :=
  ⟨by rfl, by rfl, by rfl, by rfl, by rfl, by rfl, by rfl⟩

/-- Claim C6: evaluated on the code: when the second iteration throws after a third track was
appended, the finally block releases the flag and writes the status for 3 songs, then the
exception leaves loadAllTracks: the final snapshot write of lines 320-331 is not issued,
and the only snapshot written holds the 2 tracks of iteration 1. -/
theorem no_final_snapshot_after_exception :
    (loadAllTracks false bodyFaultEnv).returned = none ∧
    (loadAllTracks false bodyFaultEnv).captureInProgress = false ∧
    (loadAllTracks false bodyFaultEnv).loop.map (fun r => r.state.allTracks) =
      some [⟨"A", ["x"]⟩, ⟨"B", []⟩, ⟨"C", ["y"]⟩] ∧
    (loadAllTracks false bodyFaultEnv).effects =
      [Effect.flag true,
       Effect.storageSet none (some "Capturing playlist...") true,
       Effect.storageSet (some ⟨"spotify", "Mix", [⟨"A", ["x"]⟩, ⟨"B", []⟩]⟩) none true,
       Effect.scrollTo 350,
       Effect.sleep 1500,
       Effect.flag false,
       Effect.storageSet none (some "Capture complete. 3 songs saved.") true] :=
  ⟨by rfl, by rfl, by rfl, by rfl⟩

/-- What does hold when the loop body throws: the promise rejects, the flag is released,
and the last effect is the status write of the finally block, with the number of tracks
accumulated so far; no snapshot write follows the effects of the loop. -/
theorem cleanup_after_exception (env : Env) (run : LoopRun)
    (hrun : (loadAllTracks false env).loop = some run)
    (hexit : run.exit = LoopExit.threw) :
    (loadAllTracks false env).returned = none ∧
    (loadAllTracks false env).captureInProgress = false ∧
    (loadAllTracks false env).effects =
      effectsBeforeLoop env ++ run.effects ++
        [Effect.flag false,
         Effect.storageSet none (some (statusComplete run.state.allTracks.length))
           (!env.finallyStatusFails)] := by
  obtain ⟨platform, _, _, hflag, hret, heff⟩ := loadAllTracks_entered env run hrun
  refine ⟨?_, hflag, ?_⟩
  · rw [hret, if_pos hexit]
  · rw [heff, if_pos hexit]
    simp

/-- The bottom flag is never reset by an execution of the loop body. -/
theorem reachedBottomOnce_kept (env : Env) (run : LoopRun)
    (hrun : (loadAllTracks false env).loop = some run) (k j : Nat) (a b : LoopState)
    (hkj : k ≤ j)
    (ha : (LoopState.init :: run.history)[k]? = some a)
    (hb : (LoopState.init :: run.history)[j]? = some b)
    (h : a.reachedBottomOnce = true) : b.reachedBottomOnce = true := by
  obtain ⟨platform, _, hr, _⟩ := loadAllTracks_entered env run hrun
  rw [hr] at ha hb
  exact scrollLoop_history_mono platform (playlistTitleOf env) env.startedAt env.probe 201
    LoopState.init (fun x y => x.reachedBottomOnce = true → y.reachedBottomOnce = true)
    (fun x h => h) (fun x y z h1 h2 h => h2 (h1 h))
    (fun p x h => loopBody_bottom_kept _ _ _ p x h) k j a b hkj ha hb h

/-- Claim C7: Monotonic bottom flag: when iteration `k + 1` of a run executes its measurement
and measures `remaining ≤ 2`, reachedBottomOnce is true after that iteration and after
every later iteration `j + 1` of the run, whatever the later iterations measure. -/
theorem bottom_flag_monotonic (env : Env) (run : LoopRun)
    (hrun : (loadAllTracks false env).loop = some run) (k j : Nat) (a b : LoopState)
    (hkj : k ≤ j)
    (ha : run.history[k]? = some a) (hb : run.history[j]? = some b)
    (hq : (env.probe (k + 1)).fault ≠ some Fault.query)
    (hx : extractThrows (env.probe (k + 1)) = false)
    (hm : (env.probe (k + 1)).fault ≠ some Fault.measure)
    (hbot : remaining (env.probe (k + 1)) ≤ 2) :
    a.reachedBottomOnce = true ∧ b.reachedBottomOnce = true := by
  obtain ⟨platform, _, hr, _⟩ := loadAllTracks_entered env run hrun
  have ha2 : (LoopState.init :: run.history)[k + 1]? = some a := by simpa using ha
  have hb2 : (LoopState.init :: run.history)[j + 1]? = some b := by simpa using hb
  have hlen := (List.getElem?_eq_some.mp ha2).1
  have hk : k < (LoopState.init :: run.history).length := by omega
  have hc := List.getElem?_eq_getElem hk
  have hit : ((LoopState.init :: run.history)[k]).iteration = k := by
    have := scrollLoop_history_iteration platform (playlistTitleOf env) env.startedAt
      env.probe 201 LoopState.init k _ (by rw [← hr]; exact hc)
    simpa [LoopState.init] using this
  have hstep := scrollLoop_history_succ platform (playlistTitleOf env) env.startedAt
    env.probe 201 LoopState.init k _ a (by rw [← hr]; exact hc) (by rw [← hr]; exact ha2)
  rw [hit] at hstep
  have hA : a.reachedBottomOnce = true := by
    rw [hstep.2]
    exact loopBody_bottom_set _ _ _ _ _ hq hx hm (by simp [atBottom, hbot])
  exact ⟨hA, reachedBottomOnce_kept env run hrun (k + 1) (j + 1) a b (by omega) ha2 hb2 hA⟩

/-- Claim C7: on a run that measures the bottom in iteration 1 and 650 remaining pixels in
iteration 3: the flag is still true after iteration 3. -/
theorem bottom_flag_monotonic_witness :
    ((loadAllTracks false jitterEnv).loop = some jitterRun ∧ 0 ≤ 2 ∧
      jitterRun.history[0]? = some ⟨[⟨"A", []⟩], ["A"], 0, 1, 1, true⟩ ∧
      jitterRun.history[2]? =
        some ⟨[⟨"A", []⟩, ⟨"B", []⟩], ["A", "B"], 1, 0, 3, true⟩ ∧
      remaining (jitterEnv.probe 1) ≤ 2 ∧ remaining (jitterEnv.probe 3) = 650) ∧
    (⟨[⟨"A", []⟩, ⟨"B", []⟩], ["A", "B"], 1, 0, 3, true⟩ : LoopState).reachedBottomOnce = true :=
  ⟨⟨by rfl, by decide, by rfl, by rfl, by decide, by rfl⟩,
    (bottom_flag_monotonic jitterEnv jitterRun (by rfl) 0 2
      ⟨[⟨"A", []⟩], ["A"], 0, 1, 1, true⟩
      ⟨[⟨"A", []⟩, ⟨"B", []⟩], ["A", "B"], 1, 0, 3, true⟩
      (by decide) (by rfl) (by rfl) (by decide) (by rfl) (by decide) (by decide)).2⟩

theorem scrollLoop_exit_cases (platform playlistTitle : String) (startedAt : Int)
    (probe : Nat → Probe) (s : LoopState) (h : 200 - s.iteration < 201)
    (hx : (scrollLoop platform playlistTitle startedAt probe 201 s).exit ≠ LoopExit.threw) :
    (scrollLoop platform playlistTitle startedAt probe 201 s).exit = LoopExit.bottomStable ∨
    (scrollLoop platform playlistTitle startedAt probe 201 s).exit = LoopExit.stall ∨
    (scrollLoop platform playlistTitle startedAt probe 201 s).exit = LoopExit.timeout ∨
    (scrollLoop platform playlistTitle startedAt probe 201 s).exit = LoopExit.ceiling := by
  have hf := scrollLoop_fuel platform playlistTitle startedAt probe 201 s h
  cases he : (scrollLoop platform playlistTitle startedAt probe 201 s).exit <;> simp_all

/-- Claim C8: Final write: for every run that leaves the scroll loop without an exception (by
check A, check B, the timeout or the iteration ceiling), the last effect of the run is the
final storage write; its snapshot holds the returned list and the N of its status
'Capture complete. N songs saved.' is the length of the returned list. -/
theorem final_write_last (env : Env) (run : LoopRun)
    (hrun : (loadAllTracks false env).loop = some run)
    (hexit : run.exit ≠ LoopExit.threw) :
    (run.exit = LoopExit.bottomStable ∨ run.exit = LoopExit.stall ∨
      run.exit = LoopExit.timeout ∨ run.exit = LoopExit.ceiling) ∧
    ∃ platform tracks,
      detectPlatform env.host = some platform ∧
      tracks = run.state.allTracks ∧
      (loadAllTracks false env).returned = some tracks ∧
      (loadAllTracks false env).effects.getLast? =
        some (Effect.storageSet (some ⟨platform, playlistTitleOf env, tracks⟩)
          (some (statusComplete tracks.length)) (!env.finalWriteFails)) := by
  obtain ⟨platform, hp, hr, _, hret, heff⟩ := loadAllTracks_entered env run hrun
  constructor
  · rw [hr] at hexit ⊢
    exact scrollLoop_exit_cases _ _ _ _ _ (by simp [LoopState.init]) hexit
  · refine ⟨platform, run.state.allTracks, hp, rfl, ?_, ?_⟩
    · rw [hret, if_neg hexit]
    · rw [heff, if_neg hexit]
      simp

/-- Claim C8: on the sample run: the last effect is the final write of the 3 returned tracks. -/
theorem final_write_last_witness :
    ((loadAllTracks false demoEnv).loop = some demoRun ∧ demoRun.exit ≠ LoopExit.threw) ∧
    (loadAllTracks false demoEnv).returned =
      some [⟨"A", ["x"]⟩, ⟨"B", []⟩, ⟨"C", ["y"]⟩] ∧
    (loadAllTracks false demoEnv).effects.getLast? =
      some (Effect.storageSet
        (some ⟨"spotify", "Mix", [⟨"A", ["x"]⟩, ⟨"B", []⟩, ⟨"C", ["y"]⟩]⟩)
        (some "Capture complete. 3 songs saved.") true) ∧
    (demoRun.exit = LoopExit.bottomStable ∨ demoRun.exit = LoopExit.stall ∨
      demoRun.exit = LoopExit.timeout ∨ demoRun.exit = LoopExit.ceiling) :=
  ⟨⟨by rfl, by decide⟩, by rfl, by rfl,
    (final_write_last demoEnv demoRun (by rfl) (by decide)).1⟩

theorem waitForRows_no_rows (poll : Nat → Option Nat) (attempts i : Nat)
    (h : ∀ j, i ≤ j → j ≤ i + attempts → poll j = some 0) :
    waitForRows poll attempts i = (List.replicate attempts (Effect.sleep 500), some 0) := by
  induction attempts generalizing i with
  | zero => simp [waitForRows, h i (le_refl _) (by omega)]
  | succ n ih =>
    have h0 := h i (le_refl _) (by omega)
    have h1 := ih (i + 1) (fun j hj1 hj2 => h j (by omega) (by omega))
    simp [waitForRows, h0, h1, List.replicate_succ]

/-- Claim C9: NoRowsFound: when each of the 13 row queries of waitForRows(12) finds no row,
loadAllTracks returns the empty list without entering the scroll loop: no effect is a
scroll request or a snapshot write, and captureInProgress is false afterwards. On a
supported page its effects are the acquisition of the flag, the initial status write,
12 sleeps of 500 ms and the release of the flag. -/
theorem no_rows_found (env : Env) (h : ∀ i, i ≤ 12 → env.poll i = some 0) :
    (loadAllTracks false env).returned = some [] ∧
    (loadAllTracks false env).loop = none ∧
    (loadAllTracks false env).captureInProgress = false ∧
    (∀ e ∈ (loadAllTracks false env).effects, e.isScroll = false ∧ e.isSnapshotWrite = false) ∧
    (detectPlatform env.host ≠ none →
      (loadAllTracks false env).effects =
        [Effect.flag true,
         Effect.storageSet none (some "Capturing playlist...") (!env.initStatusFails)] ++
        List.replicate 12 (Effect.sleep 500) ++ [Effect.flag false]) := by
  have hw := waitForRows_no_rows env.poll 12 0 (fun j _ hj => h j (by omega))
  unfold loadAllTracks
  simp only [Bool.false_eq_true, if_false, hw]
  cases detectPlatform env.host with
  | none => simp [Effect.isScroll, Effect.isSnapshotWrite]
  | some platform =>
    refine ⟨by simp, by simp, by simp, ?_, fun _ => by simp⟩
    intro e he
    simp only [List.mem_append, List.mem_cons, List.mem_replicate, List.mem_singleton,
      List.not_mem_nil, or_false] at he
    rcases he with (he | he) | he
    · rcases he with he | he <;> subst he <;> simp [Effect.isScroll, Effect.isSnapshotWrite]
    · rw [he.2]
      simp [Effect.isScroll, Effect.isSnapshotWrite]
    · subst he
      simp [Effect.isScroll, Effect.isSnapshotWrite]

/-- Claim C9: on a supported page without rows. -/
theorem no_rows_found_witness :
    (∀ i, i ≤ 12 → noRowsEnv.poll i = some 0) ∧
    (loadAllTracks false noRowsEnv).returned = some [] ∧
    (loadAllTracks false noRowsEnv).loop = none ∧
    (loadAllTracks false noRowsEnv).captureInProgress = false :=
  have h := no_rows_found noRowsEnv (fun _ _ => rfl)
  ⟨fun _ _ => rfl, h.1, h.2.1, h.2.2.1⟩

/-- Claim C10: evaluated on the code: on a supported page without rows the only status written
is the initial one; the message 'No rows found. Stopping.' goes to the console (line 195),
so lastAddStatus still reads 'Capturing playlist...' after the run. -/
theorem no_rows_status_stays_capturing :
    (loadAllTracks false noRowsEnv).returned = some [] ∧
    (loadAllTracks false noRowsEnv).effects =
      [Effect.flag true, Effect.storageSet none (some "Capturing playlist...") true] ++
        List.replicate 12 (Effect.sleep 500) ++ [Effect.flag false] ∧
    (∀ before, lastAddStatusAfter before (loadAllTracks false noRowsEnv).effects =
      some "Capturing playlist...") :=
  ⟨by rfl, by rfl, fun _ => by rfl⟩

/-! ## Stage by stage: the variables after each part of the loop body -/

theorem visitRow_foundNew (acc : LoopState × Bool) (row : Row) :
    ((visitRow acc row).2 = true ↔
      acc.2 = true ∨ acc.1.allTracks.length < (visitRow acc row).1.allTracks.length) ∧
    acc.1.allTracks.length ≤ (visitRow acc row).1.allTracks.length := by
  unfold visitRow
  split
  · split
    · simp
    · simp
  · simp

theorem forEachRow_foundNew (rows : List Row) (acc : LoopState × Bool) :
    ((forEachRow rows acc).2 = true ↔
      acc.2 = true ∨ acc.1.allTracks.length < (forEachRow rows acc).1.allTracks.length) ∧
    acc.1.allTracks.length ≤ (forEachRow rows acc).1.allTracks.length := by
  induction rows generalizing acc with
  | nil => simp [forEachRow]
  | cons r rs ih =>
    have h1 := visitRow_foundNew acc r
    have h2 := ih (visitRow acc r)
    simp only [forEachRow, List.foldl_cons] at h2 ⊢
    refine ⟨?_, le_trans h1.2 h2.2⟩
    rw [h2.1, h1.1]
    constructor
    · rintro ((h | h) | h)
      · exact Or.inl h
      · exact Or.inr (lt_of_lt_of_le h h2.2)
      · exact Or.inr (lt_of_le_of_lt h1.2 h)
    · rintro (h | h)
      · exact Or.inl (Or.inl h)
      · by_cases hv : acc.1.allTracks.length < (visitRow acc r).1.allTracks.length
        · exact Or.inl (Or.inr hv)
        · exact Or.inr (by omega)

/-- The local foundNew is true after the forEach exactly when a track was appended. -/
theorem stateSampled_foundNew (p : Probe) (s : LoopState) :
    (stateSampled p s).2 = true ↔
      s.allTracks.length < (stateSampled p s).1.allTracks.length := by
  have h := (forEachRow_foundNew (visitedRows p) (stateEntered s, false)).1
  simpa [stateSampled, stateEntered] using h

/-- The variables after lines 233-238. -/
theorem stateCounted_fields (p : Probe) (s : LoopState) :
    (stateCounted p s).allTracks = (stateSampled p s).1.allTracks ∧
    (stateCounted p s).seenTitles = (stateSampled p s).1.seenTitles ∧
    (stateCounted p s).noNewRowsCount =
      (if s.allTracks.length < (stateSampled p s).1.allTracks.length then 0
       else s.noNewRowsCount + 1) ∧
    (stateCounted p s).stagnantScrollCount = s.stagnantScrollCount ∧
    (stateCounted p s).iteration = s.iteration + 1 ∧
    (stateCounted p s).reachedBottomOnce = s.reachedBottomOnce := by
  have hc := stateSampled_counters p s
  have hf := stateSampled_foundNew p s
  refine ⟨rfl, rfl, ?_, hc.2.1, hc.2.2.1, hc.2.2.2⟩
  simp only [stateCounted]
  by_cases h : (stateSampled p s).2 = true
  · simp [h, hf.mp h]
  · have h2 : ¬ s.allTracks.length < (stateSampled p s).1.allTracks.length :=
      fun h3 => h (hf.mpr h3)
    simp [h, h2, hc.1]

/-- The variables after lines 255-262. -/
theorem stateMeasured_fields (p : Probe) (s : LoopState) :
    (stateMeasured p s).allTracks = (stateSampled p s).1.allTracks ∧
    (stateMeasured p s).seenTitles = (stateSampled p s).1.seenTitles ∧
    (stateMeasured p s).noNewRowsCount = (stateCounted p s).noNewRowsCount ∧
    (stateMeasured p s).stagnantScrollCount = s.stagnantScrollCount ∧
    (stateMeasured p s).iteration = s.iteration + 1 ∧
    (stateMeasured p s).reachedBottomOnce = (s.reachedBottomOnce || atBottom p) := by
  have hc := stateCounted_fields p s
  refine ⟨hc.1, hc.2.1, rfl, hc.2.2.2.1, hc.2.2.2.2.1, ?_⟩
  simp [stateMeasured, hc.2.2.2.2.2]

/-- The variables after lines 277-287. -/
theorem stateScrolled_fields (p : Probe) (s : LoopState) :
    (stateScrolled p s).allTracks = (stateSampled p s).1.allTracks ∧
    (stateScrolled p s).seenTitles = (stateSampled p s).1.seenTitles ∧
    (stateScrolled p s).noNewRowsCount = (stateCounted p s).noNewRowsCount ∧
    (stateScrolled p s).stagnantScrollCount =
      (if p.newScrollTop = p.scrollTop then s.stagnantScrollCount + 1 else 0) ∧
    (stateScrolled p s).iteration = s.iteration + 1 ∧
    (stateScrolled p s).reachedBottomOnce = (s.reachedBottomOnce || atBottom p) := by
  have hm := stateMeasured_fields p s
  refine ⟨hm.1, hm.2.1, hm.2.2.1, ?_, hm.2.2.2.2.1, hm.2.2.2.2.2⟩
  simp [stateScrolled, hm.2.2.2.1]

/-! ## Executed iterations of a run -/

/-- A run without executed iteration left the loop at its condition. -/
theorem scrollLoop_history_nil (platform playlistTitle : String) (startedAt : Int)
    (probe : Nat → Probe) (fuel : Nat) (s : LoopState)
    (h : (scrollLoop platform playlistTitle startedAt probe fuel s).history = []) :
    ((scrollLoop platform playlistTitle startedAt probe fuel s).exit = LoopExit.ceiling ∨
      (scrollLoop platform playlistTitle startedAt probe fuel s).exit = LoopExit.fuelOut) ∧
    (scrollLoop platform playlistTitle startedAt probe fuel s).state = s ∧
    (scrollLoop platform playlistTitle startedAt probe fuel s).effects = [] := by
  cases fuel with
  | zero => simp [scrollLoop_zero]
  | succ fuel =>
    by_cases hlt : s.iteration < 200
    · cases he : (loopBody platform playlistTitle startedAt (probe (s.iteration + 1)) s).exit with
      | some e =>
        rw [scrollLoop_stop _ _ _ _ _ _ e hlt he] at h
        simp at h
      | none =>
        rw [scrollLoop_continue _ _ _ _ _ _ hlt he] at h
        simp at h
    · rw [scrollLoop_ceiling _ _ _ _ _ _ hlt]
      simp

/-- The iteration executed from the entry `k` of the history: it passed the loop
condition, it produced the next entry, and when it left the loop it is the last one and
decides how the run ended; when it is the last one and did not leave the loop, the loop
condition ended the run. -/
theorem scrollLoop_executed (platform playlistTitle : String) (startedAt : Int)
    (probe : Nat → Probe) (fuel : Nat) (s : LoopState) (k : Nat) (a : LoopState)
    (ha : (s :: (scrollLoop platform playlistTitle startedAt probe fuel s).history)[k]? = some a)
    (hk : k < (scrollLoop platform playlistTitle startedAt probe fuel s).history.length) :
    a.iteration < 200 ∧
    (scrollLoop platform playlistTitle startedAt probe fuel s).history[k]? =
      some (loopBody platform playlistTitle startedAt (probe (a.iteration + 1)) a).state ∧
    (∀ e, (loopBody platform playlistTitle startedAt (probe (a.iteration + 1)) a).exit = some e →
      k + 1 = (scrollLoop platform playlistTitle startedAt probe fuel s).history.length ∧
      (scrollLoop platform playlistTitle startedAt probe fuel s).exit = e ∧
      (scrollLoop platform playlistTitle startedAt probe fuel s).state =
        (loopBody platform playlistTitle startedAt (probe (a.iteration + 1)) a).state) ∧
    ((loopBody platform playlistTitle startedAt (probe (a.iteration + 1)) a).exit = none →
      k + 1 = (scrollLoop platform playlistTitle startedAt probe fuel s).history.length →
      (scrollLoop platform playlistTitle startedAt probe fuel s).exit = LoopExit.ceiling ∨
      (scrollLoop platform playlistTitle startedAt probe fuel s).exit = LoopExit.fuelOut) := by
  induction fuel generalizing s k with
  | zero => simp [scrollLoop_zero] at hk
  | succ fuel ih =>
    by_cases hlt : s.iteration < 200
    · cases he : (loopBody platform playlistTitle startedAt (probe (s.iteration + 1)) s).exit with
      | some e =>
        rw [scrollLoop_stop _ _ _ _ _ _ e hlt he] at ha hk ⊢
        simp at hk
        subst hk
        simp at ha
        subst ha
        simp [hlt, he]
      | none =>
        rw [scrollLoop_continue _ _ _ _ _ _ hlt he] at ha hk ⊢
        cases k with
        | zero =>
          simp at ha
          subst ha
          refine ⟨hlt, by simp, ?_, ?_⟩
          · intro e h
            rw [he] at h
            cases h
          · intro _ hlen
            simp at hlen
            have hnil : (scrollLoop platform playlistTitle startedAt probe fuel
                (loopBody platform playlistTitle startedAt (probe (s.iteration + 1)) s).state).history
                = [] := hlen
            exact (scrollLoop_history_nil _ _ _ _ _ _ hnil).1
        | succ k =>
          simp only [List.getElem?_cons_succ, List.length_cons, Nat.add_lt_add_iff_right] at ha hk
          have := ih _ k ha hk
          simpa using this
    · rw [scrollLoop_ceiling _ _ _ _ _ _ hlt] at hk
      simp at hk

/-- The effects of a run are those of its executed iterations, in order. -/
theorem scrollLoop_effects (platform playlistTitle : String) (startedAt : Int)
    (probe : Nat → Probe) (fuel : Nat) (s : LoopState) :
    (scrollLoop platform playlistTitle startedAt probe fuel s).effects =
      (s :: (scrollLoop platform playlistTitle startedAt probe fuel s).history).dropLast.flatMap
        (iterationEffects platform playlistTitle startedAt probe) := by
  induction fuel generalizing s with
  | zero => simp [scrollLoop_zero]
  | succ fuel ih =>
    by_cases hlt : s.iteration < 200
    · cases he : (loopBody platform playlistTitle startedAt (probe (s.iteration + 1)) s).exit with
      | some e =>
        rw [scrollLoop_stop _ _ _ _ _ _ e hlt he]
        simp [iterationEffects]
      | none =>
        rw [scrollLoop_continue _ _ _ _ _ _ hlt he]
        simp only [List.dropLast_cons₂, List.flatMap_cons]
        rw [← ih]
        rfl
    · rw [scrollLoop_ceiling _ _ _ _ _ _ hlt]
      simp

/-- Any recursion budget above the bound gives the same run. -/
theorem scrollLoop_fuel_irrelevant (platform playlistTitle : String) (startedAt : Int)
    (probe : Nat → Probe) (fuel : Nat) (s : LoopState) (h : 200 - s.iteration < fuel) :
    scrollLoop platform playlistTitle startedAt probe (fuel + 1) s =
      scrollLoop platform playlistTitle startedAt probe fuel s := by
  induction fuel generalizing s with
  | zero => omega
  | succ fuel ih =>
    by_cases hlt : s.iteration < 200
    · cases he : (loopBody platform playlistTitle startedAt (probe (s.iteration + 1)) s).exit with
      | some e =>
        rw [scrollLoop_stop _ _ _ _ _ _ e hlt he, scrollLoop_stop _ _ _ _ _ _ e hlt he]
      | none =>
        rw [scrollLoop_continue _ _ _ _ _ _ hlt he, scrollLoop_continue _ _ _ _ _ _ hlt he]
        rw [ih]
        rw [(loopBody_state platform playlistTitle startedAt (probe (s.iteration + 1)) s).1]
        omega
    · rw [scrollLoop_ceiling _ _ _ _ _ _ hlt, scrollLoop_ceiling _ _ _ _ _ _ hlt]

/-! ## The exits of the loop body -/

/-- An iteration that does not throw executed every step up to the point where it left
the body. -/
theorem loopBody_no_throw (platform playlistTitle : String) (startedAt : Int) (p : Probe)
    (s : LoopState)
    (h : (loopBody platform playlistTitle startedAt p s).exit ≠ some LoopExit.threw) :
    p.fault ≠ some Fault.query ∧ extractThrows p = false ∧ p.fault ≠ some Fault.measure ∧
    (¬ checkA p s → p.fault ≠ some Fault.scroll) := by
  obtain ⟨hq, hx⟩ := loopBody_not_threw platform playlistTitle startedAt p s h
  unfold loopBody at h
  simp only [hq, hx, if_false, Bool.false_eq_true] at h
  by_cases hm : p.fault = some Fault.measure
  · simp [hm] at h
  · refine ⟨hq, hx, hm, ?_⟩
    intro hA hs
    unfold checkA at hA
    simp [hm, hA, hs] at h

theorem loopBody_checkA (platform playlistTitle : String) (startedAt : Int) (p : Probe)
    (s : LoopState) (hq : p.fault ≠ some Fault.query) (hx : extractThrows p = false)
    (hm : p.fault ≠ some Fault.measure) (hA : checkA p s) :
    loopBody platform playlistTitle startedAt p s =
      ⟨some LoopExit.bottomStable, stateMeasured p s,
        snapshotWrite platform playlistTitle p s ++
          [Effect.storageSet none (some (statusComplete (stateMeasured p s).allTracks.length))
            (!p.statusFails)]⟩ := by
  unfold checkA at hA
  unfold loopBody
  simp only [hq, hx, hm, if_false, Bool.false_eq_true]
  rw [if_pos hA]

theorem loopBody_past_checkA (platform playlistTitle : String) (startedAt : Int) (p : Probe)
    (s : LoopState) (hq : p.fault ≠ some Fault.query) (hx : extractThrows p = false)
    (hm : p.fault ≠ some Fault.measure) (hA : ¬ checkA p s)
    (hs : p.fault ≠ some Fault.scroll) :
    loopBody platform playlistTitle startedAt p s =
      if checkB p s then
        ⟨some LoopExit.stall, stateScrolled p s,
          snapshotWrite platform playlistTitle p s ++ [Effect.scrollTo (p.scrollTop + 350)]⟩
      else if p.now - startedAt > maxDurationMs then
        ⟨some LoopExit.timeout, stateScrolled p s,
          snapshotWrite platform playlistTitle p s ++
            [Effect.scrollTo (p.scrollTop + 350),
             Effect.storageSet none
              (some (statusComplete (stateScrolled p s).allTracks.length)) (!p.statusFails)]⟩
      else
        ⟨none, stateScrolled p s,
          snapshotWrite platform playlistTitle p s ++
            [Effect.scrollTo (p.scrollTop + 350), Effect.sleep 1500]⟩ := by
  unfold checkA at hA
  unfold checkB
  unfold loopBody
  simp only [hq, hx, hm, hs, if_false, Bool.false_eq_true]
  rw [if_neg hA]

theorem snapshotWrite_no_scroll (platform playlistTitle : String) (p : Probe) (s : LoopState) :
    ∀ e ∈ snapshotWrite platform playlistTitle p s, e.isScroll = false := by
  intro e he
  unfold snapshotWrite at he
  split at he
  · simp at he
  · simp at he
    subst he
    rfl

/-! ## Claims on the termination checks -/

/-- Claim C15: Termination check A. In every iteration that executes the row sampling and
the bottom measurement, the loop is left in that iteration without any scroll request
exactly when, after the measurement, reachedBottomOnce is true and noNewRowsCount is at
least 1; the exit is then the one of check A. reachedBottomOnce is the old flag or the
measurement of this iteration; noNewRowsCount is 0 when the iteration appended a track
to allTracks and the old count plus 1 otherwise. -/
theorem termination_check_A (platform playlistTitle : String) (startedAt : Int) (p : Probe)
    (s : LoopState)
    (h : (loopBody platform playlistTitle startedAt p s).exit ≠ some LoopExit.threw) :
    (((loopBody platform playlistTitle startedAt p s).exit ≠ none ∧
        ∀ e ∈ (loopBody platform playlistTitle startedAt p s).effects, e.isScroll = false) ↔
      ((stateMeasured p s).reachedBottomOnce = true ∧
        (stateMeasured p s).noNewRowsCount ≥ 1)) ∧
    (((stateMeasured p s).reachedBottomOnce = true ∧ (stateMeasured p s).noNewRowsCount ≥ 1) →
      (loopBody platform playlistTitle startedAt p s).exit = some LoopExit.bottomStable ∧
      (loopBody platform playlistTitle startedAt p s).state = stateMeasured p s) ∧
    (stateMeasured p s).reachedBottomOnce = (s.reachedBottomOnce || atBottom p) ∧
    s.allTracks <+: (stateMeasured p s).allTracks ∧
    (stateMeasured p s).noNewRowsCount =
      (if s.allTracks.length < (stateMeasured p s).allTracks.length then 0
       else s.noNewRowsCount + 1) := by
  obtain ⟨hq, hx, hm, hs⟩ := loopBody_no_throw platform playlistTitle startedAt p s h
  have hf := stateMeasured_fields p s
  have hc := stateCounted_fields p s
  refine ⟨?_, ?_, hf.2.2.2.2.2, ?_, ?_⟩
  · constructor
    · rintro ⟨hne, hno⟩
      by_contra hA
      have hA2 : ¬ checkA p s := hA
      rw [loopBody_past_checkA _ _ _ _ _ hq hx hm hA2 (hs hA2)] at hne hno
      split_ifs at hne hno
      · exact absurd (hno (Effect.scrollTo (p.scrollTop + 350)) (by simp)) (by simp [Effect.isScroll])
      · exact absurd (hno (Effect.scrollTo (p.scrollTop + 350)) (by simp)) (by simp [Effect.isScroll])
      · exact hne rfl
    · intro hA
      rw [loopBody_checkA _ _ _ _ _ hq hx hm hA]
      refine ⟨by simp, ?_⟩
      intro e he
      rcases List.mem_append.mp he with he | he
      · exact snapshotWrite_no_scroll _ _ _ _ e he
      · simp at he
        subst he
        rfl
  · intro hA
    rw [loopBody_checkA _ _ _ _ _ hq hx hm hA]
    exact ⟨rfl, rfl⟩
  · rw [hf.1]
    exact forEachRow_extends (visitedRows p) (stateEntered s, false)
  · rw [hf.2.2.1, hc.2.2.1, hf.1]

/-- Claim C15: on the third iteration of the sample run: no new row at the bottom, so the
loop is left by check A without a scroll request. -/
theorem termination_check_A_witness :
    (loopBody "spotify" "Mix" 0 (demoProbe 3) demoState2).exit ≠ some LoopExit.threw ∧
    (loopBody "spotify" "Mix" 0 (demoProbe 3) demoState2).exit =
      some LoopExit.bottomStable ∧
    (stateMeasured (demoProbe 3) demoState2).noNewRowsCount = 1 :=
  have h := termination_check_A "spotify" "Mix" 0 (demoProbe 3) demoState2 (by decide)
  ⟨by decide, (h.2.1 ⟨by rfl, by decide⟩).1, h.2.2.2.2.trans (by rfl)⟩

/-- Claim C16: Termination check B. In every iteration that check A does not end, a scroll
advance to the offset read before plus 350 is requested; stagnantScrollCount is the old
count plus 1 when the offset read back equals the offset read before, and 0 otherwise;
the loop is left by the stall guard exactly when then stagnantScrollCount is at least 3
and noNewRowsCount at least 2. When one of the two is missing, the loop goes on unless
the time limit is exceeded. -/
theorem termination_check_B (platform playlistTitle : String) (startedAt : Int) (p : Probe)
    (s : LoopState)
    (h : (loopBody platform playlistTitle startedAt p s).exit ≠ some LoopExit.threw)
    (hA : ¬ ((stateMeasured p s).reachedBottomOnce = true ∧
      (stateMeasured p s).noNewRowsCount ≥ 1)) :
    Effect.scrollTo (p.scrollTop + 350) ∈
      (loopBody platform playlistTitle startedAt p s).effects ∧
    (loopBody platform playlistTitle startedAt p s).state.stagnantScrollCount =
      (if p.newScrollTop = p.scrollTop then s.stagnantScrollCount + 1 else 0) ∧
    (loopBody platform playlistTitle startedAt p s).state.noNewRowsCount =
      (stateMeasured p s).noNewRowsCount ∧
    ((loopBody platform playlistTitle startedAt p s).exit = some LoopExit.stall ↔
      ((loopBody platform playlistTitle startedAt p s).state.stagnantScrollCount ≥ 3 ∧
        (loopBody platform playlistTitle startedAt p s).state.noNewRowsCount ≥ 2)) ∧
    (¬ ((loopBody platform playlistTitle startedAt p s).state.stagnantScrollCount ≥ 3 ∧
        (loopBody platform playlistTitle startedAt p s).state.noNewRowsCount ≥ 2) →
      p.now - startedAt ≤ maxDurationMs →
      (loopBody platform playlistTitle startedAt p s).exit = none) := by
  obtain ⟨hq, hx, hm, hs⟩ := loopBody_no_throw platform playlistTitle startedAt p s h
  have hA2 : ¬ checkA p s := hA
  have hf := stateScrolled_fields p s
  have hst : (loopBody platform playlistTitle startedAt p s).state = stateScrolled p s := by
    rw [loopBody_past_checkA _ _ _ _ _ hq hx hm hA2 (hs hA2)]
    split_ifs <;> rfl
  rw [hst]
  refine ⟨?_, hf.2.2.2.1, rfl, ?_, ?_⟩
  · rw [loopBody_past_checkA _ _ _ _ _ hq hx hm hA2 (hs hA2)]
    split_ifs <;> simp
  · rw [loopBody_past_checkA _ _ _ _ _ hq hx hm hA2 (hs hA2)]
    constructor
    · intro he
      by_contra hB
      have hB2 : ¬ checkB p s := hB
      rw [if_neg hB2] at he
      split_ifs at he
      simp at he
    · intro hB
      have hB2 : checkB p s := hB
      rw [if_pos hB2]
  · intro hB hnow
    have hB2 : ¬ checkB p s := hB
    rw [loopBody_past_checkA _ _ _ _ _ hq hx hm hA2 (hs hA2), if_neg hB2,
      if_neg (not_lt.mpr hnow)]

/-- Claim C16: on the second iteration of the sample run: a new row is found, the offset
read back is the one read before, and the loop goes on. -/
theorem termination_check_B_witness :
    ((loopBody "spotify" "Mix" 0 (demoProbe 2) demoState1).exit ≠ some LoopExit.threw ∧
      ¬ ((stateMeasured (demoProbe 2) demoState1).reachedBottomOnce = true ∧
        (stateMeasured (demoProbe 2) demoState1).noNewRowsCount ≥ 1)) ∧
    Effect.scrollTo 700 ∈ (loopBody "spotify" "Mix" 0 (demoProbe 2) demoState1).effects ∧
    (loopBody "spotify" "Mix" 0 (demoProbe 2) demoState1).state.stagnantScrollCount = 1 ∧
    (loopBody "spotify" "Mix" 0 (demoProbe 2) demoState1).exit = none :=
  have h := termination_check_B "spotify" "Mix" 0 (demoProbe 2) demoState1 (by decide)
    (by decide)
  ⟨⟨by decide, by decide⟩, h.1, h.2.1.trans (by rfl), h.2.2.2.2 (by decide) (by decide)⟩

/-- The iteration number `k + 1` of a run of loadAllTracks, executed from the entry `k` of
the history: its variables, its probe, and its part in the end of the run. -/
theorem loadAllTracks_iteration (env : Env) (run : LoopRun)
    (hrun : (loadAllTracks false env).loop = some run) (k : Nat) (a : LoopState)
    (ha : (LoopState.init :: run.history)[k]? = some a) (hk : k < run.history.length) :
    ∃ platform,
      detectPlatform env.host = some platform ∧ a.iteration = k ∧ k < 200 ∧ Synced a ∧
      run.history[k]? =
        some (loopBody platform (playlistTitleOf env) env.startedAt (env.probe (k + 1)) a).state ∧
      (∀ e, (loopBody platform (playlistTitleOf env) env.startedAt (env.probe (k + 1)) a).exit =
          some e →
        k + 1 = run.history.length ∧ run.exit = e ∧
        run.state =
          (loopBody platform (playlistTitleOf env) env.startedAt (env.probe (k + 1)) a).state) ∧
      ((loopBody platform (playlistTitleOf env) env.startedAt (env.probe (k + 1)) a).exit = none →
        k + 1 = run.history.length → run.exit = LoopExit.ceiling) := by
  obtain ⟨platform, hp, hr, _⟩ := loadAllTracks_entered env run hrun
  refine ⟨platform, hp, ?_⟩
  subst hr
  have hit := scrollLoop_history_iteration platform (playlistTitleOf env) env.startedAt
    env.probe 201 LoopState.init k a ha
  have hit2 : a.iteration = k := by simpa [LoopState.init] using hit
  have hsy := scrollLoop_history_all platform (playlistTitleOf env) env.startedAt env.probe 201
    LoopState.init Synced (fun p x hx => loopBody_synced _ _ _ p x hx)
    (by simp [Synced, LoopState.init]) k a ha
  have hex := scrollLoop_executed platform (playlistTitleOf env) env.startedAt env.probe 201
    LoopState.init k a ha hk
  rw [hit2] at hex
  refine ⟨hit2, hex.1, hsy, hex.2.1, hex.2.2.1, ?_⟩
  intro hnone hlen
  rcases hex.2.2.2 hnone hlen with h | h
  · exact h
  · exact absurd h (scrollLoop_fuel _ _ _ _ _ _ (by simp [LoopState.init]))

/-- An iteration whose probe carries no fault executes every step. -/
theorem no_fault (p : Probe) (h : p.fault = none) :
    p.fault ≠ some Fault.query ∧ extractThrows p = false ∧ p.fault ≠ some Fault.measure ∧
    p.fault ≠ some Fault.scroll := by
  simp [h, extractThrows]

theorem loopBody_exit_of_no_fault (platform playlistTitle : String) (startedAt : Int)
    (p : Probe) (s : LoopState) (h : p.fault = none) :
    (loopBody platform playlistTitle startedAt p s).exit ≠ some LoopExit.threw := by
  obtain ⟨hq, hx, hm, hs⟩ := no_fault p h
  by_cases hA : checkA p s
  · rw [loopBody_checkA _ _ _ _ _ hq hx hm hA]
    simp
  · rw [loopBody_past_checkA _ _ _ _ _ hq hx hm hA hs]
    split_ifs <;> simp

/-- Claim C13: Wall-clock termination. When an executed iteration `k + 1` meets no exception
and its clock reading exceeds startedAt by more than 300000 ms, the run ends in that
iteration, whatever the counters and the bottom flag: by the timeout when neither check A
nor check B ended it first (so also with noNewRowsCount = 0). The tracks accumulated
so far, with the rows of that iteration, are returned, and the final write with that
snapshot is the last effect. -/
theorem wall_clock_termination (env : Env) (run : LoopRun)
    (hrun : (loadAllTracks false env).loop = some run) (k : Nat) (a : LoopState)
    (ha : (LoopState.init :: run.history)[k]? = some a) (hk : k < run.history.length)
    (hno : (env.probe (k + 1)).fault = none)
    (hlate : (env.probe (k + 1)).now - env.startedAt > 300000) :
    run.history.length = k + 1 ∧
    (run.exit = LoopExit.bottomStable ∨ run.exit = LoopExit.stall ∨
      run.exit = LoopExit.timeout) ∧
    (¬ checkA (env.probe (k + 1)) a → ¬ checkB (env.probe (k + 1)) a →
      run.exit = LoopExit.timeout) ∧
    run.state.allTracks =
      ((env.probe (k + 1)).rows.filterMap rowTrack).foldl absorb a.allTracks ∧
    (loadAllTracks false env).returned = some run.state.allTracks ∧
    ∃ platform,
      (loadAllTracks false env).effects.getLast? =
        some (Effect.storageSet (some ⟨platform, playlistTitleOf env, run.state.allTracks⟩)
          (some (statusComplete run.state.allTracks.length)) (!env.finalWriteFails)) := by
  obtain ⟨platform, hp, hit, hk200, hsy, hnext, hstop, hgo⟩ :=
    loadAllTracks_iteration env run hrun k a ha hk
  obtain ⟨hq, hx, hm, hs⟩ := no_fault (env.probe (k + 1)) hno
  have hno2 := loopBody_exit_of_no_fault platform (playlistTitleOf env) env.startedAt
    (env.probe (k + 1)) a hno
  have hlate2 : (env.probe (k + 1)).now - env.startedAt > maxDurationMs := by
    simpa [maxDurationMs] using hlate
  have hcol := loopBody_collects platform (playlistTitleOf env) env.startedAt
    (env.probe (k + 1)) a hsy hno2
  have key : ∃ e, (loopBody platform (playlistTitleOf env) env.startedAt
      (env.probe (k + 1)) a).exit = some e ∧
      (e = LoopExit.bottomStable ∨ e = LoopExit.stall ∨ e = LoopExit.timeout) ∧
      (¬ checkA (env.probe (k + 1)) a → ¬ checkB (env.probe (k + 1)) a →
        e = LoopExit.timeout) := by
    by_cases hA : checkA (env.probe (k + 1)) a
    · rw [loopBody_checkA _ _ _ _ _ hq hx hm hA]
      exact ⟨_, rfl, Or.inl rfl, fun h => absurd hA h⟩
    · rw [loopBody_past_checkA _ _ _ _ _ hq hx hm hA hs]
      by_cases hB : checkB (env.probe (k + 1)) a
      · rw [if_pos hB]
        exact ⟨_, rfl, Or.inr (Or.inl rfl), fun _ h => absurd hB h⟩
      · rw [if_neg hB, if_pos hlate2]
        exact ⟨_, rfl, Or.inr (Or.inr rfl), fun _ _ => rfl⟩
  obtain ⟨e, he, hcases, htime⟩ := key
  obtain ⟨hlen, hexit, hstate⟩ := hstop e he
  have hne : run.exit ≠ LoopExit.threw := by
    rw [hexit]
    rcases hcases with h | h | h <;> rw [h] <;> simp
  obtain ⟨platform2, hp2, _, _, hret, heff⟩ := loadAllTracks_entered env run hrun
  refine ⟨hlen.symm, hexit ▸ hcases, fun h1 h2 => hexit ▸ htime h1 h2, ?_, ?_, platform2, ?_⟩
  · rw [hstate, hcol]
  · rw [hret, if_neg hne]
  · rw [heff, if_neg hne]
    simp

/-- Claim C13: on a run whose second iteration finds a new row away from the bottom after
300001 ms: the run ends there by the timeout and returns both tracks. -/
theorem wall_clock_termination_witness :
    ((loadAllTracks false lateEnv).loop = some lateRun ∧
      (LoopState.init :: lateRun.history)[1]? = some ⟨[⟨"A", []⟩], ["A"], 0, 0, 1, false⟩ ∧
      1 < lateRun.history.length ∧ (lateEnv.probe 2).fault = none ∧
      (lateEnv.probe 2).now - lateEnv.startedAt > 300000) ∧
    lateRun.history.length = 2 ∧ lateRun.exit = LoopExit.timeout ∧
    lateRun.state.noNewRowsCount = 0 ∧
    (loadAllTracks false lateEnv).returned = some [⟨"A", []⟩, ⟨"B", []⟩] :=
  have h := wall_clock_termination lateEnv lateRun (by rfl) 1
    ⟨[⟨"A", []⟩], ["A"], 0, 0, 1, false⟩ (by rfl) (by decide) (by rfl)
    (by decide)
  ⟨⟨by rfl, by rfl, by decide, by rfl, by decide⟩, h.1, h.2.2.1 (by decide) (by decide), by rfl,
    h.2.2.2.2.1.trans (by rfl)⟩

/-! ## The iteration ceiling -/

theorem loopBody_exit_ne_ceiling (platform playlistTitle : String) (startedAt : Int)
    (p : Probe) (s : LoopState) :
    (loopBody platform playlistTitle startedAt p s).exit ≠ some LoopExit.ceiling := by
  unfold loopBody
  split_ifs <;> simp

/-- The loop is left at its condition only when 200 iterations were counted. -/
theorem scrollLoop_ceiling_iteration (platform playlistTitle : String) (startedAt : Int)
    (probe : Nat → Probe) (fuel : Nat) (s : LoopState)
    (h : (scrollLoop platform playlistTitle startedAt probe fuel s).exit = LoopExit.ceiling) :
    200 ≤ (scrollLoop platform playlistTitle startedAt probe fuel s).state.iteration := by
  induction fuel generalizing s with
  | zero => simp [scrollLoop_zero] at h
  | succ fuel ih =>
    by_cases hlt : s.iteration < 200
    · cases he : (loopBody platform playlistTitle startedAt (probe (s.iteration + 1)) s).exit with
      | some e =>
        rw [scrollLoop_stop _ _ _ _ _ _ e hlt he] at h
        simp at h
        subst h
        exact absurd he (loopBody_exit_ne_ceiling _ _ _ _ _)
      | none =>
        rw [scrollLoop_continue _ _ _ _ _ _ hlt he] at h ⊢
        exact ih _ h
    · rw [scrollLoop_ceiling _ _ _ _ _ _ hlt]
      simpa using hlt

/-- The variable iteration never exceeds 200. -/
theorem scrollLoop_iteration_le (platform playlistTitle : String) (startedAt : Int)
    (probe : Nat → Probe) (fuel : Nat) (s : LoopState) (h : s.iteration ≤ 200) :
    (scrollLoop platform playlistTitle startedAt probe fuel s).state.iteration ≤ 200 := by
  induction fuel generalizing s with
  | zero => simpa [scrollLoop_zero] using h
  | succ fuel ih =>
    by_cases hlt : s.iteration < 200
    · have hst := (loopBody_state platform playlistTitle startedAt (probe (s.iteration + 1)) s).1
      cases he : (loopBody platform playlistTitle startedAt (probe (s.iteration + 1)) s).exit with
      | some e =>
        rw [scrollLoop_stop _ _ _ _ _ _ e hlt he]
        simp only [hst]
        omega
      | none =>
        rw [scrollLoop_continue _ _ _ _ _ _ hlt he]
        apply ih
        rw [hst]
        omega
    · rw [scrollLoop_ceiling _ _ _ _ _ _ hlt]
      exact h

theorem scrollLoop_any_fuel (platform playlistTitle : String) (startedAt : Int)
    (probe : Nat → Probe) (s : LoopState) (fuel : Nat) (h : 201 ≤ fuel) :
    scrollLoop platform playlistTitle startedAt probe fuel s =
      scrollLoop platform playlistTitle startedAt probe 201 s := by
  induction fuel with
  | zero => omega
  | succ n ih =>
    by_cases hn : n + 1 = 201
    · rw [hn]
    · rw [scrollLoop_fuel_irrelevant _ _ _ _ _ _ (by omega)]
      exact ih (by omega)

/-- The scroll loop is entered once the platform is known, rows were found and the scroll
container was discovered. -/
theorem loadAllTracks_loop_eq (env : Env) (platform : String) (n : Nat)
    (hp : detectPlatform env.host = some platform)
    (hw : (waitForRows env.poll 12 0).2 = some (n + 1))
    (hc : env.containerFault = false) :
    (loadAllTracks false env).loop =
      some (scrollLoop platform (playlistTitleOf env) env.startedAt env.probe 201
        LoopState.init) := by
  unfold loadAllTracks
  simp only [Bool.false_eq_true, if_false, hp, hw, hc]
  split_ifs <;> rfl

/-- Claim C14: Iteration ceiling. For every environment (row samples, measurements and
clock readings), the loop body of a run is executed at most 200 times: the history has
at most 200 entries, as many as the variable iteration counts. The recursion budget is
never what stops the loop, and a larger one gives the same run, so the invocation
ends; the loop leaves at its condition only after exactly 200 iterations. -/
theorem iteration_ceiling (env : Env) (run : LoopRun)
    (hrun : (loadAllTracks false env).loop = some run) :
    run.history.length ≤ 200 ∧
    run.state.iteration = run.history.length ∧
    run.exit ≠ LoopExit.fuelOut ∧
    (run.exit = LoopExit.ceiling → run.history.length = 200) ∧
    ∃ platform, ∀ fuel, 201 ≤ fuel →
      scrollLoop platform (playlistTitleOf env) env.startedAt env.probe fuel LoopState.init =
        run := by
  obtain ⟨platform, _, hr, _⟩ := loadAllTracks_entered env run hrun
  subst hr
  have hlen := scrollLoop_history_length platform (playlistTitleOf env) env.startedAt
    env.probe 201 LoopState.init
  have hle := scrollLoop_iteration_le platform (playlistTitleOf env) env.startedAt
    env.probe 201 LoopState.init (by simp [LoopState.init])
  have h0 : LoopState.init.iteration = 0 := rfl
  rw [h0, Nat.zero_add] at hlen
  refine ⟨by omega, hlen, scrollLoop_fuel _ _ _ _ _ _ (by simp [LoopState.init]), ?_,
    platform, fun fuel hf => scrollLoop_any_fuel _ _ _ _ _ fuel hf⟩
  intro hc
  have := scrollLoop_ceiling_iteration _ _ _ _ _ _ hc
  omega

set_option maxRecDepth 100000 in
/-- Claim C14: on a run in which new rows arrive forever, the bottom is never reached and
the clock stands still: the loop is left at its condition after exactly 200 iterations. -/
theorem iteration_ceiling_witness :
    (loadAllTracks false endlessEnv).loop = some endlessRun ∧
    endlessRun.exit = LoopExit.ceiling ∧ endlessRun.history.length = 200 :=
  have hrun : (loadAllTracks false endlessEnv).loop = some endlessRun :=
    loadAllTracks_loop_eq endlessEnv "spotify" 1 (by rfl) (by rfl) (by rfl)
  have h := iteration_ceiling endlessEnv endlessRun hrun
  have hc : endlessRun.exit = LoopExit.ceiling := by decide
  ⟨hrun, hc, h.2.2.2.1 hc⟩

/-! ## Storage failures -/

theorem loopBody_sameReads (platform playlistTitle : String) (startedAt : Int) (p q : Probe)
    (s : LoopState) (h : p.sameReads q) :
    (loopBody platform playlistTitle startedAt p s).exit =
      (loopBody platform playlistTitle startedAt q s).exit ∧
    (loopBody platform playlistTitle startedAt p s).state =
      (loopBody platform playlistTitle startedAt q s).state := by
  obtain ⟨h1, h2, h3, h4, h5, h6, h7, h8⟩ := h
  have hv : visitedRows p = visitedRows q := by
    unfold visitedRows
    rw [h1, h2]
  have hx : extractThrows p = extractThrows q := by
    unfold extractThrows
    rw [h1, h2]
  have hb : atBottom p = atBottom q := by
    unfold atBottom remaining
    rw [h3, h4, h5, h6]
  have hs : stateSampled p s = stateSampled q s := by
    unfold stateSampled
    rw [hv]
  have hc : stateCounted p s = stateCounted q s := by
    unfold stateCounted
    rw [hs]
  have hm : stateMeasured p s = stateMeasured q s := by
    unfold stateMeasured
    rw [hc, hb]
  have hsc : stateScrolled p s = stateScrolled q s := by
    unfold stateScrolled
    rw [hm, h7, h3]
  unfold loopBody
  rw [h2, hx, hs, hc, hm, hsc, h8]
  split_ifs <;> simp

theorem scrollLoop_sameReads (platform playlistTitle : String) (startedAt : Int)
    (probe probe2 : Nat → Probe) (h : ∀ k, (probe k).sameReads (probe2 k)) (fuel : Nat)
    (s : LoopState) :
    (scrollLoop platform playlistTitle startedAt probe fuel s).exit =
      (scrollLoop platform playlistTitle startedAt probe2 fuel s).exit ∧
    (scrollLoop platform playlistTitle startedAt probe fuel s).state =
      (scrollLoop platform playlistTitle startedAt probe2 fuel s).state ∧
    (scrollLoop platform playlistTitle startedAt probe fuel s).history =
      (scrollLoop platform playlistTitle startedAt probe2 fuel s).history := by
  induction fuel generalizing s with
  | zero => simp [scrollLoop_zero]
  | succ fuel ih =>
    by_cases hlt : s.iteration < 200
    · have hb := loopBody_sameReads platform playlistTitle startedAt (probe (s.iteration + 1))
        (probe2 (s.iteration + 1)) s (h _)
      cases he : (loopBody platform playlistTitle startedAt (probe (s.iteration + 1)) s).exit with
      | some e =>
        rw [scrollLoop_stop _ _ _ _ _ _ e hlt he,
          scrollLoop_stop _ _ _ _ _ _ e hlt (hb.1 ▸ he)]
        simp [hb.2]
      | none =>
        rw [scrollLoop_continue _ _ _ _ _ _ hlt he,
          scrollLoop_continue _ _ _ _ _ _ hlt (hb.1 ▸ he)]
        have := ih (loopBody platform playlistTitle startedAt (probe (s.iteration + 1)) s).state
        rw [hb.2] at this ⊢
        simp [this.1, this.2.1, this.2.2]
    · rw [scrollLoop_ceiling _ _ _ _ _ _ hlt, scrollLoop_ceiling _ _ _ _ _ _ hlt]
      simp

theorem scrollLoop_no_throw (platform playlistTitle : String) (startedAt : Int)
    (probe : Nat → Probe) (h : ∀ k, (probe k).fault = none) (fuel : Nat) (s : LoopState) :
    (scrollLoop platform playlistTitle startedAt probe fuel s).exit ≠ LoopExit.threw := by
  induction fuel generalizing s with
  | zero => simp [scrollLoop_zero]
  | succ fuel ih =>
    by_cases hlt : s.iteration < 200
    · cases he : (loopBody platform playlistTitle startedAt (probe (s.iteration + 1)) s).exit with
      | some e =>
        rw [scrollLoop_stop _ _ _ _ _ _ e hlt he]
        have := loopBody_exit_of_no_fault platform playlistTitle startedAt
          (probe (s.iteration + 1)) s (h _)
        rw [he] at this
        intro h2
        simp at h2
        exact this (by rw [h2])
      | none =>
        rw [scrollLoop_continue _ _ _ _ _ _ hlt he]
        exact ih _
    · rw [scrollLoop_ceiling _ _ _ _ _ _ hlt]
      simp

theorem waitForRows_no_throw (poll : Nat → Option Nat) (h : ∀ i, poll i ≠ none)
    (attempts i : Nat) : (waitForRows poll attempts i).2 ≠ none := by
  induction attempts generalizing i with
  | zero => simpa [waitForRows] using h i
  | succ n ih =>
    unfold waitForRows
    cases hp : poll i with
    | none => exact absurd hp (h i)
    | some m =>
      cases m with
      | zero => simpa using ih (i + 1)
      | succ m => simp

/-- Without an exception from the page, the promise of loadAllTracks resolves and the flag
is released, whichever storage writes fail. -/
theorem loadAllTracks_resolves (e : Env) (h : e.noFault) :
    (loadAllTracks false e).returned ≠ none ∧
    (loadAllTracks false e).captureInProgress = false := by
  obtain ⟨hpoll, hcont, hprobe⟩ := h
  have hw := waitForRows_no_throw e.poll hpoll 12 0
  unfold loadAllTracks
  simp only [Bool.false_eq_true, if_false]
  cases detectPlatform e.host with
  | none => simp
  | some platform =>
    simp only
    cases hw2 : (waitForRows e.poll 12 0).2 with
    | none => exact absurd hw2 hw
    | some n =>
      cases n with
      | zero => simp
      | succ n =>
        simp only [hcont, Bool.false_eq_true, if_false]
        rw [if_neg (scrollLoop_no_throw _ _ _ _ hprobe _ _)]
        simp

/-- Claim C18: Transient persistence failures do not affect capture. Two invocations whose
environments read the same platform, rows, measurements and clock, and differ only in
which storage writes fail, resolve or reject alike with the same track list, leave the
flag alike, and run the same iterations through the same variables to the same exit.
When no call to the page throws, both resolve and release the flag: a failing storage
write never makes loadAllTracks reject. -/
theorem persistence_failures_irrelevant (e f : Env) (c : Bool) (h : e.sameReads f) :
    (loadAllTracks c e).returned = (loadAllTracks c f).returned ∧
    (loadAllTracks c e).captureInProgress = (loadAllTracks c f).captureInProgress ∧
    (loadAllTracks c e).loop.map (fun r => r.history) =
      (loadAllTracks c f).loop.map (fun r => r.history) ∧
    (loadAllTracks c e).loop.map (fun r => r.exit) =
      (loadAllTracks c f).loop.map (fun r => r.exit) ∧
    (e.noFault →
      (loadAllTracks false e).returned ≠ none ∧
      (loadAllTracks false e).captureInProgress = false ∧
      (loadAllTracks false f).returned ≠ none ∧
      (loadAllTracks false f).captureInProgress = false) := by
  obtain ⟨hhost, htitle, hpoll, hcont, hstart, hprobe⟩ := h
  have hpt : playlistTitleOf e = playlistTitleOf f := by
    unfold playlistTitleOf
    rw [htitle]
  have hfault : e.noFault → f.noFault := by
    rintro ⟨h1, h2, h3⟩
    refine ⟨fun i => hpoll ▸ h1 i, hcont ▸ h2, fun k => ?_⟩
    rw [← (hprobe k).2.1]
    exact h3 k
  refine ⟨?_, ?_, ?_, ?_, fun hn =>
    ⟨(loadAllTracks_resolves e hn).1, (loadAllTracks_resolves e hn).2,
      (loadAllTracks_resolves f (hfault hn)).1, (loadAllTracks_resolves f (hfault hn)).2⟩⟩
  all_goals
    unfold loadAllTracks
    rw [hhost, hpoll, hcont, hstart, hpt]
    cases c with
    | true => simp
    | false =>
      simp only [Bool.false_eq_true, if_false]
      cases detectPlatform f.host with
      | none => simp
      | some platform =>
        simp only
        cases (waitForRows f.poll 12 0).2 with
        | none => simp
        | some n =>
          cases n with
          | zero => simp
          | succ n =>
            simp only
            have hl := scrollLoop_sameReads platform (playlistTitleOf f) f.startedAt e.probe
              f.probe hprobe 201 LoopState.init
            rw [hl.1, hl.2.1]
            split_ifs <;> simp [hl.2.2, hl.1]

/-- Claim C18: on the sample run and the same run with every storage write failing: both
return the same three tracks after three iterations, with the flag released. -/
theorem persistence_failures_irrelevant_witness :
    demoEnv.sameReads demoEnvWritesFail ∧
    (loadAllTracks false demoEnvWritesFail).returned =
      some [⟨"A", ["x"]⟩, ⟨"B", []⟩, ⟨"C", ["y"]⟩] ∧
    (loadAllTracks false demoEnvWritesFail).captureInProgress = false ∧
    (loadAllTracks false demoEnvWritesFail).loop.map (fun r => r.history.length) = some 3 :=
  have hs : demoEnv.sameReads demoEnvWritesFail :=
    ⟨rfl, rfl, rfl, rfl, rfl, fun _ => ⟨rfl, rfl, rfl, rfl, rfl, rfl, rfl, rfl⟩⟩
  have h := persistence_failures_irrelevant demoEnv demoEnvWritesFail false hs
  ⟨hs, h.1.symm.trans (by rfl), h.2.1.symm.trans (by rfl), by rfl⟩

/-! ## Rows without title -/

theorem visitRow_skip (acc : LoopState × Bool) (row : Row)
    (h : extractTitle row = none ∨ extractTitle row = some "") : visitRow acc row = acc := by
  unfold visitRow
  rcases h with h | h <;> simp [h]

theorem forEachRow_skip (rows : List Row) (acc : LoopState × Bool)
    (h : ∀ row ∈ rows, extractTitle row = none ∨ extractTitle row = some "") :
    forEachRow rows acc = acc := by
  induction rows generalizing acc with
  | nil => rfl
  | cons r rs ih =>
    simp only [forEachRow, List.foldl_cons]
    rw [visitRow_skip acc r (h r (by simp))]
    exact ih acc (fun row hrow => h row (by simp [hrow]))

theorem visitRow_titlesExtracted (acc : LoopState × Bool) (row : Row)
    (h : TitlesExtracted acc.1) : TitlesExtracted (visitRow acc row).1 := by
  unfold visitRow
  cases ht : extractTitle row with
  | none => simpa using h
  | some title =>
    simp only
    split
    · rename_i hc
      intro t hmem
      simp only [List.mem_append, List.mem_singleton] at hmem
      rcases hmem with hmem | hmem
      · exact h t hmem
      · subst hmem
        refine ⟨hc.1, ?_⟩
        unfold extractTitle at ht
        cases hx : row.titleText with
        | none => simp [hx] at ht
        | some text =>
          simp [hx] at ht
          exact ⟨text, ht.symm⟩
    · exact h

theorem forEachRow_titlesExtracted (rows : List Row) (acc : LoopState × Bool)
    (h : TitlesExtracted acc.1) : TitlesExtracted (forEachRow rows acc).1 := by
  induction rows generalizing acc with
  | nil => simpa [forEachRow] using h
  | cons r rs ih =>
    simp only [forEachRow, List.foldl_cons]
    exact ih _ (visitRow_titlesExtracted acc r h)

theorem loopBody_titlesExtracted (platform playlistTitle : String) (startedAt : Int)
    (p : Probe) (s : LoopState) (h : TitlesExtracted s) :
    TitlesExtracted (loopBody platform playlistTitle startedAt p s).state := by
  have hs := (loopBody_state platform playlistTitle startedAt p s).2.1
  have h2 : TitlesExtracted (stateSampled p s).1 :=
    forEachRow_titlesExtracted (visitedRows p) (stateEntered s, false) h
  unfold TitlesExtracted at h h2 ⊢
  rw [hs]
  split
  · exact h
  · exact h2

/-- Claim C19: Extraction skip. A row whose title is absent, or empty after trimming, is
not appended and does not set foundNew: the callback returns its accumulator unchanged.
Hence at every point of a run every retained track has a non-empty title that is a
trimmed text. An iteration whose rows all lack a title runs exactly as the same
iteration with no rows: same exit, variables and effects, with noNewRowsCount
incremented, allTracks and seenTitles unchanged, and no exception. -/
theorem extraction_skip (env : Env) (run : LoopRun)
    (hrun : (loadAllTracks false env).loop = some run) (k : Nat) (s : LoopState)
    (hs : (LoopState.init :: run.history)[k]? = some s)
    (acc : LoopState × Bool) (row : Row)
    (hrow : extractTitle row = none ∨ extractTitle row = some "")
    (platform playlistTitle : String) (startedAt : Int) (p : Probe) (x : LoopState)
    (hfault : p.fault = none)
    (hrows : ∀ r ∈ p.rows, extractTitle r = none ∨ extractTitle r = some "") :
    visitRow acc row = acc ∧
    TitlesExtracted s ∧ TitlesExtracted run.state ∧
    loopBody platform playlistTitle startedAt p x =
      loopBody platform playlistTitle startedAt { p with rows := [] } x ∧
    (loopBody platform playlistTitle startedAt p x).exit ≠ some LoopExit.threw ∧
    (loopBody platform playlistTitle startedAt p x).state.noNewRowsCount =
      x.noNewRowsCount + 1 ∧
    (loopBody platform playlistTitle startedAt p x).state.allTracks = x.allTracks ∧
    (loopBody platform playlistTitle startedAt p x).state.seenTitles = x.seenTitles := by
  obtain ⟨pl, _, hr, _⟩ := loadAllTracks_entered env run hrun
  have hall : ∀ (j : Nat) (y : LoopState), (LoopState.init :: run.history)[j]? = some y →
      TitlesExtracted y := by
    intro j y hy
    rw [hr] at hy
    exact scrollLoop_history_all pl (playlistTitleOf env) env.startedAt env.probe 201
      LoopState.init TitlesExtracted (fun q y hy => loopBody_titlesExtracted _ _ _ q y hy)
      (by simp [TitlesExtracted, LoopState.init]) j y hy
  have hlast : (LoopState.init :: run.history)[run.history.length]? = some run.state := by
    rw [hr]
    exact scrollLoop_state_last _ _ _ _ _ _
  have hv : visitedRows p = p.rows := by simp [visitedRows, hfault]
  have hsamp : stateSampled p x = (stateEntered x, false) := by
    unfold stateSampled
    rw [hv]
    exact forEachRow_skip p.rows _ hrows
  have hsamp0 : stateSampled { p with rows := [] } x = (stateEntered x, false) := by
    simp [stateSampled, visitedRows, hfault, forEachRow]
  have hcnt : stateCounted p x = stateCounted { p with rows := [] } x := by
    unfold stateCounted
    rw [hsamp, hsamp0]
  have hmea : stateMeasured p x = stateMeasured { p with rows := [] } x := by
    unfold stateMeasured
    rw [hcnt]
    rfl
  have hscr : stateScrolled p x = stateScrolled { p with rows := [] } x := by
    unfold stateScrolled
    rw [hmea]
  have hsnap : snapshotWrite platform playlistTitle p x =
      snapshotWrite platform playlistTitle { p with rows := [] } x := by
    unfold snapshotWrite
    rw [hcnt]
  have hbody : loopBody platform playlistTitle startedAt p x =
      loopBody platform playlistTitle startedAt { p with rows := [] } x := by
    unfold loopBody
    rw [hsnap, hmea, hscr, hcnt, hsamp, hsamp0]
    simp [hfault, extractThrows]
  have hst := loopBody_state platform playlistTitle startedAt p x
  have hno := loopBody_exit_of_no_fault platform playlistTitle startedAt p x hfault
  obtain ⟨hq, hx, hm, hsf⟩ := no_fault p hfault
  have hnn : (stateCounted p x).noNewRowsCount = x.noNewRowsCount + 1 := by
    simp [stateCounted, hsamp, stateEntered]
  have hnew : (loopBody platform playlistTitle startedAt p x).state.noNewRowsCount =
      x.noNewRowsCount + 1 := by
    by_cases hA : checkA p x
    · rw [loopBody_checkA _ _ _ _ _ hq hx hm hA]
      exact (stateMeasured_fields p x).2.2.1.trans hnn
    · rw [loopBody_past_checkA _ _ _ _ _ hq hx hm hA hsf]
      have := (stateScrolled_fields p x).2.2.1.trans hnn
      split_ifs <;> exact this
  refine ⟨visitRow_skip acc row hrow, hall k s hs, hall _ _ hlast, hbody, hno, hnew, ?_, ?_⟩
  · rw [hst.2.1, if_neg hq, hsamp]
    rfl
  · rw [hst.2.2, if_neg hq, hsamp]
    rfl

/-- Claim C19: on the sample run, from its variables after the first iteration, with a probe
whose rows have no title element or only white space as title. -/
theorem extraction_skip_witness :
    ((loadAllTracks false demoEnv).loop = some demoRun ∧
      (LoopState.init :: demoRun.history)[1]? = some demoState1 ∧
      (extractTitle (rowOf " \n " ["y"]) = none ∨ extractTitle (rowOf " \n " ["y"]) = some "") ∧
      untitledProbe.fault = none ∧
      ∀ r ∈ untitledProbe.rows, extractTitle r = none ∨ extractTitle r = some "") ∧
    visitRow (demoState1, false) (rowOf " \n " ["y"]) = (demoState1, false) ∧
    TitlesExtracted demoRun.state ∧
    (loopBody "spotify" "Mix" 0 untitledProbe demoState1).state.noNewRowsCount = 1 ∧
    (loopBody "spotify" "Mix" 0 untitledProbe demoState1).state.allTracks =
      [⟨"A", ["x"]⟩, ⟨"B", []⟩] :=
  have hrows : ∀ r ∈ untitledProbe.rows, extractTitle r = none ∨ extractTitle r = some "" := by
    decide
  have h := extraction_skip demoEnv demoRun (by rfl) 1 demoState1 (by rfl)
    (demoState1, false) (rowOf " \n " ["y"]) (by decide) "spotify" "Mix" 0 untitledProbe
    demoState1 (by rfl) hrows
  ⟨⟨by rfl, by rfl, by decide, by rfl, hrows⟩, h.1, h.2.2.1, h.2.2.2.2.2.1,
    h.2.2.2.2.2.2.1⟩

/-! ## One iteration without exception, in closed form -/

theorem stateSampled_tracks (p : Probe) (s : LoopState) (hf : p.fault = none)
    (hsy : Synced s) : (stateSampled p s).1.allTracks = tracksAfter p s := by
  have hv : visitedRows p = p.rows := by simp [visitedRows, hf]
  unfold stateSampled tracksAfter
  rw [forEachRow_allTracks _ _ hsy, hv]
  rfl

/-- The variables and the exit of an iteration in which no call to the page throws. -/
theorem loopBody_fields (platform playlistTitle : String) (startedAt : Int) (p : Probe)
    (s : LoopState) (hf : p.fault = none) (hsy : Synced s) :
    (loopBody platform playlistTitle startedAt p s).state.allTracks = tracksAfter p s ∧
    Synced (loopBody platform playlistTitle startedAt p s).state ∧
    (loopBody platform playlistTitle startedAt p s).state.noNewRowsCount = noNewAfter p s ∧
    (loopBody platform playlistTitle startedAt p s).state.reachedBottomOnce =
      (s.reachedBottomOnce || atBottom p) ∧
    (loopBody platform playlistTitle startedAt p s).state.iteration = s.iteration + 1 ∧
    (((s.reachedBottomOnce || atBottom p) = true ∧ noNewAfter p s ≥ 1) →
      (loopBody platform playlistTitle startedAt p s).exit = some LoopExit.bottomStable ∧
      (loopBody platform playlistTitle startedAt p s).state.stagnantScrollCount =
        s.stagnantScrollCount) ∧
    (¬ ((s.reachedBottomOnce || atBottom p) = true ∧ noNewAfter p s ≥ 1) →
      (loopBody platform playlistTitle startedAt p s).state.stagnantScrollCount =
        stagnantAfter p s ∧
      ((stagnantAfter p s ≥ 3 ∧ noNewAfter p s ≥ 2) →
        (loopBody platform playlistTitle startedAt p s).exit = some LoopExit.stall) ∧
      (¬ (stagnantAfter p s ≥ 3 ∧ noNewAfter p s ≥ 2) →
        (p.now - startedAt > maxDurationMs →
          (loopBody platform playlistTitle startedAt p s).exit = some LoopExit.timeout) ∧
        (p.now - startedAt ≤ maxDurationMs →
          (loopBody platform playlistTitle startedAt p s).exit = none))) := by
  obtain ⟨hq, hx, hm, hs⟩ := no_fault p hf
  have htr := stateSampled_tracks p s hf hsy
  have hc := stateCounted_fields p s
  have hme := stateMeasured_fields p s
  have hsc := stateScrolled_fields p s
  have hnn : (stateCounted p s).noNewRowsCount = noNewAfter p s := by
    rw [hc.2.2.1, htr]
    rfl
  have hst := loopBody_state platform playlistTitle startedAt p s
  have hA_iff : checkA p s ↔ ((s.reachedBottomOnce || atBottom p) = true ∧ noNewAfter p s ≥ 1) := by
    unfold checkA
    rw [hme.2.2.2.2.2, hme.2.2.1, hnn]
  have hB_iff : checkB p s ↔ (stagnantAfter p s ≥ 3 ∧ noNewAfter p s ≥ 2) := by
    unfold checkB
    rw [hsc.2.2.2.1, hsc.2.2.1, hnn]
    rfl
  refine ⟨?_, loopBody_synced _ _ _ _ _ hsy, ?_, ?_, hst.1, ?_, ?_⟩
  · rw [hst.2.1, if_neg hq, htr]
  · by_cases hA : checkA p s
    · rw [loopBody_checkA _ _ _ _ _ hq hx hm hA]
      exact hme.2.2.1.trans hnn
    · rw [loopBody_past_checkA _ _ _ _ _ hq hx hm hA hs]
      have := hsc.2.2.1.trans hnn
      split_ifs <;> exact this
  · by_cases hA : checkA p s
    · rw [loopBody_checkA _ _ _ _ _ hq hx hm hA]
      exact hme.2.2.2.2.2
    · rw [loopBody_past_checkA _ _ _ _ _ hq hx hm hA hs]
      have := hsc.2.2.2.2.2
      split_ifs <;> exact this
  · intro hA
    rw [loopBody_checkA _ _ _ _ _ hq hx hm (hA_iff.mpr hA)]
    exact ⟨rfl, hme.2.2.2.1⟩
  · intro hA
    have hA2 : ¬ checkA p s := fun h => hA (hA_iff.mp h)
    rw [loopBody_past_checkA _ _ _ _ _ hq hx hm hA2 hs]
    refine ⟨?_, ?_, ?_⟩
    · have : (stateScrolled p s).stagnantScrollCount = stagnantAfter p s := hsc.2.2.2.1
      split_ifs <;> exact this
    · intro hB
      rw [if_pos (hB_iff.mpr hB)]
    · intro hB
      have hB2 : ¬ checkB p s := fun h => hB (hB_iff.mp h)
      rw [if_neg hB2]
      constructor
      · intro ht
        rw [if_pos ht]
      · intro ht
        rw [if_neg (not_lt.mpr ht)]

/-! ## Absorbing rows already seen -/

theorem absorb_titles_subset (acc : List Track) (c : Track) (t : String)
    (h : t ∈ acc.map Track.title) : t ∈ (absorb acc c).map Track.title := by
  obtain ⟨r, hr⟩ := absorb_extends acc c
  rw [← hr]
  simp only [List.map_append, List.mem_append]
  exact Or.inl h

theorem foldl_absorb_titles_subset (l : List Track) (acc : List Track) (t : String)
    (h : t ∈ acc.map Track.title) : t ∈ (l.foldl absorb acc).map Track.title := by
  obtain ⟨r, hr⟩ := foldl_absorb_extends l acc
  rw [← hr]
  simp only [List.map_append, List.mem_append]
  exact Or.inl h

theorem foldl_absorb_covers (l : List Track) (acc : List Track) :
    ∀ c ∈ l, c.title ∈ (l.foldl absorb acc).map Track.title := by
  induction l generalizing acc with
  | nil => simp
  | cons d ds ih =>
    intro c hc
    rw [List.foldl_cons]
    rcases List.mem_cons.mp hc with hc | hc
    · subst hc
      apply foldl_absorb_titles_subset
      unfold absorb
      split
      · assumption
      · simp
    · exact ih _ c hc

theorem foldl_absorb_seen (l : List Track) (acc : List Track)
    (h : ∀ c ∈ l, c.title ∈ acc.map Track.title) : l.foldl absorb acc = acc := by
  induction l with
  | nil => rfl
  | cons d ds ih =>
    rw [List.foldl_cons]
    have hd : absorb acc d = acc := by
      unfold absorb
      rw [if_pos (h d (by simp))]
    rw [hd]
    exact ih (fun c hc => h c (by simp [hc]))

theorem foldl_absorb_again (l : List Track) (acc : List Track) :
    l.foldl absorb (l.foldl absorb acc) = l.foldl absorb acc :=
  foldl_absorb_seen l _ (foldl_absorb_covers l acc)

/-! ## Unrolling the loop -/

theorem scrollLoop_unroll_continue (platform playlistTitle : String) (startedAt : Int)
    (probe : Nat → Probe) (fuel : Nat) (s : LoopState) (n : Nat) (hn : s.iteration = n)
    (hlt : n < 200)
    (he : (loopBody platform playlistTitle startedAt (probe (n + 1)) s).exit = none) :
    (scrollLoop platform playlistTitle startedAt probe (fuel + 1) s).exit =
      (scrollLoop platform playlistTitle startedAt probe fuel
        (loopBody platform playlistTitle startedAt (probe (n + 1)) s).state).exit ∧
    (scrollLoop platform playlistTitle startedAt probe (fuel + 1) s).state =
      (scrollLoop platform playlistTitle startedAt probe fuel
        (loopBody platform playlistTitle startedAt (probe (n + 1)) s).state).state ∧
    (scrollLoop platform playlistTitle startedAt probe (fuel + 1) s).history.length =
      (scrollLoop platform playlistTitle startedAt probe fuel
        (loopBody platform playlistTitle startedAt (probe (n + 1)) s).state).history.length
        + 1 := by
  subst hn
  rw [scrollLoop_continue _ _ _ _ _ _ hlt he]
  simp

theorem scrollLoop_unroll_stop (platform playlistTitle : String) (startedAt : Int)
    (probe : Nat → Probe) (fuel : Nat) (s : LoopState) (n : Nat) (e : LoopExit)
    (hn : s.iteration = n) (hlt : n < 200)
    (he : (loopBody platform playlistTitle startedAt (probe (n + 1)) s).exit = some e) :
    (scrollLoop platform playlistTitle startedAt probe (fuel + 1) s).exit = e ∧
    (scrollLoop platform playlistTitle startedAt probe (fuel + 1) s).state =
      (loopBody platform playlistTitle startedAt (probe (n + 1)) s).state ∧
    (scrollLoop platform playlistTitle startedAt probe (fuel + 1) s).history.length = 1 := by
  subst hn
  rw [scrollLoop_stop _ _ _ _ _ _ e hlt he]
  simp

theorem atBottom_false_of (p : Probe) (h : remaining p > 2) : atBottom p = false := by
  simp [atBottom, h]

theorem firstOccurrences_mem (l : List Track) (t : Track) (h : t ∈ firstOccurrences l) :
    t ∈ l := by
  obtain ⟨pre, post, hl, _⟩ := firstOccurrences_first l t h
  rw [hl]
  simp

/-- The list of first occurrences holds as many tracks as there are distinct titles. -/
theorem firstOccurrences_length (l : List Track) :
    (firstOccurrences l).length = (l.map Track.title).toFinset.card := by
  have hn : ((firstOccurrences l).map Track.title).Nodup := by
    rw [← foldl_absorb_nil]
    exact foldl_absorb_nodup l [] (by simp)
  rw [← List.length_map (firstOccurrences l) Track.title, ← List.toFinset_card_of_nodup hn]
  congr 1
  ext t
  simp only [List.mem_toFinset]
  constructor
  · intro h
    obtain ⟨x, hx, hxt⟩ := List.mem_map.mp h
    exact List.mem_map.mpr ⟨x, firstOccurrences_mem l x hx, hxt⟩
  · intro h
    obtain ⟨x, hx, hxt⟩ := List.mem_map.mp h
    have := foldl_absorb_covers l [] x hx
    rw [foldl_absorb_nil] at this
    rw [← hxt]
    exact this

/-! ## The scenarios of the specification -/

/-- Claim C11, as the code has it: when the same rows are sampled in iterations 1 to 3, the
offset read back after each scroll request is the offset read before, every measurement
leaves more than 2 pixels, no call throws and the time limit is not exceeded, the loop
is left in the third iteration by the stall guard with stagnantScrollCount = 3, and the
first occurrences of the titles of those rows are returned, as many tracks as there are
distinct non-empty titles. noNewRowsCount is then 2 when the rows hold at least one
title, and 3 when they hold none. -/
theorem stall_scenario (env : Env) (run : LoopRun) (rows : List Row)
    (hrun : (loadAllTracks false env).loop = some run)
    (hrows : ∀ k, 1 ≤ k → k ≤ 3 → (env.probe k).rows = rows)
    (hfault : ∀ k, 1 ≤ k → k ≤ 3 → (env.probe k).fault = none)
    (hstuck : ∀ k, 1 ≤ k → k ≤ 3 → (env.probe k).newScrollTop = (env.probe k).scrollTop)
    (hbottom : ∀ k, 1 ≤ k → k ≤ 3 → remaining (env.probe k) > 2)
    (htime : ∀ k, 1 ≤ k → k ≤ 3 → (env.probe k).now - env.startedAt ≤ 300000) :
    run.exit = LoopExit.stall ∧ run.history.length = 3 ∧ run.state.iteration = 3 ∧
    run.state.stagnantScrollCount = 3 ∧
    run.state.noNewRowsCount =
      (if firstOccurrences (rows.filterMap rowTrack) = [] then 3 else 2) ∧
    (loadAllTracks false env).returned = some (firstOccurrences (rows.filterMap rowTrack)) ∧
    (firstOccurrences (rows.filterMap rowTrack)).length =
      ((rows.filterMap rowTrack).map Track.title).toFinset.card := by
  obtain ⟨pl, _, hr, _, hret, _⟩ := loadAllTracks_entered env run hrun
  have htime2 : ∀ k, 1 ≤ k → k ≤ 3 → (env.probe k).now - env.startedAt ≤ maxDurationMs := by
    intro k h1 h3
    simpa [maxDurationMs] using htime k h1 h3
  -- iteration 1
  have f1 := loopBody_fields pl (playlistTitleOf env) env.startedAt (env.probe 1)
    LoopState.init (hfault 1 (by omega) (by omega)) (by simp [Synced, LoopState.init])
  have hb1 := atBottom_false_of _ (hbottom 1 (by omega) (by omega))
  have ht1 : tracksAfter (env.probe 1) LoopState.init =
      firstOccurrences (rows.filterMap rowTrack) := by
    unfold tracksAfter
    rw [hrows 1 (by omega) (by omega)]
    exact foldl_absorb_nil _
  have hs1 : stagnantAfter (env.probe 1) LoopState.init = 1 := by
    unfold stagnantAfter
    rw [if_pos (hstuck 1 (by omega) (by omega))]
    rfl
  have hA1 : ¬ ((LoopState.init.reachedBottomOnce || atBottom (env.probe 1)) = true ∧
      noNewAfter (env.probe 1) LoopState.init ≥ 1) := by
    simp [hb1, LoopState.init]
  have g1 := f1.2.2.2.2.2.2 hA1
  have hB1 : ¬ (stagnantAfter (env.probe 1) LoopState.init ≥ 3 ∧
      noNewAfter (env.probe 1) LoopState.init ≥ 2) := by
    rw [hs1]
    omega
  have he1 := (g1.2.2 hB1).2 (htime2 1 (by omega) (by omega))
  have hn1 : noNewAfter (env.probe 1) LoopState.init =
      (if firstOccurrences (rows.filterMap rowTrack) = [] then 1 else 0) := by
    unfold noNewAfter
    rw [ht1]
    cases firstOccurrences (rows.filterMap rowTrack) <;> simp [LoopState.init]
  -- iteration 2
  have f2 := loopBody_fields pl (playlistTitleOf env) env.startedAt (env.probe 2) _
    (hfault 2 (by omega) (by omega)) f1.2.1
  have hb2 := atBottom_false_of _ (hbottom 2 (by omega) (by omega))
  have ht2 : tracksAfter (env.probe 2)
      (loopBody pl (playlistTitleOf env) env.startedAt (env.probe 1) LoopState.init).state =
      firstOccurrences (rows.filterMap rowTrack) := by
    unfold tracksAfter
    rw [hrows 2 (by omega) (by omega), f1.1, ht1, ← foldl_absorb_nil]
    exact foldl_absorb_again _ _
  have hs2 : stagnantAfter (env.probe 2)
      (loopBody pl (playlistTitleOf env) env.startedAt (env.probe 1) LoopState.init).state
      = 2 := by
    unfold stagnantAfter
    rw [if_pos (hstuck 2 (by omega) (by omega)), g1.1, hs1]
  have hr1 : (loopBody pl (playlistTitleOf env) env.startedAt (env.probe 1)
      LoopState.init).state.reachedBottomOnce = false := by
    rw [f1.2.2.2.1, hb1]
    rfl
  have hA2 : ¬ (((loopBody pl (playlistTitleOf env) env.startedAt (env.probe 1)
      LoopState.init).state.reachedBottomOnce || atBottom (env.probe 2)) = true ∧
      noNewAfter (env.probe 2) (loopBody pl (playlistTitleOf env) env.startedAt (env.probe 1)
        LoopState.init).state ≥ 1) := by
    simp [hb2, hr1]
  have g2 := f2.2.2.2.2.2.2 hA2
  have hB2 : ¬ (stagnantAfter (env.probe 2) (loopBody pl (playlistTitleOf env) env.startedAt
      (env.probe 1) LoopState.init).state ≥ 3 ∧
      noNewAfter (env.probe 2) (loopBody pl (playlistTitleOf env) env.startedAt (env.probe 1)
        LoopState.init).state ≥ 2) := by
    rw [hs2]
    omega
  have he2 := (g2.2.2 hB2).2 (htime2 2 (by omega) (by omega))
  have hn2 : noNewAfter (env.probe 2) (loopBody pl (playlistTitleOf env) env.startedAt
      (env.probe 1) LoopState.init).state =
      (if firstOccurrences (rows.filterMap rowTrack) = [] then 2 else 1) := by
    unfold noNewAfter
    rw [ht2, f1.1, ht1, f1.2.2.1, hn1, if_neg (lt_irrefl _)]
    split_ifs <;> rfl
  -- iteration 3
  have f3 := loopBody_fields pl (playlistTitleOf env) env.startedAt (env.probe 3) _
    (hfault 3 (by omega) (by omega)) f2.2.1
  have hb3 := atBottom_false_of _ (hbottom 3 (by omega) (by omega))
  have ht3 : tracksAfter (env.probe 3)
      (loopBody pl (playlistTitleOf env) env.startedAt (env.probe 2)
        (loopBody pl (playlistTitleOf env) env.startedAt (env.probe 1)
          LoopState.init).state).state =
      firstOccurrences (rows.filterMap rowTrack) := by
    unfold tracksAfter
    rw [hrows 3 (by omega) (by omega), f2.1, ht2, ← foldl_absorb_nil]
    exact foldl_absorb_again _ _
  have hs3 : stagnantAfter (env.probe 3)
      (loopBody pl (playlistTitleOf env) env.startedAt (env.probe 2)
        (loopBody pl (playlistTitleOf env) env.startedAt (env.probe 1)
          LoopState.init).state).state = 3 := by
    unfold stagnantAfter
    rw [if_pos (hstuck 3 (by omega) (by omega)), g2.1, hs2]
  have hr2 : (loopBody pl (playlistTitleOf env) env.startedAt (env.probe 2)
      (loopBody pl (playlistTitleOf env) env.startedAt (env.probe 1)
        LoopState.init).state).state.reachedBottomOnce = false := by
    rw [f2.2.2.2.1, hb2, hr1]
    rfl
  have hn3 : noNewAfter (env.probe 3) (loopBody pl (playlistTitleOf env) env.startedAt
      (env.probe 2) (loopBody pl (playlistTitleOf env) env.startedAt (env.probe 1)
        LoopState.init).state).state =
      (if firstOccurrences (rows.filterMap rowTrack) = [] then 3 else 2) := by
    unfold noNewAfter
    rw [ht3, f2.1, ht2, f2.2.2.1, hn2, if_neg (lt_irrefl _)]
    split_ifs <;> rfl
  have hA3 : ¬ (((loopBody pl (playlistTitleOf env) env.startedAt (env.probe 2)
      (loopBody pl (playlistTitleOf env) env.startedAt (env.probe 1)
        LoopState.init).state).state.reachedBottomOnce || atBottom (env.probe 3)) = true ∧
      noNewAfter (env.probe 3) (loopBody pl (playlistTitleOf env) env.startedAt (env.probe 2)
        (loopBody pl (playlistTitleOf env) env.startedAt (env.probe 1)
          LoopState.init).state).state ≥ 1) := by
    simp [hb3, hr2]
  have g3 := f3.2.2.2.2.2.2 hA3
  have hB3 : stagnantAfter (env.probe 3) (loopBody pl (playlistTitleOf env) env.startedAt
      (env.probe 2) (loopBody pl (playlistTitleOf env) env.startedAt (env.probe 1)
        LoopState.init).state).state ≥ 3 ∧
      noNewAfter (env.probe 3) (loopBody pl (playlistTitleOf env) env.startedAt (env.probe 2)
        (loopBody pl (playlistTitleOf env) env.startedAt (env.probe 1)
          LoopState.init).state).state ≥ 2 := by
    rw [hs3, hn3]
    split_ifs <;> omega
  have he3 := g3.2.1 hB3
  -- the run
  have u1 := scrollLoop_unroll_continue pl (playlistTitleOf env) env.startedAt env.probe 200
    LoopState.init 0 rfl (by omega) he1
  have u2 := scrollLoop_unroll_continue pl (playlistTitleOf env) env.startedAt env.probe 199
    _ 1 f1.2.2.2.2.1 (by omega) he2
  have u3 := scrollLoop_unroll_stop pl (playlistTitleOf env) env.startedAt env.probe 198
    _ 2 LoopExit.stall (f2.2.2.2.2.1.trans (by rw [f1.2.2.2.2.1]; rfl)) (by omega) he3
  have hexit : run.exit = LoopExit.stall := by
    rw [hr, u1.1, u2.1, u3.1]
  have hstate : run.state = (loopBody pl (playlistTitleOf env) env.startedAt (env.probe 3)
      (loopBody pl (playlistTitleOf env) env.startedAt (env.probe 2)
        (loopBody pl (playlistTitleOf env) env.startedAt (env.probe 1)
          LoopState.init).state).state).state := by
    rw [hr, u1.2.1, u2.2.1, u3.2.1]
  refine ⟨hexit, ?_, ?_, ?_, ?_, ?_, firstOccurrences_length _⟩
  · rw [hr, u1.2.2, u2.2.2, u3.2.2]
  · rw [hstate, f3.2.2.2.2.1, f2.2.2.2.2.1, f1.2.2.2.2.1]
    rfl
  · rw [hstate, g3.1, hs3]
  · rw [hstate, f3.2.2.1, hn3]
  · rw [hret, if_neg (by rw [hexit]; simp), hstate, f3.1, ht3]

/-- Claim C11, on the first scenario of the specification: five rows with five titles, the
stall guard ends the run in the third iteration with noNewRowsCount = 2 and 5 tracks. -/
theorem stall_scenario_witness :
    ((loadAllTracks false stallEnv).loop = some stallRun ∧
      (∀ k, 1 ≤ k → k ≤ 3 → (stallEnv.probe k).rows = fiveRows) ∧
      (∀ k, 1 ≤ k → k ≤ 3 → (stallEnv.probe k).fault = none) ∧
      (∀ k, 1 ≤ k → k ≤ 3 → (stallEnv.probe k).newScrollTop = (stallEnv.probe k).scrollTop) ∧
      (∀ k, 1 ≤ k → k ≤ 3 → remaining (stallEnv.probe k) > 2) ∧
      (∀ k, 1 ≤ k → k ≤ 3 → (stallEnv.probe k).now - stallEnv.startedAt ≤ 300000)) ∧
    stallRun.exit = LoopExit.stall ∧ stallRun.history.length = 3 ∧
    stallRun.state.stagnantScrollCount = 3 ∧ stallRun.state.noNewRowsCount = 2 ∧
    (loadAllTracks false stallEnv).returned =
      some [⟨"T1", ["a"]⟩, ⟨"T2", []⟩, ⟨"T3", []⟩, ⟨"T4", []⟩, ⟨"T5", ["b", "c"]⟩] :=
  have h1 : ∀ k, 1 ≤ k → k ≤ 3 → (stallEnv.probe k).rows = fiveRows := fun _ _ _ => rfl
  have h2 : ∀ k, 1 ≤ k → k ≤ 3 → (stallEnv.probe k).fault = none := fun _ _ _ => rfl
  have h3 : ∀ k, 1 ≤ k → k ≤ 3 →
      (stallEnv.probe k).newScrollTop = (stallEnv.probe k).scrollTop := fun _ _ _ => rfl
  have h4 : ∀ k, 1 ≤ k → k ≤ 3 → remaining (stallEnv.probe k) > 2 := by
    intro k _ _
    have hk : remaining (stallEnv.probe k) = 4350 := rfl
    rw [hk]
    decide
  have h5 : ∀ k, 1 ≤ k → k ≤ 3 → (stallEnv.probe k).now - stallEnv.startedAt ≤ 300000 := by
    intro k _ hk
    show (1500 * (k : Int)) - 0 ≤ 300000
    omega
  have h := stall_scenario stallEnv stallRun fiveRows (by rfl) h1 h2 h3 h4 h5
  ⟨⟨by rfl, h1, h2, h3, h4, h5⟩, h.1, h.2.1, h.2.2.2.1, h.2.2.2.2.1.trans (by rfl),
    h.2.2.2.2.2.1.trans (by rfl)⟩

/-- Claim C11 fails as stated on rows that hold no title (k = 0): the same untitled row in
every iteration, an offset that never moves, no bottom measured and a clock that stands
still. The stall guard ends the run in the third iteration with stagnantScrollCount = 3
and no track, but noNewRowsCount is 3, not 2. -/
theorem stall_scenario_untitled_rows :
    (∀ k, (untitledStallEnv.probe k).rows = [⟨none, []⟩] ∧
      (untitledStallEnv.probe k).fault = none ∧
      (untitledStallEnv.probe k).newScrollTop = (untitledStallEnv.probe k).scrollTop ∧
      remaining (untitledStallEnv.probe k) > 2 ∧
      (untitledStallEnv.probe k).now - untitledStallEnv.startedAt ≤ 300000) ∧
    ([⟨none, []⟩] : List Row).filterMap rowTrack = [] ∧
    (loadAllTracks false untitledStallEnv).returned = some [] ∧
    (loadAllTracks false untitledStallEnv).loop.map
        (fun r => (r.exit, r.history.length, r.state.stagnantScrollCount)) =
      some (LoopExit.stall, 3, 3) ∧
    (loadAllTracks false untitledStallEnv).loop.map (fun r => r.state.noNewRowsCount) =
      some 3 ∧
    (loadAllTracks false untitledStallEnv).loop.map (fun r => r.state.noNewRowsCount) ≠
      some 2 :=
  have hrem : ∀ k, remaining (untitledStallEnv.probe k) > 2 := by
    intro k
    have hk : remaining (untitledStallEnv.probe k) = 4350 := rfl
    rw [hk]
    decide
  have hnow : ∀ k, (untitledStallEnv.probe k).now - untitledStallEnv.startedAt ≤ 300000 := by
    intro k
    have hk : (untitledStallEnv.probe k).now - untitledStallEnv.startedAt = 0 := rfl
    rw [hk]
    decide
  ⟨fun k => ⟨rfl, rfl, rfl, hrem k, hnow k⟩, by rfl, by rfl, by rfl, by rfl, by decide⟩

theorem tracksAfter_collected (probe : Nat → Probe) (s : LoopState) (n : Nat)
    (hn : s.iteration = n) (hc : Collected probe s) :
    s.allTracks = firstOccurrences (sampledTracks probe n) ∧
    tracksAfter (probe (n + 1)) s = firstOccurrences (sampledTracks probe (n + 1)) := by
  have h1 : s.allTracks = firstOccurrences (sampledTracks probe n) := by
    rw [hc.2, hn, foldl_absorb_nil]
  refine ⟨h1, ?_⟩
  unfold tracksAfter
  rw [hc.2, hn, ← List.foldl_append, foldl_absorb_nil]
  rfl

/-- An iteration that finds a new title, away from the bottom and within the time limit,
goes on to the next one with noNewRowsCount = 0. -/
theorem scrollLoop_progress (platform playlistTitle : String) (startedAt : Int)
    (probe : Nat → Probe) (fuel : Nat) (s : LoopState) (n : Nat) (hn : s.iteration = n)
    (hlt : n < 200) (hc : Collected probe s) (hr : s.reachedBottomOnce = false)
    (hf : (probe (n + 1)).fault = none)
    (hgrow : (firstOccurrences (sampledTracks probe n)).length <
      (firstOccurrences (sampledTracks probe (n + 1))).length)
    (hb : remaining (probe (n + 1)) > 2)
    (ht : (probe (n + 1)).now - startedAt ≤ 300000) :
    ∃ s2 : LoopState,
      s2.iteration = n + 1 ∧ Collected probe s2 ∧ s2.reachedBottomOnce = false ∧
      s2.noNewRowsCount = 0 ∧
      (scrollLoop platform playlistTitle startedAt probe (fuel + 1) s).exit =
        (scrollLoop platform playlistTitle startedAt probe fuel s2).exit ∧
      (scrollLoop platform playlistTitle startedAt probe (fuel + 1) s).state =
        (scrollLoop platform playlistTitle startedAt probe fuel s2).state ∧
      (scrollLoop platform playlistTitle startedAt probe (fuel + 1) s).history.length =
        (scrollLoop platform playlistTitle startedAt probe fuel s2).history.length + 1 := by
  have f := loopBody_fields platform playlistTitle startedAt (probe (n + 1)) s hf hc.1
  obtain ⟨ht1, ht2⟩ := tracksAfter_collected probe s n hn hc
  have hb2 := atBottom_false_of _ hb
  have hnn : noNewAfter (probe (n + 1)) s = 0 := by
    unfold noNewAfter
    rw [ht1, ht2, if_pos hgrow]
  have hA : ¬ ((s.reachedBottomOnce || atBottom (probe (n + 1))) = true ∧
      noNewAfter (probe (n + 1)) s ≥ 1) := by
    simp [hr, hb2]
  have g := f.2.2.2.2.2.2 hA
  have hB : ¬ (stagnantAfter (probe (n + 1)) s ≥ 3 ∧ noNewAfter (probe (n + 1)) s ≥ 2) := by
    rw [hnn]
    omega
  have he := (g.2.2 hB).2 (by simpa [maxDurationMs] using ht)
  have u := scrollLoop_unroll_continue platform playlistTitle startedAt probe fuel s n hn hlt he
  refine ⟨_, f.2.2.2.2.1.trans (by rw [hn]), ⟨f.2.1, ?_⟩, ?_, f.2.2.1.trans hnn, u.1, u.2.1,
    u.2.2⟩
  · rw [f.1, ht2, f.2.2.2.2.1, hn, foldl_absorb_nil]
  · rw [f.2.2.2.1, hr, hb2]
    rfl

/-- An iteration that finds no new title and measures the bottom ends the run by check A. -/
theorem scrollLoop_bottom_stop (platform playlistTitle : String) (startedAt : Int)
    (probe : Nat → Probe) (fuel : Nat) (s : LoopState) (n : Nat) (hn : s.iteration = n)
    (hlt : n < 200) (hc : Collected probe s)
    (hf : (probe (n + 1)).fault = none)
    (hseen : ∀ c ∈ (probe (n + 1)).rows.filterMap rowTrack,
      c.title ∈ (firstOccurrences (sampledTracks probe n)).map Track.title)
    (hb : remaining (probe (n + 1)) ≤ 2) :
    (scrollLoop platform playlistTitle startedAt probe (fuel + 1) s).exit =
      LoopExit.bottomStable ∧
    (scrollLoop platform playlistTitle startedAt probe (fuel + 1) s).state.allTracks =
      firstOccurrences (sampledTracks probe n) ∧
    (scrollLoop platform playlistTitle startedAt probe (fuel + 1) s).state.iteration = n + 1 ∧
    (scrollLoop platform playlistTitle startedAt probe (fuel + 1) s).state.noNewRowsCount =
      s.noNewRowsCount + 1 ∧
    (scrollLoop platform playlistTitle startedAt probe (fuel + 1) s).history.length = 1 := by
  have f := loopBody_fields platform playlistTitle startedAt (probe (n + 1)) s hf hc.1
  obtain ⟨ht1, _⟩ := tracksAfter_collected probe s n hn hc
  have hta : tracksAfter (probe (n + 1)) s = s.allTracks := by
    unfold tracksAfter
    apply foldl_absorb_seen
    rw [ht1]
    exact hseen
  have hnn : noNewAfter (probe (n + 1)) s = s.noNewRowsCount + 1 := by
    unfold noNewAfter
    rw [hta, if_neg (lt_irrefl _)]
  have hb2 : atBottom (probe (n + 1)) = true := by simp [atBottom, hb]
  have hA : (s.reachedBottomOnce || atBottom (probe (n + 1))) = true ∧
      noNewAfter (probe (n + 1)) s ≥ 1 := by
    rw [hb2, hnn]
    simp
  have g := f.2.2.2.2.2.1 hA
  have u := scrollLoop_unroll_stop platform playlistTitle startedAt probe fuel s n
    LoopExit.bottomStable hn hlt g.1
  refine ⟨u.1, ?_, ?_, ?_, u.2.2⟩
  · rw [u.2.1, f.1, hta, ht1]
  · rw [u.2.1, f.2.2.2.2.1, hn]
  · rw [u.2.1, f.2.2.1, hnn]

/-- Claim C12, as the code has it: when iterations 1, 2 and 3 each introduce 10 new titles,
iteration 4 samples rows whose titles were all seen, the measurement leaves more than 2
pixels in iterations 1 to 3 and at most 2 in iteration 4, and no call throws within the
time limit, the loop is left by check A in iteration 4 itself, whether or not the offsets
keep changing: that iteration already counts one no-new-rows tick when it measures the
bottom. The 30 tracks are returned in the order first introduced. -/
theorem bottom_scenario (env : Env) (run : LoopRun)
    (hrun : (loadAllTracks false env).loop = some run)
    (hfault : ∀ k, 1 ≤ k → k ≤ 4 → (env.probe k).fault = none)
    (hnew : ∀ k, 1 ≤ k → k ≤ 3 →
      (firstOccurrences (sampledTracks env.probe k)).length = 10 * k)
    (hsame : ∀ c ∈ (env.probe 4).rows.filterMap rowTrack,
      c.title ∈ (firstOccurrences (sampledTracks env.probe 3)).map Track.title)
    (hbottom : ∀ k, 1 ≤ k → k ≤ 3 → remaining (env.probe k) > 2)
    (hbottom4 : remaining (env.probe 4) ≤ 2)
    (htime : ∀ k, 1 ≤ k → k ≤ 3 → (env.probe k).now - env.startedAt ≤ 300000) :
    run.exit = LoopExit.bottomStable ∧ run.history.length = 4 ∧ run.state.iteration = 4 ∧
    run.state.noNewRowsCount = 1 ∧
    (loadAllTracks false env).returned =
      some (firstOccurrences (sampledTracks env.probe 3)) ∧
    (firstOccurrences (sampledTracks env.probe 3)).length = 30 := by
  obtain ⟨pl, _, hr, _, hret, _⟩ := loadAllTracks_entered env run hrun
  have h0 : (firstOccurrences (sampledTracks env.probe 0)).length = 0 := rfl
  have hn1 := hnew 1 (by omega) (by omega)
  have hn2 := hnew 2 (by omega) (by omega)
  have hn3 := hnew 3 (by omega) (by omega)
  obtain ⟨s1, hi1, hc1, hr1, _, e1, t1, l1⟩ :=
    scrollLoop_progress pl (playlistTitleOf env) env.startedAt env.probe 200 LoopState.init 0
      rfl (by omega) (collected_init env.probe) rfl (hfault 1 (by omega) (by omega))
      (by rw [h0, hn1]; omega) (hbottom 1 (by omega) (by omega))
      (htime 1 (by omega) (by omega))
  obtain ⟨s2, hi2, hc2, hr2, _, e2, t2, l2⟩ :=
    scrollLoop_progress pl (playlistTitleOf env) env.startedAt env.probe 199 s1 1
      hi1 (by omega) hc1 hr1 (hfault 2 (by omega) (by omega))
      (by rw [hn1, hn2]; omega) (hbottom 2 (by omega) (by omega))
      (htime 2 (by omega) (by omega))
  obtain ⟨s3, hi3, hc3, _, hz3, e3, t3, l3⟩ :=
    scrollLoop_progress pl (playlistTitleOf env) env.startedAt env.probe 198 s2 2
      hi2 (by omega) hc2 hr2 (hfault 3 (by omega) (by omega))
      (by rw [hn2, hn3]; omega) (hbottom 3 (by omega) (by omega))
      (htime 3 (by omega) (by omega))
  obtain ⟨e4, t4, i4, n4, l4⟩ :=
    scrollLoop_bottom_stop pl (playlistTitleOf env) env.startedAt env.probe 197 s3 3
      hi3 (by omega) hc3 (hfault 4 (by omega) (by omega)) hsame hbottom4
  have hexit : run.exit = LoopExit.bottomStable := by
    rw [hr, e1, e2, e3, e4]
  refine ⟨hexit, ?_, ?_, ?_, ?_, hn3⟩
  · rw [hr, l1, l2, l3, l4]
  · rw [hr, t1, t2, t3, i4]
  · rw [hr, t1, t2, t3, n4, hz3]
  · rw [hret, if_neg (by rw [hexit]; simp), hr, t1, t2, t3, t4]

set_option maxRecDepth 100000 in
/-- Claim C12, on the second scenario of the specification: the run ends in iteration 4 with
the 30 tracks T1 to T30. -/
theorem bottom_scenario_witness :
    ((loadAllTracks false bottomEnv).loop = some bottomRun ∧
      (∀ k, 1 ≤ k → k ≤ 4 → (bottomEnv.probe k).fault = none) ∧
      (∀ k, 1 ≤ k → k ≤ 3 →
        (firstOccurrences (sampledTracks bottomEnv.probe k)).length = 10 * k) ∧
      (∀ c ∈ (bottomEnv.probe 4).rows.filterMap rowTrack,
        c.title ∈ (firstOccurrences (sampledTracks bottomEnv.probe 3)).map Track.title) ∧
      (∀ k, 1 ≤ k → k ≤ 3 → remaining (bottomEnv.probe k) > 2) ∧
      remaining (bottomEnv.probe 4) ≤ 2 ∧
      (∀ k, 1 ≤ k → k ≤ 3 → (bottomEnv.probe k).now - bottomEnv.startedAt ≤ 300000)) ∧
    bottomRun.exit = LoopExit.bottomStable ∧ bottomRun.history.length = 4 ∧
    (loadAllTracks false bottomEnv).returned =
      some ((List.range 30).map (fun i => ⟨"T" ++ toString (1 + i), []⟩)) :=
  have h1 : ∀ k, 1 ≤ k → k ≤ 4 → (bottomEnv.probe k).fault = none := fun _ _ _ => rfl
  have h2 : ∀ k, 1 ≤ k → k ≤ 3 →
      (firstOccurrences (sampledTracks bottomEnv.probe k)).length = 10 * k := by
    intro k hk1 hk3
    interval_cases k <;> rfl
  have h3 : ∀ c ∈ (bottomEnv.probe 4).rows.filterMap rowTrack,
      c.title ∈ (firstOccurrences (sampledTracks bottomEnv.probe 3)).map Track.title := by
    decide
  have h4 : ∀ k, 1 ≤ k → k ≤ 3 → remaining (bottomEnv.probe k) > 2 := by
    intro k hk1 hk3
    interval_cases k <;> decide
  have h5 : remaining (bottomEnv.probe 4) ≤ 2 := by decide
  have h6 : ∀ k, 1 ≤ k → k ≤ 3 → (bottomEnv.probe k).now - bottomEnv.startedAt ≤ 300000 := by
    intro k hk1 hk3
    interval_cases k <;> decide
  have h := bottom_scenario bottomEnv bottomRun (by rfl) h1 h2 h3 h4 h5 h6
  ⟨⟨by rfl, h1, h2, h3, h4, h5, h6⟩, h.1, h.2.1, h.2.2.2.2.1.trans (by rfl)⟩

set_option maxRecDepth 100000 in
/-- Claim C12 fails as stated on the second scenario of the specification: ten new titles in
each of iterations 1, 2 and 3, the same thirty rows from iteration 4 on, offsets that keep
changing, and a measurement that first leaves at most 2 pixels in iteration 4. The run
ends in iteration 4, not 5, with the 30 tracks. -/
theorem bottom_scenario_ends_in_iteration_4 :
    ((firstOccurrences (sampledTracks bottomEnv.probe 1)).length = 10 ∧
      (firstOccurrences (sampledTracks bottomEnv.probe 2)).length = 20 ∧
      (firstOccurrences (sampledTracks bottomEnv.probe 3)).length = 30 ∧
      (bottomEnv.probe 4).rows = titledRows 1 30 ∧
      (bottomEnv.probe 5).rows = titledRows 1 30 ∧
      (firstOccurrences (sampledTracks bottomEnv.probe 5)).length = 30 ∧
      (∀ k, (bottomEnv.probe (k + 1)).newScrollTop ≠ (bottomEnv.probe (k + 1)).scrollTop) ∧
      remaining (bottomEnv.probe 1) > 2 ∧ remaining (bottomEnv.probe 2) > 2 ∧
      remaining (bottomEnv.probe 3) > 2 ∧ remaining (bottomEnv.probe 4) ≤ 2) ∧
    (loadAllTracks false bottomEnv).loop.map
        (fun r => (r.exit, r.history.length, r.state.iteration)) =
      some (LoopExit.bottomStable, 4, 4) ∧
    (loadAllTracks false bottomEnv).loop.map (fun r => r.state.iteration) ≠ some 5 ∧
    (loadAllTracks false bottomEnv).returned.map List.length = some 30 :=
  have hmove : ∀ k,
      (bottomEnv.probe (k + 1)).newScrollTop ≠ (bottomEnv.probe (k + 1)).scrollTop := by
    intro k
    show (350 * ((k + 1 : Nat) : Int)) ≠ 350 * ((k + 1 - 1 : Nat) : Int)
    simp
  ⟨⟨by rfl, by rfl, by rfl, by rfl, by rfl, by rfl, hmove, by decide, by decide, by decide,
      by decide⟩, by rfl, by decide, by rfl⟩

/-! ## Counting the cleanup effects -/

theorem statusComplete_ne_capturing (n : Nat) : statusComplete n ≠ "Capturing playlist..." := by
  intro h
  have h2 := congrArg String.data h
  simp [statusComplete, String.data_append] at h2

theorem snapshotWrite_counts (platform playlistTitle : String) (p : Probe) (s : LoopState)
    (text : String) :
    (snapshotWrite platform playlistTitle p s).countP Effect.isFlagRelease = 0 ∧
    (snapshotWrite platform playlistTitle p s).countP Effect.isFinalWrite = 0 ∧
    (snapshotWrite platform playlistTitle p s).countP (Effect.hasStatus text) = 0 := by
  unfold snapshotWrite
  split <;> simp [Effect.isFlagRelease, Effect.isFinalWrite, Effect.hasStatus]

theorem loopBody_counts (platform playlistTitle : String) (startedAt : Int) (p : Probe)
    (s : LoopState) (text : String) :
    (loopBody platform playlistTitle startedAt p s).effects.countP Effect.isFlagRelease = 0 ∧
    (loopBody platform playlistTitle startedAt p s).effects.countP Effect.isFinalWrite = 0 ∧
    (loopBody platform playlistTitle startedAt p s).effects.countP (Effect.hasStatus text) =
      (if ((loopBody platform playlistTitle startedAt p s).exit = some LoopExit.bottomStable ∨
            (loopBody platform playlistTitle startedAt p s).exit = some LoopExit.timeout) ∧
          statusComplete (loopBody platform playlistTitle startedAt p s).state.allTracks.length
            = text
        then 1 else 0) := by
  have hs := snapshotWrite_counts platform playlistTitle p s text
  unfold loopBody
  split_ifs <;>
    simp_all [List.countP_append, List.countP_cons, Effect.isFlagRelease, Effect.isFinalWrite,
      Effect.hasStatus]

theorem scrollLoop_counts (platform playlistTitle : String) (startedAt : Int)
    (probe : Nat → Probe) (text : String) (fuel : Nat) (s : LoopState) :
    (scrollLoop platform playlistTitle startedAt probe fuel s).effects.countP
      Effect.isFlagRelease = 0 ∧
    (scrollLoop platform playlistTitle startedAt probe fuel s).effects.countP
      Effect.isFinalWrite = 0 ∧
    (scrollLoop platform playlistTitle startedAt probe fuel s).effects.countP
        (Effect.hasStatus text) =
      (if ((scrollLoop platform playlistTitle startedAt probe fuel s).exit =
              LoopExit.bottomStable ∨
            (scrollLoop platform playlistTitle startedAt probe fuel s).exit =
              LoopExit.timeout) ∧
          statusComplete
            (scrollLoop platform playlistTitle startedAt probe fuel s).state.allTracks.length
            = text
        then 1 else 0) := by
  induction fuel generalizing s with
  | zero => simp [scrollLoop_zero]
  | succ fuel ih =>
    by_cases hlt : s.iteration < 200
    · have hb := loopBody_counts platform playlistTitle startedAt (probe (s.iteration + 1)) s text
      cases he : (loopBody platform playlistTitle startedAt (probe (s.iteration + 1)) s).exit with
      | some e =>
        rw [scrollLoop_stop _ _ _ _ _ _ e hlt he]
        rw [he] at hb
        simpa using hb
      | none =>
        rw [scrollLoop_continue _ _ _ _ _ _ hlt he]
        rw [he] at hb
        have hr := ih (loopBody platform playlistTitle startedAt (probe (s.iteration + 1)) s).state
        simp only [List.countP_append, hb.1, hb.2.1, hr.1, hr.2.1, hr.2.2, hb.2.2]
        simp
    · rw [scrollLoop_ceiling _ _ _ _ _ _ hlt]
      simp

theorem waitForRows_sleeps (poll : Nat → Option Nat) (attempts i : Nat) :
    ∀ e ∈ (waitForRows poll attempts i).1, e = Effect.sleep 500 := by
  induction attempts generalizing i with
  | zero => simp [waitForRows]
  | succ n ih =>
    unfold waitForRows
    cases poll i with
    | none => simp
    | some m =>
      cases m with
      | zero =>
        intro e he
        simp only [List.mem_cons] at he
        rcases he with he | he
        · exact he
        · exact ih (i + 1) e he
      | succ m => simp

theorem effectsBeforeLoop_counts (env : Env) (n : Nat) :
    (effectsBeforeLoop env).countP Effect.isFlagRelease = 0 ∧
    (effectsBeforeLoop env).countP Effect.isFinalWrite = 0 ∧
    (effectsBeforeLoop env).countP (Effect.hasStatus (statusComplete n)) = 0 ∧
    ∀ e ∈ effectsBeforeLoop env, e.isSnapshotWrite = false := by
  have hw := waitForRows_sleeps env.poll 12 0
  have hne : ("Capturing playlist..." == statusComplete n) = false := by
    simpa using (statusComplete_ne_capturing n).symm
  have hwz : ∀ (P : Effect → Bool), P (Effect.sleep 500) = false →
      (waitForRows env.poll 12 0).1.countP P = 0 := by
    intro P hP
    rw [List.countP_eq_zero]
    intro e he
    rw [hw e he, hP]
    simp
  unfold effectsBeforeLoop
  refine ⟨?_, ?_, ?_, ?_⟩
  · rw [List.countP_append, hwz _ rfl]
    simp [Effect.isFlagRelease]
  · rw [List.countP_append, hwz _ rfl]
    simp [Effect.isFinalWrite]
  · rw [List.countP_append, hwz _ rfl]
    simp [Effect.hasStatus, hne]
  · intro e he
    simp only [List.mem_append, List.mem_cons, List.not_mem_nil, or_false] at he
    rcases he with (he | he) | he
    · subst he
      rfl
    · subst he
      rfl
    · rw [hw e he]
      rfl

/-- Claim C20, as the code has it: on every termination path of the scroll loop (check A,
check B, timeout, iteration ceiling) the run releases the flag exactly once and issues
the final write, which carries the snapshot of the returned tracks, exactly once. The
status 'Capture complete. N songs saved.', with N the number of returned tracks, is
written twice on the check B and ceiling paths (finally block and final write) and three
times on the check A and timeout paths, which also write it before the break. -/
theorem cleanup_counts (env : Env) (run : LoopRun)
    (hrun : (loadAllTracks false env).loop = some run)
    (hexit : run.exit ≠ LoopExit.threw) :
    (run.exit = LoopExit.bottomStable ∨ run.exit = LoopExit.stall ∨
      run.exit = LoopExit.timeout ∨ run.exit = LoopExit.ceiling) ∧
    (loadAllTracks false env).returned = some run.state.allTracks ∧
    (loadAllTracks false env).effects.countP Effect.isFlagRelease = 1 ∧
    (loadAllTracks false env).effects.countP Effect.isFinalWrite = 1 ∧
    (loadAllTracks false env).effects.countP
        (Effect.hasStatus (statusComplete run.state.allTracks.length)) =
      (if run.exit = LoopExit.bottomStable ∨ run.exit = LoopExit.timeout then 3 else 2) := by
  obtain ⟨pl, _, hr, _, hret, heff⟩ := loadAllTracks_entered env run hrun
  have hb := effectsBeforeLoop_counts env run.state.allTracks.length
  have hl := scrollLoop_counts pl (playlistTitleOf env) env.startedAt env.probe
    (statusComplete run.state.allTracks.length) 201 LoopState.init
  rw [← hr] at hl
  have hcases : run.exit = LoopExit.bottomStable ∨ run.exit = LoopExit.stall ∨
      run.exit = LoopExit.timeout ∨ run.exit = LoopExit.ceiling := by
    rw [hr] at hexit ⊢
    exact scrollLoop_exit_cases _ _ _ _ _ (by simp [LoopState.init]) hexit
  refine ⟨hcases, ?_, ?_, ?_, ?_⟩
  · rw [hret, if_neg hexit]
  · rw [heff, if_neg hexit]
    simp [List.countP_append, List.countP_cons, hb.1, hl.1, Effect.isFlagRelease]
  · rw [heff, if_neg hexit]
    simp [List.countP_append, List.countP_cons, hb.2.1, hl.2.1, Effect.isFinalWrite]
  · rw [heff, if_neg hexit]
    simp only [List.countP_append, hb.2.2.1, hl.2.2]
    simp [List.countP_cons, Effect.hasStatus]
    split_ifs <;> rfl

/-- Claim C20, on the sample run, which ends by check A: one release of the flag, one final
write, and the status for its 3 tracks written three times. -/
theorem cleanup_counts_witness :
    ((loadAllTracks false demoEnv).loop = some demoRun ∧ demoRun.exit ≠ LoopExit.threw) ∧
    demoRun.exit = LoopExit.bottomStable ∧
    (loadAllTracks false demoEnv).effects.countP Effect.isFlagRelease = 1 ∧
    (loadAllTracks false demoEnv).effects.countP Effect.isFinalWrite = 1 ∧
    (loadAllTracks false demoEnv).effects.countP
      (Effect.hasStatus "Capture complete. 3 songs saved.") = 3 :=
  have h := cleanup_counts demoEnv demoRun (by rfl) (by decide)
  ⟨⟨by rfl, by decide⟩, by rfl, h.2.2.1, h.2.2.2.1, h.2.2.2.2.trans (by rfl)⟩

/-- Claim C20 fails as stated on the sample run, which ends by check A: the status
'Capture complete. 3 songs saved.' is written three times, at the break (line 268), in
the finally block (line 312) and in the final write (line 327), not once. On the first
scenario of the specification, which ends by check B, it is written twice. -/
theorem final_status_written_more_than_once :
    (loadAllTracks false demoEnv).loop.map (fun r => r.exit) = some LoopExit.bottomStable ∧
    (loadAllTracks false demoEnv).returned.map List.length = some 3 ∧
    (loadAllTracks false demoEnv).effects.filter
        (Effect.hasStatus "Capture complete. 3 songs saved.") =
      [Effect.storageSet none (some "Capture complete. 3 songs saved.") true,
       Effect.storageSet none (some "Capture complete. 3 songs saved.") true,
       Effect.storageSet
        (some ⟨"spotify", "Mix", [⟨"A", ["x"]⟩, ⟨"B", []⟩, ⟨"C", ["y"]⟩]⟩)
        (some "Capture complete. 3 songs saved.") true] ∧
    (loadAllTracks false demoEnv).effects.countP
      (Effect.hasStatus "Capture complete. 3 songs saved.") ≠ 1 ∧
    (loadAllTracks false stallEnv).loop.map (fun r => r.exit) = some LoopExit.stall ∧
    (loadAllTracks false stallEnv).effects.countP
      (Effect.hasStatus "Capture complete. 5 songs saved.") = 2 :=
  ⟨by rfl, by rfl, by rfl, by decide, by rfl, by rfl⟩

/-! ## Snapshot suppression -/

/-- An iteration that reaches line 241 issues a snapshot write exactly when the flag
reachedBottomOnce was false on entry. -/
theorem loopBody_snapshot_iff (platform playlistTitle : String) (startedAt : Int) (p : Probe)
    (s : LoopState) (hq : p.fault ≠ some Fault.query) (hx : extractThrows p = false) :
    (∃ e ∈ (loopBody platform playlistTitle startedAt p s).effects, e.isSnapshotWrite = true) ↔
      s.reachedBottomOnce = false := by
  have hc := (stateCounted_fields p s).2.2.2.2.2
  unfold loopBody snapshotWrite
  simp only [hq, hx, if_false, Bool.false_eq_true, hc]
  cases hr : s.reachedBottomOnce <;> split_ifs <;>
    first | contradiction | simp [Effect.isSnapshotWrite]

/-- An iteration that goes on has executed its measurement. -/
theorem loopBody_continue_bottom (platform playlistTitle : String) (startedAt : Int)
    (p : Probe) (s : LoopState)
    (h : (loopBody platform playlistTitle startedAt p s).exit = none) :
    (loopBody platform playlistTitle startedAt p s).state.reachedBottomOnce =
      (s.reachedBottomOnce || atBottom p) := by
  have hne : (loopBody platform playlistTitle startedAt p s).exit ≠ some LoopExit.threw := by
    rw [h]
    simp
  obtain ⟨hq, hx, hm, hs⟩ := loopBody_no_throw platform playlistTitle startedAt p s hne
  have hA : ¬ checkA p s := by
    intro hA
    rw [loopBody_checkA _ _ _ _ _ hq hx hm hA] at h
    simp at h
  rw [loopBody_past_checkA _ _ _ _ _ hq hx hm hA (hs hA)]
  have := (stateScrolled_fields p s).2.2.2.2.2
  split_ifs <;> exact this

/-- The flag reachedBottomOnce on entry of an executed iteration is true exactly when an
earlier iteration of the run measured the bottom. -/
theorem reachedBottomOnce_iff (env : Env) (run : LoopRun)
    (hrun : (loadAllTracks false env).loop = some run) (k : Nat) (a : LoopState)
    (ha : (LoopState.init :: run.history)[k]? = some a) (hk : k < run.history.length) :
    a.reachedBottomOnce = true ↔ ∃ j, j < k ∧ atBottom (env.probe (j + 1)) = true := by
  induction k generalizing a with
  | zero =>
    simp at ha
    subst ha
    simp [LoopState.init]
  | succ k ih =>
    have hk2 : k < run.history.length := by omega
    have hlen : k < (LoopState.init :: run.history).length := by
      simp only [List.length_cons]
      omega
    have hprev := List.getElem?_eq_getElem hlen
    obtain ⟨pl, _, _, _, _, hnext, hstop, _⟩ :=
      loadAllTracks_iteration env run hrun k _ hprev hk2
    have ha2 : run.history[k]? = some a := by simpa using ha
    rw [hnext] at ha2
    have hnone : (loopBody pl (playlistTitleOf env) env.startedAt (env.probe (k + 1))
        ((LoopState.init :: run.history)[k])).exit = none := by
      cases he : (loopBody pl (playlistTitleOf env) env.startedAt (env.probe (k + 1))
          ((LoopState.init :: run.history)[k])).exit with
      | none => rfl
      | some e =>
        have := (hstop e he).1
        omega
    have hb := loopBody_continue_bottom _ _ _ _ _ hnone
    have hih := ih _ hprev hk2
    simp only [Option.some.injEq] at ha2
    rw [← ha2, hb, Bool.or_eq_true, hih]
    constructor
    · rintro (⟨j, hj, hjb⟩ | h)
      · exact ⟨j, by omega, hjb⟩
      · exact ⟨k, by omega, h⟩
    · rintro ⟨j, hj, hjb⟩
      by_cases hjk : j = k
      · subst hjk
        exact Or.inr hjb
      · exact Or.inl ⟨j, by omega, hjb⟩

/-- Claim C17: Snapshot suppression. An executed iteration `k + 1` that reaches the snapshot
step issues an incremental snapshot write exactly when no earlier iteration of the run
measured the bottom. The effects of the run are those issued before the loop, which hold
no snapshot write, then those of the executed iterations in order, then the release of
the flag with its status write and, unless the loop threw, the final write: once the
bottom was measured, the only later snapshot write is the final one. -/
theorem snapshot_suppression (env : Env) (run : LoopRun) (platform : String)
    (hrun : (loadAllTracks false env).loop = some run)
    (hp : detectPlatform env.host = some platform) (k : Nat) (a : LoopState)
    (ha : (LoopState.init :: run.history)[k]? = some a) (hk : k < run.history.length)
    (hq : (env.probe (k + 1)).fault ≠ some Fault.query)
    (hx : extractThrows (env.probe (k + 1)) = false) :
    ((∃ e ∈ iterationEffects platform (playlistTitleOf env) env.startedAt env.probe a,
        e.isSnapshotWrite = true) ↔
      ∀ j, j < k → atBottom (env.probe (j + 1)) = false) ∧
    (a.reachedBottomOnce = true ↔ ∃ j, j < k ∧ atBottom (env.probe (j + 1)) = true) ∧
    (loadAllTracks false env).effects =
      effectsBeforeLoop env ++
        (LoopState.init :: run.history).dropLast.flatMap
          (iterationEffects platform (playlistTitleOf env) env.startedAt env.probe) ++
        [Effect.flag false,
         Effect.storageSet none (some (statusComplete run.state.allTracks.length))
           (!env.finallyStatusFails)] ++
        (if run.exit = LoopExit.threw then []
         else [Effect.storageSet
                (some ⟨platform, playlistTitleOf env, run.state.allTracks⟩)
                (some (statusComplete run.state.allTracks.length))
                (!env.finalWriteFails)]) ∧
    (∀ e ∈ effectsBeforeLoop env, e.isSnapshotWrite = false) := by
  obtain ⟨pl, hpl, hr, _, _, heff⟩ := loadAllTracks_entered env run hrun
  have hpp : pl = platform := by
    rw [hp] at hpl
    exact (Option.some.inj hpl).symm
  subst hpp
  obtain ⟨_, _, hit, _, _, _, _, _⟩ := loadAllTracks_iteration env run hrun k a ha hk
  have hiff := reachedBottomOnce_iff env run hrun k a ha hk
  refine ⟨?_, hiff, ?_, (effectsBeforeLoop_counts env 0).2.2.2⟩
  · unfold iterationEffects
    rw [hit, loopBody_snapshot_iff _ _ _ _ _ hq hx]
    constructor
    · intro hfalse j hj
      by_contra hb
      have : a.reachedBottomOnce = true := hiff.mpr ⟨j, hj, by simpa using hb⟩
      rw [hfalse] at this
      cases this
    · intro hall
      by_contra hne
      have htrue : a.reachedBottomOnce = true := by simpa using hne
      obtain ⟨j, hj, hjb⟩ := hiff.mp htrue
      rw [hall j hj] at hjb
      cases hjb
  · rw [heff, hr, scrollLoop_effects]

/-- Claim C17, on the sample run: iteration 2 measures the bottom; iteration 2 itself still
writes its snapshot, iteration 3 writes none. -/
theorem snapshot_suppression_witness :
    ((loadAllTracks false demoEnv).loop = some demoRun ∧
      detectPlatform demoEnv.host = some "spotify" ∧
      (LoopState.init :: demoRun.history)[2]? = some demoState2 ∧
      2 < demoRun.history.length ∧
      (demoEnv.probe 3).fault ≠ some Fault.query ∧ extractThrows (demoEnv.probe 3) = false) ∧
    atBottom (demoEnv.probe 2) = true ∧
    (∃ e ∈ iterationEffects "spotify" "Mix" 0 demoProbe demoState1,
      e.isSnapshotWrite = true) ∧
    ¬ (∃ e ∈ iterationEffects "spotify" "Mix" 0 demoProbe demoState2,
      e.isSnapshotWrite = true) :=
  have h := snapshot_suppression demoEnv demoRun "spotify" (by rfl) (by rfl) 2 demoState2
    (by rfl) (by decide) (by decide) (by rfl)
  ⟨⟨by rfl, by rfl, by rfl, by decide, by decide, by rfl⟩, by decide, by decide,
    fun hex => absurd (h.1.mp hex 1 (by decide)) (by decide)⟩

/-! ## Platform gating -/

/-- Claim C22: Platform gating is consistent between popup and content script. For every
string, detectPlatform is non-null exactly when isSupportedTab is true; both test the
same three domains as substrings. detectPlatform resolves a string that holds several
domains in the order spotify, youtube-music, apple-music, and isSupportedTab is false
for an empty or a missing url. -/
theorem platform_gating (s : String) :
    (detectPlatform s ≠ none ↔ isSupportedTab (some s) = true) ∧
    (isSupportedTab (some s) = true ↔
      (includes s "open.spotify.com" = true ∨ includes s "music.youtube.com" = true ∨
        includes s "music.apple.com" = true)) ∧
    (includes s "open.spotify.com" = true → detectPlatform s = some "spotify") ∧
    (includes s "open.spotify.com" = false → includes s "music.youtube.com" = true →
      detectPlatform s = some "youtube-music") ∧
    (includes s "open.spotify.com" = false → includes s "music.youtube.com" = false →
      includes s "music.apple.com" = true → detectPlatform s = some "apple-music") ∧
    (includes s "open.spotify.com" = false → includes s "music.youtube.com" = false →
      includes s "music.apple.com" = false → detectPlatform s = none) ∧
    isSupportedTab none = false ∧ isSupportedTab (some "") = false := by
  have hempty : ∀ pat : String, pat ≠ "" → includes "" pat = false := by
    intro pat hpat
    have hd : pat.data ≠ [] := by
      intro h
      apply hpat
      cases pat
      simp_all
    simp [includes, includesChars, hd]
  have hsup : isSupportedTab (some s) = true ↔
      (includes s "open.spotify.com" = true ∨ includes s "music.youtube.com" = true ∨
        includes s "music.apple.com" = true) := by
    unfold isSupportedTab
    by_cases hs : s = ""
    · subst hs
      simp [hempty "open.spotify.com" (by decide), hempty "music.youtube.com" (by decide),
        hempty "music.apple.com" (by decide)]
    · simp [hs, or_assoc]
  refine ⟨?_, hsup, ?_, ?_, ?_, ?_, rfl, rfl⟩
  · rw [hsup]
    unfold detectPlatform
    split_ifs <;> simp_all
  · intro h
    simp [detectPlatform, h]
  · intro h1 h2
    simp [detectPlatform, h1, h2]
  · intro h1 h2 h3
    simp [detectPlatform, h1, h2, h3]
  · intro h1 h2 h3
    simp [detectPlatform, h1, h2, h3]

/-- Claim C22, on a string that holds the apple and the spotify domain: both gates accept
it, and detectPlatform answers spotify. -/
theorem platform_gating_witness :
    includes "https://music.apple.com/?next=open.spotify.com" "open.spotify.com" = true ∧
    includes "https://music.apple.com/?next=open.spotify.com" "music.apple.com" = true ∧
    detectPlatform "https://music.apple.com/?next=open.spotify.com" = some "spotify" ∧
    isSupportedTab (some "https://music.apple.com/?next=open.spotify.com") = true :=
  have h := platform_gating "https://music.apple.com/?next=open.spotify.com"
  ⟨by rfl, by rfl, h.2.2.1 (by rfl), h.1.mp (by decide)⟩

/-! ## The popup -/

/-- Claim C23: renderPlaylist truncation. For a playlist with n >= 1 tracks the popup shows
the count n and hides the empty state; the list holds the items of the first min(n, 20)
tracks in stored order, followed by exactly one item '+ (n - 20) more…' when n > 20 and
by nothing otherwise. For a null playlist, or one whose tracks are missing or empty, it
shows the count '0', an empty list and the empty state. -/
theorem renderPlaylist_truncation (pl : StoredPlaylist) (tracks : List StoredTrack)
    (htracks : pl.tracks = some tracks) :
    (1 ≤ tracks.length →
      (renderPlaylist (some pl)).trackCount = toString tracks.length ∧
      (renderPlaylist (some pl)).emptyStateDisplay = "none" ∧
      (renderPlaylist (some pl)).trackItems =
        (tracks.take 20).map trackItem ++
          (if tracks.length > 20 then [moreItem (tracks.length - 20)] else []) ∧
      ((tracks.take 20).map trackItem).length = min tracks.length 20 ∧
      (renderPlaylist (some pl)).trackItems.length =
        min tracks.length 20 + (if tracks.length > 20 then 1 else 0)) ∧
    (tracks.length = 0 →
      (renderPlaylist (some pl)).trackCount = "0" ∧
      (renderPlaylist (some pl)).trackItems = [] ∧
      (renderPlaylist (some pl)).innerHTML = "" ∧
      (renderPlaylist (some pl)).emptyStateDisplay = "block") ∧
    (renderPlaylist none).trackCount = "0" ∧
    (renderPlaylist none).trackItems = [] ∧
    (renderPlaylist none).innerHTML = "" ∧
    (renderPlaylist none).emptyStateDisplay = "block" ∧
    (renderPlaylist (some { pl with tracks := none })).trackCount = "0" ∧
    (renderPlaylist (some { pl with tracks := none })).trackItems = [] ∧
    (renderPlaylist (some { pl with tracks := none })).emptyStateDisplay = "block" := by
  refine ⟨?_, ?_, rfl, rfl, rfl, rfl, rfl, rfl, rfl⟩
  · intro hn
    have hne : tracks.length ≠ 0 := by omega
    have hitems : (renderPlaylist (some pl)).trackItems =
        (tracks.take 20).map trackItem ++
          (if tracks.length > 20 then [moreItem (tracks.length - 20)] else []) := by
      simp only [renderPlaylist, htracks, hne, if_false, List.length_take]
      by_cases h20 : tracks.length > 20
      · have hmin : min 20 tracks.length = 20 := by omega
        simp [h20, hmin]
      · have hmin : min 20 tracks.length = tracks.length := by omega
        simp [h20, hmin]
    refine ⟨?_, ?_, hitems, ?_, ?_⟩
    · simp [renderPlaylist, htracks, hne]
    · simp [renderPlaylist, htracks, hne]
    · simp [List.length_take, Nat.min_comm]
    · rw [hitems]
      simp only [List.length_append, List.length_map, List.length_take]
      split_ifs <;> simp [Nat.min_comm]
  · intro h0
    simp [renderPlaylist, htracks, h0, PopupView.innerHTML, String.join]

/-- Claim C23, on a stored playlist of 23 tracks: the count is 23, and the list holds 20
track items and one item for the 3 tracks left out. -/
theorem renderPlaylist_truncation_witness :
    ((storedPlaylist 23).tracks =
        some ((List.range 23).map (fun i => ⟨"S" ++ toString (i + 1), some ["a", "b"]⟩)) ∧
      1 ≤ ((List.range 23).map
        (fun i => (⟨"S" ++ toString (i + 1), some ["a", "b"]⟩ : StoredTrack))).length) ∧
    (renderPlaylist (some (storedPlaylist 23))).trackCount = "23" ∧
    (renderPlaylist (some (storedPlaylist 23))).trackItems.length = 21 ∧
    (renderPlaylist (some (storedPlaylist 23))).trackItems.getLast? =
      some "<li class=\"track-artist\">+ 3 more…</li>" ∧
    (renderPlaylist (some (storedPlaylist 23))).trackItems.head? =
      some ("\n            <li>\n              <div class=\"track-title\">S1</div>" ++
        "\n              <div class=\"track-artist\">a, b</div>\n            </li>\n          ") :=
  have h := (renderPlaylist_truncation (storedPlaylist 23)
    ((List.range 23).map (fun i => ⟨"S" ++ toString (i + 1), some ["a", "b"]⟩)) (by rfl)).1
    (by decide)
  ⟨⟨by rfl, by decide⟩, h.1.trans (by rfl), h.2.2.2.2.trans (by rfl), by rfl, by rfl⟩

/-! ## The refresh path -/

theorem fingerprint_ne_empty (p : Snapshot) : fingerprint p ≠ "" := by
  intro h
  have h2 := congrArg String.data h
  simp [fingerprint, String.data_append] at h2

theorem fingerprint_congr (p q : Snapshot) (h1 : p.platform = q.platform)
    (h2 : p.tracks.length = q.tracks.length)
    (h3 : (p.tracks.take 3).map Track.title = (q.tracks.take 3).map Track.title) :
    fingerprint p = fingerprint q := by
  unfold fingerprint
  rw [h1, h2, h3]

/-- Claim C21: sendPlaylist change detection, without the debounce timer. The storage write
of a scraped payload is reached exactly when the payload is non-null, has at least one
track and its fingerprint differs from lastFingerprint, the fingerprint of the last
payload for which the write was reached; lastFingerprint is assigned exactly then, and
the payload is stored when the call succeeds. The first such payload is always written,
since no fingerprint is the initial empty string. Of two consecutive scrapes with equal
platform, equal number of tracks and equal first three titles, the second issues no
write and leaves lastFingerprint as it is, whatever the later tracks and the artists. -/
theorem sendPlaylist_change_detection (last : String) (payload : Option Snapshot)
    (storage storage2 : StorageCall) (p q : Snapshot)
    (hplatform : p.platform = q.platform)
    (hcount : p.tracks.length = q.tracks.length)
    (htitles : (p.tracks.take 3).map Track.title = (q.tracks.take 3).map Track.title) :
    ((sendPlaylist last payload storage).lastFingerprint ≠ last ↔
      ∃ x, payload = some x ∧ 1 ≤ x.tracks.length ∧ fingerprint x ≠ last) ∧
    (storage ≠ StorageCall.missing →
      ((sendPlaylist last payload storage).effects ≠ [] ↔
        ∃ x, payload = some x ∧ 1 ≤ x.tracks.length ∧ fingerprint x ≠ last)) ∧
    (∀ x, payload = some x → 1 ≤ x.tracks.length → fingerprint x ≠ last →
      (sendPlaylist last payload storage).lastFingerprint = fingerprint x ∧
      (sendPlaylist last payload storage).effects = storeLatest x storage ∧
      (sendPlaylist last payload StorageCall.succeeds).effects =
        [Effect.storageSet (some x) none true]) ∧
    ((¬ ∃ x, payload = some x ∧ 1 ≤ x.tracks.length ∧ fingerprint x ≠ last) →
      sendPlaylist last payload storage = ⟨last, []⟩) ∧
    (1 ≤ p.tracks.length →
      (sendPlaylist "" (some p) storage).lastFingerprint = fingerprint p ∧
      (sendPlaylist "" (some p) storage).effects = storeLatest p storage) ∧
    (sendPlaylist (sendPlaylist last (some p) storage).lastFingerprint (some q)
        storage2).effects = [] ∧
    (sendPlaylist (sendPlaylist last (some p) storage).lastFingerprint (some q)
        storage2).lastFingerprint = (sendPlaylist last (some p) storage).lastFingerprint := by
  have hfp := fingerprint_congr p q hplatform hcount htitles
  have hyes : ∀ x, payload = some x → 1 ≤ x.tracks.length → fingerprint x ≠ last →
      sendPlaylist last payload storage = ⟨fingerprint x, storeLatest x storage⟩ := by
    intro x hx hlen hne
    have : x.tracks.length ≠ 0 := by omega
    simp [sendPlaylist, hx, this, hne]
  have hno : (¬ ∃ x, payload = some x ∧ 1 ≤ x.tracks.length ∧ fingerprint x ≠ last) →
      sendPlaylist last payload storage = ⟨last, []⟩ := by
    intro h
    cases payload with
    | none => rfl
    | some x =>
      unfold sendPlaylist
      by_cases h0 : x.tracks.length = 0
      · simp [h0]
      · by_cases hf : fingerprint x = last
        · simp [h0, hf]
        · exact absurd ⟨x, rfl, by omega, hf⟩ h
  have hsecond : ∀ s2, sendPlaylist (sendPlaylist last (some p) storage).lastFingerprint
      (some q) s2 = ⟨(sendPlaylist last (some p) storage).lastFingerprint, []⟩ := by
    intro s2
    by_cases h0 : p.tracks.length = 0
    · have h0q : q.tracks.length = 0 := by omega
      simp [sendPlaylist, h0, h0q]
    · have h0q : q.tracks.length ≠ 0 := by omega
      by_cases hf : fingerprint p = last
      · simp [sendPlaylist, h0, h0q, hf, ← hfp]
      · simp [sendPlaylist, h0, h0q, hf, ← hfp]
  refine ⟨?_, ?_, ?_, hno, ?_, ?_, ?_⟩
  · constructor
    · intro hne
      by_contra hex
      rw [hno hex] at hne
      exact hne rfl
    · rintro ⟨x, hx, hlen, hf⟩
      rw [hyes x hx hlen hf]
      exact hf
  · intro hst
    constructor
    · intro hne
      by_contra hex
      rw [hno hex] at hne
      exact hne rfl
    · rintro ⟨x, hx, hlen, hf⟩
      rw [hyes x hx hlen hf]
      cases storage <;> simp [storeLatest] at hst ⊢
  · intro x hx hlen hf
    rw [hyes x hx hlen hf]
    refine ⟨rfl, rfl, ?_⟩
    have : x.tracks.length ≠ 0 := by omega
    simp [sendPlaylist, hx, this, hf, storeLatest]
  · intro hlen
    have : p.tracks.length ≠ 0 := by omega
    simp [sendPlaylist, this, fingerprint_ne_empty p]
  · rw [hsecond storage2]
  · rw [hsecond storage2]

/-- Claim C21, on two scrapes with the same platform, 4 tracks each and the same first three
titles: the first is stored, the second, with other artists and another fourth track, is not
written. -/
theorem sendPlaylist_change_detection_witness :
    (payloadA.platform = payloadB.platform ∧
      payloadA.tracks.length = payloadB.tracks.length ∧
      (payloadA.tracks.take 3).map Track.title = (payloadB.tracks.take 3).map Track.title ∧
      payloadA ≠ payloadB) ∧
    fingerprint payloadA = "spotify:4:A|B|C" ∧
    sendPlaylist "" (some payloadA) StorageCall.succeeds =
      ⟨"spotify:4:A|B|C", [Effect.storageSet (some payloadA) none true]⟩ ∧
    (sendPlaylist (sendPlaylist "" (some payloadA) StorageCall.succeeds).lastFingerprint
      (some payloadB) StorageCall.succeeds).effects = [] :=
  have h := sendPlaylist_change_detection "" (some payloadA) StorageCall.succeeds
    StorageCall.succeeds payloadA payloadB (by rfl) (by rfl) (by rfl)
  ⟨⟨by rfl, by rfl, by rfl, by decide⟩, by rfl, by rfl, h.2.2.2.2.2.1⟩

end ListPlay
